import Mathlib

/-!
# ObexFTP client session engine and Bluetooth service browse

A shallow embedding of `obexftp/client.c` and `obexftp/bt_discovery.c`.

Conventions of the embedding.

* A C string is the list of its bytes without the terminating NUL
  (`'/'` is 47); a possibly-NULL `char *` is an `Option` of such a list.
* The session value carries, next to the fields of the C struct, an
  append-only record of what the code did to the outside world: the
  calls of the event callback, the requests handed to `OBEX_Request`,
  the system calls, the headers added to the request being streamed.
* What the outside world answers (events delivered by the framing
  library while `OBEX_HandleInput` runs, return values of `creat`,
  `read`, of the object builders, of the SDP searches) is an argument
  of the embedded function.
* What `malloc` returns for the accumulator is an argument as well;
  `strdup`, whose result the code does not test, succeeds.
-/

namespace ObexFtp

/-! ## Constants -/

/-- Header identifier of a BODY header. -/
def OBEX_HDR_BODY : Nat := 0x48
/-- Header identifier of a WHO header. -/
def OBEX_HDR_WHO : Nat := 0x4a
/-- Header identifier of an APPARAM header. -/
def OBEX_HDR_APPARAM : Nat := 0x4c
/-- Header identifier of a CONNECTION-ID header. -/
def OBEX_HDR_CONNECTION : Nat := 0xcb
/-- Response code SUCCESS with the final bit stripped. -/
def OBEX_RSP_SUCCESS : Int := 0x20

/-- Permission bits of `sys/stat.h`. -/
def S_IRUSR : Nat := 0o400
/-- Owner write bit. -/
def S_IWUSR : Nat := 0o200
/-- Group read bit. -/
def S_IRGRP : Nat := 0o040
/-- Others read bit. -/
def S_IROTH : Nat := 0o004

/-- Modelled from the spec: `STREAM_CHUNK` of `client.h`, which is not among
the sources; the spec gives the chunk of the outbound stream buffer as 4 KiB. -/
def STREAM_CHUNK : Nat := 4096

/-- The `sizeof(apparam_t)`: three `uint8_t` members, the last an array of four. -/
def sizeof_apparam_t : Nat := 1 + 1 + 4

/-! ## Data model -/

/-- Events passed to the callback `cli->infocb` (`obexftp.h`). -/
inductive obexftp_ev
  | OBEXFTP_EV_ERR
  | OBEXFTP_EV_OK
  | OBEXFTP_EV_CONNECTING
  | OBEXFTP_EV_DISCONNECTING
  | OBEXFTP_EV_SENDING
  | OBEXFTP_EV_RECEIVING
  | OBEXFTP_EV_BODY
  | OBEXFTP_EV_INFO
  | OBEXFTP_EV_PROGRESS
  deriving DecidableEq, Repr

open obexftp_ev

/-- Second argument of the callback: a C string (possibly NULL), a pointer
to body bytes, or an integer cast to a pointer. -/
inductive Msg
  | text (s : Option (List Nat))
  | bytes (b : List Nat)
  | int (n : Nat)
  deriving DecidableEq, Repr

/-- One call `cli->infocb(ev, msg, len, cli->infocb_data)`. -/
structure InfoCall where
  ev : obexftp_ev
  msg : Msg
  len : Int
  deriving DecidableEq, Repr

/-- The two TARGET values of `uuid.h` used by connect. -/
inductive Uuid
  | UUID_S45
  | UUID_FBS
  deriving DecidableEq, Repr

/-- A request object, named after the builder that made it and the
arguments the builder was given. -/
inductive Request
  | connect (target : Uuid)
  | disconnect
  | build_info (opcode : Nat)
  | build_list (name : List Nat)
  | build_get (name : List Nat)
  | build_rename (sourcename targetname : Option (List Nat))
  | build_del (name : Option (List Nat))
  | build_setpath (name : Option (List Nat))
  | build_object_from_file (localname : List Nat) (remotename : Option (List Nat))
  deriving DecidableEq, Repr

/-- Calls into the operating system and the transport layer. -/
inductive Syscall
  | IrOBEX_TransportConnect (service : List Nat)
  | OBEX_TransportConnect
  | close (fd : Int)
  | creat (path : List Nat) (mode : Nat)
  | write (fd : Int) (buf : List Nat) (count : Int)
  | open_rdonly (path : List Nat)
  | read (fd : Int) (count : Nat)
  deriving DecidableEq, Repr

/-- Streaming flag of a BODY header added to a request. -/
inductive StreamFlag
  | OBEX_FL_STREAM_DATA
  | OBEX_FL_STREAM_DATAEND
  deriving DecidableEq, Repr

/-- A header added by `OBEX_ObjectAddHeader` while streaming: identifier,
bytes, length, flag. -/
structure AddedHeader where
  hi : Nat
  bs : List Nat
  size : Int
  flag : StreamFlag
  deriving DecidableEq, Repr

/-- A response header as `OBEX_ObjectGetNextHeader` yields it: the
identifier `hi` and the byte sequence `hv.bs`; its length `hlen` is a
`uint32_t`, so the sequence is shorter than `2^32`. -/
structure Header where
  hi : Nat
  bs : List Nat
  deriving DecidableEq, Repr

/-- Length `hlen` of a header. -/
def Header.hlen (h : Header) : Nat := h.bs.length

/-- The session `obexftp_client_t` (`client.h`), followed by the record of
its effects, oldest first. -/
structure obexftp_client_t where
  fd : Int
  target_fn : Option (List Nat)
  body_content : Option (List Nat)
  finished : Bool
  success : Bool
  obex_rsp : Int
  /-- Calls of `cli->infocb`. -/
  infocb_calls : List InfoCall
  /-- Objects handed to `OBEX_Request`. -/
  requests : List Request
  /-- System and transport calls. -/
  syscalls : List Syscall
  /-- Headers added to the request in flight by `cli_fillstream`. -/
  added : List AddedHeader
  /-- Stores outside an allocated buffer: index and buffer size. -/
  wild_stores : List (Nat × Nat)
  deriving DecidableEq, Repr

/-- The call `cli->infocb(ev, msg, len, cli->infocb_data)`. -/
def infocb (cli : obexftp_client_t) (ev : obexftp_ev) (msg : Msg) (len : Int) :
    obexftp_client_t :=
  { cli with infocb_calls := cli.infocb_calls ++ [⟨ev, msg, len⟩] }

/-- A system or transport call is recorded. -/
def syscall (cli : obexftp_client_t) (c : Syscall) : obexftp_client_t :=
  { cli with syscalls := cli.syscalls ++ [c] }

/-- A session as `obexftp_cli_open` leaves it (`calloc`, then `fd = -1`). -/
def obexftp_cli_open : obexftp_client_t :=
  { fd := -1, target_fn := none, body_content := none, finished := false,
    success := false, obex_rsp := 0, infocb_calls := [], requests := [],
    syscalls := [], added := [], wild_stores := [] }

/-! ## Machine integers -/

/-- Conversion of a `uint32_t` to `int` (two's complement, 32 bit). -/
def u32_to_int (n : Nat) : Int :=
  if n % 2 ^ 32 < 2 ^ 31 then ((n % 2 ^ 32 : Nat) : Int) else ((n % 2 ^ 32 : Nat) : Int) - 2 ^ 32

/-- The `uint32_t` expression `hlen - 1`. -/
def u32_pred (hlen : Nat) : Nat := (hlen + 2 ^ 32 - 1) % 2 ^ 32

/-- Whether the host stores the low byte first. -/
def host_little_endian : Bool := true

/-- The `uint32_t` that `memcpy` of four bytes yields on a host. -/
def load_u32 (little : Bool) (b0 b1 b2 b3 : Nat) : Nat :=
  if little then b0 + b1 * 2 ^ 8 + b2 * 2 ^ 16 + b3 * 2 ^ 24
  else b0 * 2 ^ 24 + b1 * 2 ^ 16 + b2 * 2 ^ 8 + b3

/-- Byte swap of a 32-bit value. -/
def bswap32 (x : Nat) : Nat :=
  (x % 2 ^ 8) * 2 ^ 24 + (x / 2 ^ 8 % 2 ^ 8) * 2 ^ 16 + (x / 2 ^ 16 % 2 ^ 8) * 2 ^ 8
    + (x / 2 ^ 24 % 2 ^ 8)

/-- Network to host byte order of a 32-bit value. -/
def ntohl (little : Bool) (x : Nat) : Nat := if little then bswap32 x else x

/-- The value `ntohl(info)` after `memcpy(&info, &(app->info), sizeof(info))`,
where `app` points at the header bytes: `info` is the member at offset 2. -/
def apparam_info (little : Bool) (bs : List Nat) : Nat :=
  ntohl little (load_u32 little (bs.getD 2 0) (bs.getD 3 0) (bs.getD 4 0) (bs.getD 5 0))

/-! ## Inbound drain: `client_done` -/

/-- Local variables of `client_done` that outlive the header loop. -/
structure DoneLocals where
  body : Option (List Nat)
  body_len : Int
  app : Option (List Nat)
  deriving DecidableEq, Repr

/-- The statements `cli->body_content = malloc(hlen)` and, under the test
`if (cli->body_content)`, the copy of `bs` into the fresh buffer of `hlen`
bytes and the store `cli->body_content[hlen - 1] = 0`.  The flag
`malloc_ok` tells whether `malloc` returns a buffer; when it returns NULL
the accumulator is left NULL. -/
def store_nul (cli : obexftp_client_t) (bs : List Nat) (hlen : Nat) (malloc_ok : Bool) :
    obexftp_client_t :=
  if malloc_ok = false then { cli with body_content := none }
  else if u32_pred hlen < hlen then
    { cli with body_content := some (bs.set (u32_pred hlen) 0) }
  else
    { cli with body_content := some bs,
               wild_stores := cli.wild_stores ++ [(u32_pred hlen, hlen)] }

/-- The body of the `while` loop of `client_done` for a BODY header. -/
def client_done_body (cli : obexftp_client_t) (h : Header) (malloc_ok : Bool) :
    obexftp_client_t :=
  let cli1 :=
    if cli.target_fn = none then store_nul cli (h.bs.take h.hlen) h.hlen malloc_ok
    else cli
  infocb cli1 OBEXFTP_EV_BODY (Msg.bytes h.bs) (u32_to_int h.hlen)

/-- The header loop of `client_done`: BODY headers are kept and reported,
an APPARAM header of the size of `apparam_t` is reported, and the loop is
left at the first APPARAM header. -/
def client_done_loop (cli : obexftp_client_t) (l : DoneLocals) (malloc_ok : Bool) :
    List Header → obexftp_client_t × DoneLocals
  | [] => (cli, l)
  | h :: hs =>
    if h.hi = OBEX_HDR_BODY then
      client_done_loop (client_done_body cli h malloc_ok)
        { l with body := some h.bs, body_len := u32_to_int h.hlen } malloc_ok hs
    else if h.hi = OBEX_HDR_CONNECTION then client_done_loop cli l malloc_ok hs
    else if h.hi = OBEX_HDR_WHO then client_done_loop cli l malloc_ok hs
    else if h.hi = OBEX_HDR_APPARAM then
      if h.hlen = sizeof_apparam_t then
        (infocb cli OBEXFTP_EV_INFO (Msg.int (apparam_info host_little_endian h.bs)) 0,
          { l with app := some h.bs })
      else (cli, l)
    else client_done_loop cli l malloc_ok hs

/-- The part of `client_done` after the loop: the simple body writer. -/
def client_done_write (cli : obexftp_client_t) (l : DoneLocals) (creat_ret : Int) :
    obexftp_client_t :=
  match l.body with
  | none => cli
  | some body =>
    if l.body_len > 0 then
      match cli.target_fn with
      | some fn =>
        let cli1 := syscall cli (Syscall.creat fn (S_IRUSR ||| S_IWUSR ||| S_IRGRP ||| S_IROTH))
        let cli2 :=
          if creat_ret > 0 then
            syscall (syscall cli1 (Syscall.write creat_ret body l.body_len))
              (Syscall.close creat_ret)
          else cli1
        { cli2 with target_fn := none }
      | none => cli
    else cli

/-- Save body from object or return application parameters.  The
argument `creat_ret` is what `creat` returns if it is called, `malloc_ok`
whether `malloc` returns a buffer when it is called. -/
def client_done (cli : obexftp_client_t) (headers : List Header) (creat_ret : Int)
    (malloc_ok : Bool) : obexftp_client_t :=
  let cli0 := if cli.fd > 0 then syscall cli (Syscall.close cli.fd) else cli
  let r := client_done_loop cli0 ⟨none, 0, none⟩ malloc_ok headers
  client_done_write r.1 r.2 creat_ret

/-! ## Outbound stream: `cli_fillstream` -/

/-- Add more data to stream.  The arguments `actual` and `data` are what
`read` returns and what it stored in `cli->stream_chunk`. -/
def cli_fillstream (cli : obexftp_client_t) (actual : Int) (data : List Nat) :
    obexftp_client_t × Int :=
  let cli0 := syscall cli (Syscall.read cli.fd STREAM_CHUNK)
  if actual > 0 then
    ({ cli0 with added := cli0.added ++
        [⟨OBEX_HDR_BODY, data.take actual.toNat, actual, StreamFlag.OBEX_FL_STREAM_DATA⟩] },
      actual)
  else if actual = 0 then
    let cli1 := syscall cli0 (Syscall.close cli0.fd)
    ({ cli1 with fd := -1, added := cli1.added ++
        [⟨OBEX_HDR_BODY, [], 0, StreamFlag.OBEX_FL_STREAM_DATAEND⟩] }, actual)
  else
    let cli1 := syscall cli0 (Syscall.close cli0.fd)
    ({ cli1 with fd := -1, added := cli1.added ++
        [⟨OBEX_HDR_BODY, [], 0, StreamFlag.OBEX_FL_STREAM_DATA⟩] }, actual)

/-! ## Event handler and synchronous request -/

/-- One call of `cli_obex_event` by the framing library, with the answers
of the operating system needed while it is handled: what `creat` returns,
and whether `malloc` returns a buffer for the accumulator. -/
inductive Delivery
  | OBEX_EV_PROGRESS
  | OBEX_EV_REQDONE (obex_rsp : Int) (headers : List Header) (creat_ret : Int)
      (malloc_ok : Bool)
  | OBEX_EV_LINKERR
  | OBEX_EV_STREAMEMPTY (actual : Int) (data : List Nat)
  | unknown
  deriving DecidableEq, Repr

/-- Incoming event from OpenOBEX. -/
def cli_obex_event (cli : obexftp_client_t) : Delivery → obexftp_client_t
  | Delivery.OBEX_EV_PROGRESS => infocb cli OBEXFTP_EV_PROGRESS (Msg.text (some [])) 0
  | Delivery.OBEX_EV_REQDONE obex_rsp headers creat_ret malloc_ok =>
    let cli1 := { cli with finished := true }
    let cli2 :=
      if obex_rsp = OBEX_RSP_SUCCESS then { cli1 with success := true }
      else { cli1 with success := false }
    let cli3 := { cli2 with obex_rsp := obex_rsp }
    client_done cli3 headers creat_ret malloc_ok
  | Delivery.OBEX_EV_LINKERR => { cli with finished := true, success := false }
  | Delivery.OBEX_EV_STREAMEMPTY actual data => (cli_fillstream cli actual data).1
  | Delivery.unknown => cli

/-- One call of `OBEX_HandleInput`: the events it delivers, in order, and
the value it returns. -/
structure Pump where
  deliveries : List Delivery
  ret : Int
  deriving DecidableEq, Repr

/-- The events of one `OBEX_HandleInput` call reach the handler in order. -/
def OBEX_HandleInput (cli : obexftp_client_t) (p : Pump) : obexftp_client_t :=
  p.deliveries.foldl cli_obex_event cli

/-- Do an OBEX request sync.  The script lists the `OBEX_HandleInput`
calls to come; the result is `none` when the script ends while the loop
is still waiting. -/
def obexftp_sync : obexftp_client_t → List Pump → Option (Int × obexftp_client_t)
  | cli, [] =>
    if cli.finished = false then none
    else some (if cli.success then 1 else -1, cli)
  | cli, p :: rest =>
    if cli.finished = false then
      let cli1 := OBEX_HandleInput cli p
      if p.ret ≤ 0 then some (-1, cli1) else obexftp_sync cli1 rest
    else some (if cli.success then 1 else -1, cli)

/-- Submit a request and wait for its end. -/
def cli_sync_request (cli : obexftp_client_t) (object : Request) (script : List Pump) :
    Option (Int × obexftp_client_t) :=
  obexftp_sync { cli with finished := false, requests := cli.requests ++ [object] } script


/-! ## C strings -/

/-- The bytes of a string literal. -/
def cstr (s : String) : List Nat := s.toList.map Char.toNat

/-- The loop `while (*name == '/') name++;`. -/
def skip_slashes : List Nat → List Nat
  | [] => []
  | c :: cs => if c = 47 then skip_slashes cs else c :: cs

/-- Search of `strchr` through the bytes `s` that start at offset `off`:
the offset of the first byte `c`, none when the string ends first (at
a NUL byte or at the end of the buffer). -/
def strchr_from : List Nat → Nat → Nat → Option Nat
  | [], _, _ => none
  | b :: bs, off, c =>
    if b = c then some off else if b = 0 then none else strchr_from bs (off + 1) c

/-- The call `strchr(buf + off, c)` as an offset into `buf`. -/
def strchr (buf : List Nat) (off : Nat) (c : Nat) : Option Nat :=
  strchr_from (buf.drop off) off c

/-- The C string that starts at offset `off` of `buf`. -/
def string_at (buf : List Nat) (off : Nat) : List Nat :=
  (buf.drop off).takeWhile (fun b => b != 0)

/-! ## Session operations -/

/-- The common tail of the operations: ERR or OK with the given
message, and the request result returned. -/
def report (cli : obexftp_client_t) (ret : Int) (msg : Option (List Nat)) :
    Int × obexftp_client_t :=
  if ret < 0 then (ret, infocb cli OBEXFTP_EV_ERR (Msg.text msg) 0)
  else (ret, infocb cli OBEXFTP_EV_OK (Msg.text msg) 0)

/-- Do connect as client.  The arguments `irobex_ret` and `obex_ret` are the
values the two transport connects return, `hdr1` and `hdr2` those of
`OBEX_ObjectAddHeader` for the two TARGET headers. -/
def obexftp_cli_connect (cli : obexftp_client_t) (irobex_ret obex_ret hdr1 hdr2 : Int)
    (script1 script2 : List Pump) : Option (Int × obexftp_client_t) :=
  let cli0 := infocb cli OBEXFTP_EV_CONNECTING (Msg.text (some [])) 0
  let cli1 := syscall cli0 (Syscall.IrOBEX_TransportConnect (cstr "OBEX"))
  let r : Int × obexftp_client_t :=
    if irobex_ret = -1 then (obex_ret, syscall cli1 Syscall.OBEX_TransportConnect)
    else (irobex_ret, cli1)
  if r.1 < 0 then
    some (-1, infocb r.2 OBEXFTP_EV_ERR (Msg.text (some (cstr "connect"))) 0)
  else if hdr1 < 0 then some (-1, r.2)
  else
    match cli_sync_request r.2 (Request.connect Uuid.UUID_S45) script1 with
    | none => none
    | some (ret, cli2) =>
      if ret < 0 then
        let cli3 := infocb cli2 OBEXFTP_EV_ERR (Msg.text (some (cstr "UUID"))) 0
        if hdr2 < 0 then some (-1, cli3)
        else
          match cli_sync_request cli3 (Request.connect Uuid.UUID_FBS) script2 with
          | none => none
          | some (ret2, cli4) =>
            if ret2 < 0 then
              some (ret2, infocb cli4 OBEXFTP_EV_ERR (Msg.text (some (cstr "target"))) 0)
            else some (ret2, infocb cli4 OBEXFTP_EV_OK (Msg.text (some [])) 0)
      else some (ret, infocb cli2 OBEXFTP_EV_OK (Msg.text (some [])) 0)

/-- Do disconnect as client. -/
def obexftp_cli_disconnect (cli : obexftp_client_t) (script : List Pump) :
    Option (Int × obexftp_client_t) :=
  let cli0 := infocb cli OBEXFTP_EV_DISCONNECTING (Msg.text (some [])) 0
  match cli_sync_request cli0 Request.disconnect script with
  | none => none
  | some (ret, cli1) =>
    if ret < 0 then
      some (ret, infocb cli1 OBEXFTP_EV_ERR (Msg.text (some (cstr "disconnect"))) 0)
    else some (ret, infocb cli1 OBEXFTP_EV_OK (Msg.text (some [])) 0)

/-- Do an OBEX GET with app info opcode.  The flag `built` tells whether
the object builder returned an object. -/
def obexftp_info (cli : obexftp_client_t) (opcode : Nat) (built : Bool)
    (script : List Pump) : Option (Int × obexftp_client_t) :=
  let cli0 := infocb cli OBEXFTP_EV_RECEIVING (Msg.text (some (cstr "info"))) 0
  if built = false then some (-1, cli0)
  else
    match cli_sync_request cli0 (Request.build_info opcode) script with
    | none => none
    | some (ret, cli1) => some (report cli1 ret (some (cstr "info")))

/-- The assignment to `cli->target_fn` at the start of get and list. -/
def set_target_fn (cli : obexftp_client_t) (localname : Option (List Nat)) :
    obexftp_client_t :=
  match localname with
  | some (c :: cs) => { cli with target_fn := some (c :: cs) }
  | _ => { cli with target_fn := none }

/-- Do an OBEX GET with TYPE. -/
def obexftp_list (cli : obexftp_client_t) (localname remotename : Option (List Nat))
    (built : Bool) (script : List Pump) : Option (Int × obexftp_client_t) :=
  match remotename with
  | none => some (-1, cli)
  | some remote =>
    let cli0 := infocb cli OBEXFTP_EV_RECEIVING (Msg.text (some remote)) 0
    let cli1 := set_target_fn cli0 localname
    let name := skip_slashes remote
    if built = false then some (-1, cli1)
    else
      match cli_sync_request cli1 (Request.build_list name) script with
      | none => none
      | some (ret, cli2) => some (report cli2 ret (some name))

/-- Do an OBEX GET. -/
def obexftp_get (cli : obexftp_client_t) (localname remotename : Option (List Nat))
    (built : Bool) (script : List Pump) : Option (Int × obexftp_client_t) :=
  match remotename with
  | none => some (-1, cli)
  | some remote =>
    let cli0 := infocb cli OBEXFTP_EV_RECEIVING (Msg.text (some remote)) 0
    let cli1 := set_target_fn cli0 localname
    if built = false then some (-1, cli1)
    else
      match cli_sync_request cli1 (Request.build_get remote) script with
      | none => none
      | some (ret, cli2) => some (report cli2 ret (some remote))

/-- Do an OBEX rename. -/
def obexftp_rename (cli : obexftp_client_t) (sourcename targetname : Option (List Nat))
    (built : Bool) (script : List Pump) : Option (Int × obexftp_client_t) :=
  let cli0 := infocb cli OBEXFTP_EV_SENDING (Msg.text sourcename) 0
  if built = false then some (-1, cli0)
  else
    match cli_sync_request cli0 (Request.build_rename sourcename targetname) script with
    | none => none
    | some (ret, cli1) => some (report cli1 ret sourcename)

/-- Do an OBEX PUT with empty file (delete). -/
def obexftp_del (cli : obexftp_client_t) (name : Option (List Nat))
    (built : Bool) (script : List Pump) : Option (Int × obexftp_client_t) :=
  let cli0 := infocb cli OBEXFTP_EV_SENDING (Msg.text name) 0
  if built = false then some (-1, cli0)
  else
    match cli_sync_request cli0 (Request.build_del name) script with
    | none => none
    | some (ret, cli1) => some (report cli1 ret name)

/-- The `for` loop of `obexftp_setpath` over the writable copy of the
name.  The pointers `tail` and `p` are offsets into `copy`, none for
NULL; each request takes the next script. -/
def setpath_loop (cli : obexftp_client_t) (ret : Int) (copy : List Nat) (tail p : Option Nat) :
    List (List Pump) → Option (Int × obexftp_client_t)
  | [] =>
    match tail with
    | none => some (ret, cli)
    | some _ => none
  | script :: rest =>
    match tail with
    | none => some (ret, cli)
    | some t =>
      let copy1 := match p with
        | some i => copy.set i 0
        | none => copy
      let p1 := p.map (fun i => i + 1)
      let name := string_at copy1 t
      let cli1 := infocb cli OBEXFTP_EV_SENDING (Msg.text (some name)) 0
      match cli_sync_request cli1 (Request.build_setpath (some name)) script with
      | none => none
      | some (ret1, cli2) =>
        if ret1 < 0 then some (ret1, cli2)
        else
          setpath_loop cli2 ret1 copy1 p1 (p1.bind (fun i => strchr copy1 i 47)) rest

/-- Do OBEX SetPath, change up if name is NULL. -/
def obexftp_setpath (cli : obexftp_client_t) (name : Option (List Nat))
    (scripts : List (List Pump)) : Option (Int × obexftp_client_t) :=
  let cli0 := infocb cli OBEXFTP_EV_SENDING (Msg.text name) 0
  match name with
  | some (c :: cs) =>
    let name1 := skip_slashes (c :: cs)
    match setpath_loop cli0 0 name1 (some 0) (strchr name1 0 47) scripts with
    | none => none
    | some (ret, cli1) => some (report cli1 ret (some name1))
  | _ =>
    match cli_sync_request cli0 (Request.build_setpath none) (scripts.headD []) with
    | none => none
    | some (ret, cli1) => some (report cli1 ret name)

/-- Do an OBEX PUT.  The argument `open_ret` is what `open` returns. -/
def obexftp_put_file (cli : obexftp_client_t) (localname remotename : Option (List Nat))
    (open_ret : Int) (script : List Pump) : Option (Int × obexftp_client_t) :=
  match localname with
  | none => some (-1, cli)
  | some loc =>
    let cli0 := infocb cli OBEXFTP_EV_SENDING (Msg.text (some loc)) 0
    let cli1 := { syscall cli0 (Syscall.open_rdonly loc) with fd := open_ret }
    if open_ret < 0 then some (report cli1 (-1) (some loc))
    else
      match cli_sync_request cli1 (Request.build_object_from_file loc remotename) script with
      | none => none
      | some (ret, cli2) => some (report cli2 ret (some loc))

/-- Do an OBEX GET with TYPE for the in-memory listing.  The first
component of the result is the returned pointer. -/
def obexftp_fast_list (cli : obexftp_client_t) (name : Option (List Nat))
    (built : Bool) (script : List Pump) : Option (Option (List Nat) × obexftp_client_t) :=
  match name with
  | none => some (none, cli)
  | some nm =>
    let cli0 := infocb cli OBEXFTP_EV_RECEIVING (Msg.text (some nm)) 0
    let cli1 := { cli0 with target_fn := none }
    let name1 := skip_slashes nm
    if built = false then some (none, cli1)
    else
      match cli_sync_request cli1 (Request.build_list name1) script with
      | none => none
      | some (ret, cli2) =>
        let cli3 := (report cli2 ret (some name1)).2
        some (cli3.body_content, cli3)


/-! ## Bluetooth service browse: `bt_discovery.c` -/

/-- Service class of IrMC Sync (`bluetooth/sdp.h`). -/
def IRMC_SYNC_SVCLASS_ID : Int := 0x1104
/-- Service class of OBEX Object Push. -/
def OBEX_OBJPUSH_SVCLASS_ID : Int := 0x1105
/-- Service class of OBEX File Transfer. -/
def OBEX_FILETRANS_SVCLASS_ID : Int := 0x1106

/-- Nokia OBEX PC Suite Services, 00005005-0000-1000-8000-0002ee000001. -/
def SVC_UUID_PCSUITE : List Nat :=
  [0x00, 0x00, 0x50, 0x05, 0x00, 0x00, 0x10, 0x00, 0x80, 0x00,
   0x00, 0x02, 0xee, 0x00, 0x00, 0x01]

/-- A service UUID as made by `sdp_uuid128_create` or `sdp_uuid16_create`. -/
inductive uuid_t
  | uuid128 (bytes : List Nat)
  | uuid16 (svclass : Int)
  deriving DecidableEq, Repr

/-- What is done to the SDP session. -/
inductive SdpCall
  | sdp_service_search_attr_req (uuid : uuid_t)
  | sdp_close
  deriving DecidableEq, Repr

/-- The remote SDP server: for a UUID, none when the search fails, else
the records found; a record is reduced to what the browse reads from it,
none when it has no access protocol list, else the value
`sdp_get_proto_port(access, RFCOMM_UUID)`. -/
abbrev SdpServer := uuid_t → Option (List (Option Int))

/-- The loop of `browse_sdp_uuid` through the list of services. -/
def browse_loop (channel : Int) : List (Option Int) → Int
  | [] => channel
  | none :: rest => browse_loop channel rest
  | some port :: rest => browse_loop port rest

/-- The SDP session `sess` that `sdp_connect` returned: whether `sdp_close`
has released it, and the calls made on it. -/
structure sdp_session_t where
  closed : Bool
  calls : List SdpCall
  deriving DecidableEq, Repr

/-- The call `sdp_close(sess)`, which closes the socket of the session and
frees it.  The result is none when the session was released before: the
call then works on freed memory and has no defined behaviour. -/
def sdp_close (sess : sdp_session_t) : Option sdp_session_t :=
  if sess.closed then none
  else some { closed := true, calls := sess.calls ++ [SdpCall.sdp_close] }

/-- Search one UUID on the session.  The result is the channel and the
session afterwards; a failed search closes the session before it returns
-1.  The result is none when the session was released before the call. -/
def browse_sdp_uuid (sdp : SdpServer) (sess : sdp_session_t) (uuid : uuid_t) :
    Option (Int × sdp_session_t) :=
  if sess.closed then none
  else
    let sess1 : sdp_session_t :=
      { sess with calls := sess.calls ++ [SdpCall.sdp_service_search_attr_req uuid] }
    match sdp uuid with
    | none =>
      match sdp_close sess1 with
      | none => none
      | some sess2 => some (-1, sess2)
    | some seq => some (browse_loop (-1) seq, sess1)

/-- Browse the remote device `addr` for a service class.  The flag
`connected` tells whether `sdp_connect` returned a session.  The local
device `src` only selects `dev_id`, which is not used afterwards.  The
result is the value returned and the calls made on the session, none when
a call is made on the session after its release. -/
def obexftp_browse_bt_src (_src addr : Option (List Nat)) (svclass : Int)
    (connected : Bool) (sdp : SdpServer) : Option (Int × List SdpCall) :=
  match addr with
  | none => some (-1, [])
  | some a =>
    if a.length ≠ 17 then some (-1, [])
    else if connected = false then some (-1, [])
    else
      let sess : sdp_session_t := ⟨false, []⟩
      let svclass1 :=
        if svclass ≠ IRMC_SYNC_SVCLASS_ID ∧ svclass ≠ OBEX_OBJPUSH_SVCLASS_ID
            ∧ svclass ≠ OBEX_FILETRANS_SVCLASS_ID then OBEX_FILETRANS_SVCLASS_ID
        else svclass
      let first : Option (Int × sdp_session_t) :=
        if svclass1 = OBEX_FILETRANS_SVCLASS_ID then
          browse_sdp_uuid sdp sess (uuid_t.uuid128 SVC_UUID_PCSUITE)
        else some (-1, sess)
      match first with
      | none => none
      | some (res, sess1) =>
        if svclass1 = OBEX_FILETRANS_SVCLASS_ID ∧ res > 0 then some (res, sess1.calls)
        else
          match browse_sdp_uuid sdp sess1 (uuid_t.uuid16 svclass1) with
          | none => none
          | some (res2, sess2) =>
            match sdp_close sess2 with
            | none => none
            | some sess3 => some (res2, sess3.calls)


/-! ## Notions used to state the properties -/

/-- The state in which `cli_sync_request` starts to wait. -/
def submitted (cli : obexftp_client_t) (object : Request) : obexftp_client_t :=
  { cli with finished := false, requests := cli.requests ++ [object] }

/-- The state after a run of `OBEX_HandleInput` calls. -/
def pumped (cli : obexftp_client_t) (ps : List Pump) : obexftp_client_t :=
  ps.foldl OBEX_HandleInput cli

/-- End of the request as the session flags tell it: none while
`finished` is false, else the `success` flag. -/
def flags_of (cli : obexftp_client_t) : Option Bool :=
  if cli.finished then some cli.success else none

/-- What one delivered event does to the end of the request. -/
def delivery_flags (fs : Option Bool) : Delivery → Option Bool
  | Delivery.OBEX_EV_REQDONE obex_rsp _ _ _ => some (decide (obex_rsp = OBEX_RSP_SUCCESS))
  | Delivery.OBEX_EV_LINKERR => some false
  | _ => fs

/-- The value a synchronous request returns, read off the script alone:
none when the script ends before the request does. -/
def outcome_from : Option Bool → List Pump → Option Int
  | some s, _ => some (if s then 1 else -1)
  | none, [] => none
  | none, p :: rest =>
    if p.ret ≤ 0 then some (-1) else outcome_from (p.deliveries.foldl delivery_flags none) rest

/-- The value `cli_sync_request` returns for a script. -/
def request_outcome (script : List Pump) : Option Int := outcome_from none script

/-- Number of ERR events the callback has received. -/
def err_count (cli : obexftp_client_t) : Nat :=
  (cli.infocb_calls.filter (fun c => decide (c.ev = OBEXFTP_EV_ERR))).length

/-- The INFO events among the calls of the callback. -/
def info_calls (calls : List InfoCall) : List InfoCall :=
  calls.filter (fun c => decide (c.ev = OBEXFTP_EV_INFO))

/-- Whether an event is one the event handler forwards while a request
runs (PROGRESS, BODY, INFO). -/
def forwarded (c : InfoCall) : Bool :=
  decide (c.ev = OBEXFTP_EV_PROGRESS) || decide (c.ev = OBEXFTP_EV_BODY)
    || decide (c.ev = OBEXFTP_EV_INFO)

/-- The events a call added to the record, those forwarded by the event
handler left out. -/
def own_events (before after : obexftp_client_t) : List InfoCall :=
  (after.infocb_calls.drop before.infocb_calls.length).filter (fun c => !forwarded c)

/-- The slash-separated components of a path whose leading slashes have
been removed, empty components included. -/
def components (path : List Nat) : List (List Nat) :=
  (skip_slashes path).splitOn 47

/-- The spec's `count_non_empty_components`: the number of non-empty
items when the path is split on the slash. -/
def count_non_empty_components (path : List Nat) : Nat :=
  ((path.splitOn 47).filter (fun c => decide (c ≠ []))).length

/-- The spec's non-empty components of a path: the non-empty items when
the path is split on the slash.  Modelled from the spec: the code has no
such notion, it sends a request for every item. -/
def non_empty_components (path : List Nat) : List (List Nat) :=
  (path.splitOn 47).filter (fun c => decide (c ≠ []))

/-- The NAME arguments of the SETPATH requests `obexftp_setpath` makes
when none fails: one per component, or the single NULL of the way up. -/
def setpath_names : Option (List Nat) → List (Option (List Nat))
  | some (c :: cs) => (components (c :: cs)).map some
  | _ => [none]

/-- The request sequence of the `for` loop of `obexftp_setpath` told by
the list of names still to send. -/
def setpath_seq (cli : obexftp_client_t) (ret : Int) :
    List (List Nat) → List (List Pump) → Option (Int × obexftp_client_t)
  | [], _ => some (ret, cli)
  | _ :: _, [] => none
  | name :: names, script :: rest =>
    match cli_sync_request (infocb cli OBEXFTP_EV_SENDING (Msg.text (some name)) 0)
        (Request.build_setpath (some name)) script with
    | none => none
    | some (ret1, cli2) =>
      if ret1 < 0 then some (ret1, cli2) else setpath_seq cli2 ret1 names rest

/-- A pump that delivers only PROGRESS events and returns a positive value. -/
def progress_only (p : Pump) : Prop :=
  0 < p.ret ∧ ∀ d ∈ p.deliveries, d = Delivery.OBEX_EV_PROGRESS

/-- The PROGRESS events forwarded for a run of such pumps. -/
def progress_calls (ps : List Pump) : List InfoCall :=
  (ps.flatMap (fun p => p.deliveries)).map
    (fun _ => ⟨OBEXFTP_EV_PROGRESS, Msg.text (some []), 0⟩)

/-- The system calls of the body writer. -/
def body_writer_calls (fn : List Nat) (fd : Int) (b : List Nat) : List Syscall :=
  [Syscall.creat fn 0o644, Syscall.write fd b b.length, Syscall.close fd]

/-- The `close` of a leftover descriptor at the start of `client_done`. -/
def leftover_close (fd : Int) : List Syscall :=
  if fd > 0 then [Syscall.close fd] else []

/-- The channel one search yields on a server: -1 when the search fails,
else what the loop through the records found leaves. -/
def channel_of (sdp : SdpServer) (uuid : uuid_t) : Int :=
  match sdp uuid with
  | none => -1
  | some seq => browse_loop (-1) seq

/-- The service class searched after the coercion to File Transfer. -/
def coerced (svclass : Int) : Int :=
  if svclass = 0x1104 ∨ svclass = 0x1105 ∨ svclass = 0x1106 then svclass else 0x1106

/-- Number of `close` calls made so far on the descriptor `fd`. -/
def close_count (cli : obexftp_client_t) (fd : Int) : Nat :=
  (cli.syscalls.filter (fun c => decide (c = Syscall.close fd))).length

/-- The BODY event the drain emits for a BODY header. -/
def body_call (h : Header) : InfoCall :=
  ⟨OBEXFTP_EV_BODY, Msg.bytes h.bs, u32_to_int h.hlen⟩

/-- The INFO event the drain emits for an APPARAM header of the record size. -/
def info_call (h : Header) : InfoCall :=
  ⟨OBEXFTP_EV_INFO, Msg.int (apparam_info host_little_endian h.bs), 0⟩

/-- The events the spec gives for a header sequence walked from end to
end: one BODY event per BODY header and one INFO event per APPARAM header
of length 6, in header order. -/
def spec_drain_events (hs : List Header) : List InfoCall :=
  hs.filterMap (fun h =>
    if h.hi = OBEX_HDR_BODY then some (body_call h)
    else if h.hi = OBEX_HDR_APPARAM ∧ h.hlen = 6 then some (info_call h)
    else none)

/-- The headers up to and including the first APPARAM header. -/
def walked_headers (hs : List Header) : List Header :=
  hs.takeWhile (fun h => h.hi != OBEX_HDR_APPARAM)
    ++ (hs.dropWhile (fun h => h.hi != OBEX_HDR_APPARAM)).take 1

/-! ## Auxiliary lemmas -/


/-- The events a step may add: only forwarded ones, and no request. -/
structure Handled (cli cli1 : obexftp_client_t) : Prop where
  requests : cli1.requests = cli.requests
  calls : ∃ new, cli1.infocb_calls = cli.infocb_calls ++ new ∧ ∀ c ∈ new, forwarded c = true

theorem Handled.refl (cli : obexftp_client_t) : Handled cli cli :=
  ⟨rfl, [], by simp, by simp⟩

theorem Handled.trans {a b c : obexftp_client_t} (h1 : Handled a b) (h2 : Handled b c) :
    Handled a c := by
  obtain ⟨r1, n1, e1, f1⟩ := h1
  obtain ⟨r2, n2, e2, f2⟩ := h2
  refine ⟨r2.trans r1, n1 ++ n2, ?_, ?_⟩
  · rw [e2, e1, List.append_assoc]
  · intro c hc
    rcases List.mem_append.mp hc with h | h
    · exact f1 c h
    · exact f2 c h

theorem Handled.infocb (cli : obexftp_client_t) (ev : obexftp_ev) (msg : Msg) (len : Int)
    (h : forwarded ⟨ev, msg, len⟩ = true) : Handled cli (infocb cli ev msg len) :=
  ⟨rfl, [⟨ev, msg, len⟩], rfl, by simpa using h⟩

theorem Handled.of_eq {cli cli1 : obexftp_client_t} (hr : cli1.requests = cli.requests)
    (hc : cli1.infocb_calls = cli.infocb_calls) : Handled cli cli1 :=
  ⟨hr, [], by simp [hc], by simp⟩

theorem store_nul_handled {malloc_ok : Bool} (cli : obexftp_client_t) (bs : List Nat) (n : Nat) :
    Handled cli (store_nul cli bs n malloc_ok) := by
  unfold store_nul
  split
  · exact Handled.of_eq rfl rfl
  · split <;> exact Handled.of_eq rfl rfl

theorem client_done_body_handled {malloc_ok : Bool} (cli : obexftp_client_t) (h : Header) :
    Handled cli (client_done_body cli h malloc_ok) := by
  unfold client_done_body
  refine Handled.trans ?_ (Handled.infocb _ _ _ _ rfl)
  split
  · exact @store_nul_handled malloc_ok _ _ _
  · exact Handled.refl _

theorem client_done_loop_handled {malloc_ok : Bool} (hs : List Header) :
    ∀ (cli : obexftp_client_t) (l : DoneLocals), Handled cli (client_done_loop cli l malloc_ok hs).1 := by
  induction hs with
  | nil => intro cli l; exact Handled.refl _
  | cons h hs ih =>
    intro cli l
    unfold client_done_loop
    split
    · exact Handled.trans (@client_done_body_handled malloc_ok cli h) (ih _ _)
    · split
      · exact ih _ _
      · split
        · exact ih _ _
        · split
          · split
            · exact Handled.infocb _ _ _ _ rfl
            · exact Handled.refl _
          · exact ih _ _

theorem client_done_write_handled (cli : obexftp_client_t) (l : DoneLocals) (cr : Int) :
    Handled cli (client_done_write cli l cr) := by
  unfold client_done_write
  split
  · exact Handled.refl _
  · split
    · split
      · dsimp only
        split <;> exact Handled.of_eq rfl rfl
      · exact Handled.refl _
    · exact Handled.refl _

theorem client_done_handled {malloc_ok : Bool} (cli : obexftp_client_t) (hs : List Header)
    (cr : Int) :
    Handled cli (client_done cli hs cr malloc_ok) := by
  unfold client_done
  dsimp only
  refine Handled.trans ?_ (Handled.trans (@client_done_loop_handled malloc_ok hs _ _)
    (client_done_write_handled _ _ _))
  split
  · exact Handled.of_eq rfl rfl
  · exact Handled.refl _

theorem cli_fillstream_handled (cli : obexftp_client_t) (actual : Int) (data : List Nat) :
    Handled cli (cli_fillstream cli actual data).1 := by
  unfold cli_fillstream
  dsimp only
  split
  · exact Handled.of_eq rfl rfl
  · split <;> exact Handled.of_eq rfl rfl

theorem cli_obex_event_handled (cli : obexftp_client_t) (d : Delivery) :
    Handled cli (cli_obex_event cli d) := by
  cases d with
  | OBEX_EV_PROGRESS => exact Handled.infocb _ _ _ _ (by decide)
  | OBEX_EV_REQDONE rsp hs cr malloc_ok =>
    unfold cli_obex_event
    dsimp only
    refine Handled.trans ?_ (@client_done_handled malloc_ok _ _ _)
    split <;> exact Handled.of_eq rfl rfl
  | OBEX_EV_LINKERR => exact Handled.of_eq rfl rfl
  | OBEX_EV_STREAMEMPTY a dd => exact cli_fillstream_handled _ _ _
  | unknown => exact Handled.refl _

theorem OBEX_HandleInput_handled (p : Pump) (cli : obexftp_client_t) :
    Handled cli (OBEX_HandleInput cli p) := by
  unfold OBEX_HandleInput
  generalize p.deliveries = ds
  induction ds generalizing cli with
  | nil => exact Handled.refl _
  | cons d ds ih => exact Handled.trans (cli_obex_event_handled cli d) (ih _)

/-! ### The session flags follow the script -/

theorem store_nul_flags {malloc_ok : Bool} (cli : obexftp_client_t) (bs : List Nat) (n : Nat) :
    (store_nul cli bs n malloc_ok).finished = cli.finished ∧
    (store_nul cli bs n malloc_ok).success = cli.success := by
  unfold store_nul
  split
  · exact ⟨rfl, rfl⟩
  · split <;> exact ⟨rfl, rfl⟩

theorem client_done_loop_flags {malloc_ok : Bool} (hs : List Header) :
    ∀ (cli : obexftp_client_t) (l : DoneLocals),
      (client_done_loop cli l malloc_ok hs).1.finished = cli.finished ∧
      (client_done_loop cli l malloc_ok hs).1.success = cli.success := by
  induction hs with
  | nil => intro cli l; exact ⟨rfl, rfl⟩
  | cons h hs ih =>
    intro cli l
    unfold client_done_loop
    have hb : (client_done_body cli h malloc_ok).finished = cli.finished ∧
        (client_done_body cli h malloc_ok).success = cli.success := by
      unfold client_done_body
      dsimp only [infocb]
      split
      · exact @store_nul_flags malloc_ok _ _ _
      · exact ⟨rfl, rfl⟩
    split
    · have := ih (client_done_body cli h malloc_ok) { l with body := some h.bs, body_len := u32_to_int h.hlen }
      exact ⟨this.1.trans hb.1, this.2.trans hb.2⟩
    · split
      · exact ih _ _
      · split
        · exact ih _ _
        · split
          · split
            · exact ⟨rfl, rfl⟩
            · exact ⟨rfl, rfl⟩
          · exact ih _ _

theorem client_done_write_flags (cli : obexftp_client_t) (l : DoneLocals) (cr : Int) :
    (client_done_write cli l cr).finished = cli.finished ∧
    (client_done_write cli l cr).success = cli.success := by
  unfold client_done_write
  split
  · exact ⟨rfl, rfl⟩
  · split
    · split
      · dsimp only
        split <;> exact ⟨rfl, rfl⟩
      · exact ⟨rfl, rfl⟩
    · exact ⟨rfl, rfl⟩

theorem client_done_flags {malloc_ok : Bool} (cli : obexftp_client_t) (hs : List Header)
    (cr : Int) :
    (client_done cli hs cr malloc_ok).finished = cli.finished ∧
    (client_done cli hs cr malloc_ok).success = cli.success := by
  unfold client_done
  dsimp only
  have h1 := client_done_write_flags
    (client_done_loop (if cli.fd > 0 then syscall cli (Syscall.close cli.fd) else cli)
      ⟨none, 0, none⟩ malloc_ok hs).1
    (client_done_loop (if cli.fd > 0 then syscall cli (Syscall.close cli.fd) else cli)
      ⟨none, 0, none⟩ malloc_ok hs).2 cr
  have h2 := @client_done_loop_flags malloc_ok hs
    (if cli.fd > 0 then syscall cli (Syscall.close cli.fd) else cli) ⟨none, 0, none⟩
  have h3 : (if cli.fd > 0 then syscall cli (Syscall.close cli.fd) else cli).finished = cli.finished
      ∧ (if cli.fd > 0 then syscall cli (Syscall.close cli.fd) else cli).success = cli.success := by
    split <;> exact ⟨rfl, rfl⟩
  exact ⟨h1.1.trans (h2.1.trans h3.1), h1.2.trans (h2.2.trans h3.2)⟩

theorem cli_obex_event_flags (cli : obexftp_client_t) (d : Delivery) :
    flags_of (cli_obex_event cli d) = delivery_flags (flags_of cli) d := by
  cases d with
  | OBEX_EV_PROGRESS => rfl
  | OBEX_EV_REQDONE rsp hs cr malloc_ok =>
    unfold cli_obex_event flags_of delivery_flags
    dsimp only
    rw [(@client_done_flags malloc_ok _ _ _).1, (@client_done_flags malloc_ok _ _ _).2]
    by_cases h : rsp = OBEX_RSP_SUCCESS <;> simp [h]
  | OBEX_EV_LINKERR => rfl
  | OBEX_EV_STREAMEMPTY a dd =>
    unfold cli_obex_event flags_of delivery_flags cli_fillstream
    dsimp only
    split
    · rfl
    · split <;> rfl
  | unknown => rfl

theorem OBEX_HandleInput_flags (p : Pump) (cli : obexftp_client_t) :
    flags_of (OBEX_HandleInput cli p) = p.deliveries.foldl delivery_flags (flags_of cli) := by
  unfold OBEX_HandleInput
  generalize p.deliveries = ds
  induction ds generalizing cli with
  | nil => rfl
  | cons d ds ih =>
    simp only [List.foldl_cons]
    rw [ih, cli_obex_event_flags]


/-! ### The synchronous request -/

theorem flags_of_none {cli : obexftp_client_t} (h : cli.finished = false) :
    flags_of cli = none := by
  simp [flags_of, h]

theorem flags_of_some {cli : obexftp_client_t} (h : cli.finished = true) :
    flags_of cli = some cli.success := by
  simp [flags_of, h]

theorem obexftp_sync_outcome (script : List Pump) :
    ∀ cli : obexftp_client_t,
      (obexftp_sync cli script).map Prod.fst = outcome_from (flags_of cli) script := by
  induction script with
  | nil =>
    intro cli
    unfold obexftp_sync
    cases hf : cli.finished
    · simp [flags_of, hf, outcome_from]
    · simp [flags_of, hf, outcome_from]
  | cons p rest ih =>
    intro cli
    unfold obexftp_sync
    cases hf : cli.finished
    · have hn : flags_of cli = none := flags_of_none hf
      rw [hn]
      simp only [outcome_from, if_true]
      by_cases hp : p.ret ≤ 0
      · simp [hp]
      · simp only [hp, if_false]
        rw [ih, OBEX_HandleInput_flags, hn]
    · simp [flags_of, hf, outcome_from]

theorem obexftp_sync_handled (script : List Pump) :
    ∀ (cli : obexftp_client_t) (r : Int) (cli1 : obexftp_client_t),
      obexftp_sync cli script = some (r, cli1) → Handled cli cli1 := by
  induction script with
  | nil =>
    intro cli r cli1 h
    unfold obexftp_sync at h
    split at h
    · exact absurd h (by simp)
    · simp only [Option.some.injEq, Prod.mk.injEq] at h
      rw [← h.2]
      exact Handled.refl _
  | cons p rest ih =>
    intro cli r cli1 h
    unfold obexftp_sync at h
    split at h
    · dsimp only at h
      split at h
      · simp only [Option.some.injEq, Prod.mk.injEq] at h
        rw [← h.2]
        exact OBEX_HandleInput_handled p cli
      · exact Handled.trans (OBEX_HandleInput_handled p cli) (ih _ _ _ h)
    · simp only [Option.some.injEq, Prod.mk.injEq] at h
      rw [← h.2]
      exact Handled.refl _

theorem outcome_from_sign (script : List Pump) :
    ∀ (fs : Option Bool) (r : Int), outcome_from fs script = some r → r = 1 ∨ r = -1 := by
  induction script with
  | nil =>
    intro fs r h
    cases fs with
    | none => simp [outcome_from] at h
    | some s =>
      cases s <;> simp [outcome_from] at h <;> omega
  | cons p rest ih =>
    intro fs r h
    cases fs with
    | none =>
      simp only [outcome_from] at h
      split at h
      · simp only [Option.some.injEq] at h
        omega
      · exact ih _ _ h
    | some s =>
      cases s <;> simp [outcome_from] at h <;> omega

/-- What a completed synchronous request leaves behind. -/
theorem cli_sync_request_spec {cli cli1 : obexftp_client_t} {object : Request}
    {script : List Pump} {r : Int} (h : cli_sync_request cli object script = some (r, cli1)) :
    request_outcome script = some r ∧ (r = 1 ∨ r = -1) ∧
    cli1.requests = cli.requests ++ [object] ∧
    ∃ new, cli1.infocb_calls = cli.infocb_calls ++ new ∧ ∀ c ∈ new, forwarded c = true := by
  unfold cli_sync_request at h
  have ho := obexftp_sync_outcome script
    { cli with finished := false, requests := cli.requests ++ [object] }
  rw [h] at ho
  have ho2 : request_outcome script = some r := ho.symm
  obtain ⟨hr, new, hc, hf⟩ := obexftp_sync_handled script _ _ _ h
  exact ⟨ho2, outcome_from_sign _ _ _ ho2, hr, new, hc, hf⟩

/-- A script that ends the request makes the synchronous request return. -/
theorem cli_sync_request_returns (cli : obexftp_client_t) (object : Request)
    {script : List Pump} {r : Int} (h : request_outcome script = some r) :
    ∃ cli1, cli_sync_request cli object script = some (r, cli1) := by
  have ho := obexftp_sync_outcome script
    { cli with finished := false, requests := cli.requests ++ [object] }
  have hn : flags_of { cli with finished := false, requests := cli.requests ++ [object] } = none :=
    rfl
  rw [hn] at ho
  unfold request_outcome at h
  rw [h] at ho
  unfold cli_sync_request
  cases hs : obexftp_sync { cli with finished := false, requests := cli.requests ++ [object] }
      script with
  | none => rw [hs] at ho; simp at ho
  | some v =>
    rw [hs] at ho
    simp only [Option.map_some', Option.some.injEq] at ho
    exact ⟨v.2, by rw [← ho]⟩

theorem pumped_cons (cli : obexftp_client_t) (q : Pump) (ps : List Pump) :
    pumped cli (q :: ps) = pumped (OBEX_HandleInput cli q) ps := rfl

theorem obexftp_sync_stop (p : Pump) (post : List Pump) (hp : p.ret ≤ 0) (pre : List Pump) :
    ∀ cli : obexftp_client_t,
      (∀ k, k ≤ pre.length → (pumped cli (pre.take k)).finished = false) →
      (∀ q ∈ pre, 0 < q.ret) →
      obexftp_sync cli (pre ++ p :: post) = some (-1, OBEX_HandleInput (pumped cli pre) p) := by
  induction pre with
  | nil =>
    intro cli hfin _
    have h0 : cli.finished = false := hfin 0 (Nat.le_refl 0)
    simp only [List.nil_append]
    unfold obexftp_sync
    simp [h0, hp, pumped]
  | cons q pre ih =>
    intro cli hfin hpos
    have h0 : cli.finished = false := hfin 0 (Nat.zero_le _)
    have hq : ¬ q.ret ≤ 0 := not_le.mpr (hpos q (List.mem_cons_self _ _))
    simp only [List.cons_append]
    unfold obexftp_sync
    simp only [h0, if_true, hq, if_false]
    rw [pumped_cons]
    apply ih
    · intro k hk
      have := hfin (k + 1) (by simpa using hk)
      simpa [pumped_cons] using this
    · intro x hx
      exact hpos x (List.mem_cons_of_mem _ hx)

theorem obexftp_sync_done (post : List Pump) (pre : List Pump) :
    ∀ cli : obexftp_client_t,
      (∀ k, k < pre.length → (pumped cli (pre.take k)).finished = false) →
      (∀ q ∈ pre, 0 < q.ret) →
      (pumped cli pre).finished = true →
      obexftp_sync cli (pre ++ post)
        = some (if (pumped cli pre).success then 1 else -1, pumped cli pre) := by
  induction pre with
  | nil =>
    intro cli _ _ hend
    have h1 : cli.finished = true := hend
    simp only [List.nil_append]
    cases post <;> unfold obexftp_sync <;> simp [h1, pumped]
  | cons q pre ih =>
    intro cli hfin hpos hend
    have h0 : cli.finished = false := hfin 0 (by simp)
    have hq : ¬ q.ret ≤ 0 := not_le.mpr (hpos q (List.mem_cons_self _ _))
    simp only [List.cons_append]
    unfold obexftp_sync
    simp only [h0, if_true, hq, if_false]
    rw [pumped_cons]
    apply ih
    · intro k hk
      have := hfin (k + 1) (by simpa using hk)
      simpa [pumped_cons] using this
    · intro x hx
      exact hpos x (List.mem_cons_of_mem _ hx)
    · simpa [pumped_cons] using hend


/-! ### The path loop of `obexftp_setpath` -/

theorem strchr_from_none (s : List Nat) :
    ∀ off : Nat, 0 ∉ s → strchr_from s off 47 = none → 47 ∉ s := by
  induction s with
  | nil => intro _ _ _; simp
  | cons b bs ih =>
    intro off h0 h
    unfold strchr_from at h
    have hb0 : b ≠ 0 := fun e => h0 (by simp [e])
    have hbs : 0 ∉ bs := fun e => h0 (List.mem_cons_of_mem _ e)
    by_cases hb : b = 47
    · simp [hb] at h
    · simp only [hb, if_false, hb0] at h
      have := ih (off + 1) hbs h
      simp only [List.mem_cons, not_or]
      exact ⟨fun e => hb e.symm, this⟩

theorem strchr_from_some (s : List Nat) :
    ∀ off i : Nat, strchr_from s off 47 = some i →
      ∃ pre post, s = pre ++ 47 :: post ∧ 47 ∉ pre ∧ 0 ∉ pre ∧ i = off + pre.length := by
  induction s with
  | nil => intro off i h; simp [strchr_from] at h
  | cons b bs ih =>
    intro off i h
    unfold strchr_from at h
    by_cases hb : b = 47
    · simp only [hb, if_true, Option.some.injEq] at h
      exact ⟨[], bs, by simp [hb], by simp, by simp, by simp [h]⟩
    · simp only [hb, if_false] at h
      by_cases hb0 : b = 0
      · simp [hb0] at h
      · simp only [hb0, if_false] at h
        obtain ⟨pre, post, e, h47, h0, hi⟩ := ih (off + 1) i h
        refine ⟨b :: pre, post, by simp [e], ?_, ?_, ?_⟩
        · simp only [List.mem_cons, not_or]
          exact ⟨fun e => hb e.symm, h47⟩
        · simp only [List.mem_cons, not_or]
          exact ⟨fun e => hb0 e.symm, h0⟩
        · simp only [List.length_cons]
          omega

theorem string_at_front (front pre post : List Nat) (h0 : 0 ∉ pre) :
    string_at (front ++ pre ++ 0 :: post) front.length = pre := by
  unfold string_at
  rw [List.append_assoc, List.drop_left]
  rw [List.takeWhile_append_of_pos]
  · simp
  · intro a ha
    have : a ≠ 0 := fun e => h0 (e ▸ ha)
    simpa using this

theorem string_at_whole (front rest : List Nat) (h0 : 0 ∉ rest) :
    string_at (front ++ rest) front.length = rest := by
  unfold string_at
  rw [List.drop_left]
  rw [List.takeWhile_eq_self_iff]
  intro a ha
  have : a ≠ 0 := fun e => h0 (e ▸ ha)
  simpa using this

theorem setpath_loop_null (cli : obexftp_client_t) (ret : Int) (copy : List Nat)
    (p : Option Nat) (scripts : List (List Pump)) :
    setpath_loop cli ret copy none p scripts = some (ret, cli) := by
  cases scripts <;> rfl

theorem setpath_seq_nil (cli : obexftp_client_t) (ret : Int) (scripts : List (List Pump)) :
    setpath_seq cli ret [] scripts = some (ret, cli) := by
  cases scripts <;> rfl

/-- The loop over the writable copy sends the slash-separated pieces of
the rest of the string, one request each. -/
theorem setpath_loop_eq (scripts : List (List Pump)) :
    ∀ (cli : obexftp_client_t) (ret : Int) (front rest : List Nat), 0 ∉ rest →
      setpath_loop cli ret (front ++ rest) (some front.length)
          (strchr (front ++ rest) front.length 47) scripts
        = setpath_seq cli ret (rest.splitOn 47) scripts := by
  induction scripts with
  | nil =>
    intro cli ret front rest _
    have hne : rest.splitOn 47 ≠ [] := List.splitOnP_ne_nil _ _
    cases hs : rest.splitOn 47 with
    | nil => exact absurd hs hne
    | cons a as => rfl
  | cons script more ih =>
    intro cli ret front rest h0
    have hstr : strchr (front ++ rest) front.length 47 = strchr_from rest front.length 47 := by
      unfold strchr
      rw [List.drop_left]
    rw [hstr]
    cases hp : strchr_from rest front.length 47 with
    | none =>
      have h47 : 47 ∉ rest := strchr_from_none rest _ h0 hp
      have hsplit : rest.splitOn 47 = [rest] := by
        apply List.splitOnP_eq_single
        intro x hx
        have : x ≠ 47 := fun e => h47 (e ▸ hx)
        simpa using this
      rw [hsplit]
      unfold setpath_loop setpath_seq
      simp only [Option.map_none', Option.bind_none]
      rw [string_at_whole front rest h0]
      cases cli_sync_request (infocb cli OBEXFTP_EV_SENDING (Msg.text (some rest)) 0)
          (Request.build_setpath (some rest)) script with
      | none => rfl
      | some v =>
        obtain ⟨ret1, cli2⟩ := v
        simp only [setpath_loop_null, setpath_seq_nil]
    | some i =>
      obtain ⟨pre, post, e, h47, hpre0, hi⟩ := strchr_from_some rest _ _ hp
      have hpost0 : 0 ∉ post := fun hm => h0 (by rw [e]; simp [hm])
      have hsplit : rest.splitOn 47 = pre :: post.splitOn 47 := by
        rw [e]
        apply List.splitOnP_first
        · intro x hx
          have : x ≠ 47 := fun e => h47 (e ▸ hx)
          simpa using this
        · simp
      have hset : (front ++ rest).set i 0 = (front ++ pre ++ [0]) ++ post := by
        rw [e, hi, ← List.append_assoc, List.set_append_right _ _ (by simp)]
        simp
      have hlen : (front ++ pre ++ [0]).length = i + 1 := by
        simp only [List.length_append, List.length_singleton]
        omega
      rw [hsplit]
      unfold setpath_loop setpath_seq
      simp only [Option.map_some', Option.bind_some]
      rw [hset]
      have hname : string_at (front ++ pre ++ [0] ++ post) front.length = pre := by
        have := string_at_front front pre post hpre0
        simpa using this
      rw [hname]
      cases cli_sync_request (infocb cli OBEXFTP_EV_SENDING (Msg.text (some pre)) 0)
          (Request.build_setpath (some pre)) script with
      | none => rfl
      | some v =>
        obtain ⟨ret1, cli2⟩ := v
        simp only
        split
        · rfl
        · have := ih cli2 ret1 (front ++ pre ++ [0]) post hpost0
          rw [hlen] at this
          exact this


/-! ### Counting ERR events -/

theorem err_count_infocb_err (cli : obexftp_client_t) (msg : Msg) (len : Int) :
    err_count (infocb cli OBEXFTP_EV_ERR msg len) = err_count cli + 1 := by
  simp [err_count, infocb, List.filter_append]

theorem err_count_infocb_other (cli : obexftp_client_t) (ev : obexftp_ev) (msg : Msg)
    (len : Int) (h : ev ≠ OBEXFTP_EV_ERR) :
    err_count (infocb cli ev msg len) = err_count cli := by
  simp [err_count, infocb, List.filter_append, h]

theorem err_count_append_forwarded (cli cli1 : obexftp_client_t) (new : List InfoCall)
    (hc : cli1.infocb_calls = cli.infocb_calls ++ new) (hf : ∀ c ∈ new, forwarded c = true) :
    err_count cli1 = err_count cli := by
  unfold err_count
  rw [hc, List.filter_append]
  have : new.filter (fun c => decide (c.ev = OBEXFTP_EV_ERR)) = [] := by
    rw [List.filter_eq_nil_iff]
    intro c hcm
    have := hf c hcm
    intro he
    have he2 : c.ev = OBEXFTP_EV_ERR := by simpa using he
    simp [forwarded, he2] at this
  rw [this]
  simp

theorem err_count_sync {cli cli1 : obexftp_client_t} {object : Request} {script : List Pump}
    {r : Int} (h : cli_sync_request cli object script = some (r, cli1)) :
    err_count cli1 = err_count cli := by
  obtain ⟨_, _, _, new, hc, hf⟩ := cli_sync_request_spec h
  exact err_count_append_forwarded cli cli1 new hc hf

theorem err_count_report (cli : obexftp_client_t) (ret : Int) (msg : Option (List Nat)) :
    err_count (report cli ret msg).2 = err_count cli + (if ret < 0 then 1 else 0) := by
  unfold report
  split
  · exact err_count_infocb_err _ _ _
  · exact err_count_infocb_other _ _ _ _ (by decide)

theorem report_fst (cli : obexftp_client_t) (ret : Int) (msg : Option (List Nat)) :
    (report cli ret msg).1 = ret := by
  unfold report
  split <;> rfl

theorem report_requests (cli : obexftp_client_t) (ret : Int) (msg : Option (List Nat)) :
    (report cli ret msg).2.requests = cli.requests := by
  unfold report
  split <;> rfl

theorem report_mk (cli : obexftp_client_t) (ret : Int) (msg : Option (List Nat)) :
    report cli ret msg = (ret, (report cli ret msg).2) := by
  unfold report
  split <;> rfl

/-! ### The request sequence of `obexftp_setpath` -/

theorem setpath_seq_frame (names : List (List Nat)) :
    ∀ (cli cli1 : obexftp_client_t) (ret r : Int) (scripts : List (List Pump)),
      setpath_seq cli ret names scripts = some (r, cli1) →
      err_count cli1 = err_count cli ∧ (names ≠ [] → r = 1 ∨ r = -1) := by
  induction names with
  | nil =>
    intro cli cli1 ret r scripts h
    rw [setpath_seq_nil] at h
    simp only [Option.some.injEq, Prod.mk.injEq] at h
    exact ⟨by rw [h.2], fun hn => absurd rfl hn⟩
  | cons n ns ih =>
    intro cli cli1 ret r scripts h
    cases scripts with
    | nil => simp [setpath_seq] at h
    | cons sc rest =>
      unfold setpath_seq at h
      cases hs : cli_sync_request (infocb cli OBEXFTP_EV_SENDING (Msg.text (some n)) 0)
          (Request.build_setpath (some n)) sc with
      | none => rw [hs] at h; simp at h
      | some v =>
        obtain ⟨ret1, cli2⟩ := v
        rw [hs] at h
        have he : err_count cli2 = err_count cli := by
          rw [err_count_sync hs]
          exact err_count_infocb_other _ _ _ _ (by decide)
        have hsign := (cli_sync_request_spec hs).2.1
        simp only at h
        split at h
        · simp only [Option.some.injEq, Prod.mk.injEq] at h
          exact ⟨by rw [← h.2, he], fun _ => by rw [← h.1]; exact hsign⟩
        · have := ih _ _ _ _ _ h
          refine ⟨this.1.trans he, fun _ => ?_⟩
          cases ns with
          | nil =>
            rw [setpath_seq_nil] at h
            simp only [Option.some.injEq, Prod.mk.injEq] at h
            rw [← h.1]
            exact hsign
          | cons m ms => exact this.2 (by simp)

theorem setpath_seq_ok (names : List (List Nat)) :
    ∀ (cli : obexftp_client_t) (ret : Int) (scripts : List (List Pump)),
      names.length ≤ scripts.length →
      (∀ s ∈ scripts.take names.length, request_outcome s = some 1) →
      ∃ cli1, setpath_seq cli ret names scripts = some (if names = [] then ret else 1, cli1) ∧
        cli1.requests = cli.requests ++ names.map (fun n => Request.build_setpath (some n)) := by
  induction names with
  | nil =>
    intro cli ret scripts _ _
    exact ⟨cli, by rw [setpath_seq_nil]; simp, by simp⟩
  | cons n ns ih =>
    intro cli ret scripts hlen hok
    cases scripts with
    | nil => simp at hlen
    | cons sc rest =>
      have hsc : request_outcome sc = some 1 := hok sc (by simp)
      obtain ⟨cli2, hs⟩ := cli_sync_request_returns
        (infocb cli OBEXFTP_EV_SENDING (Msg.text (some n)) 0) (Request.build_setpath (some n)) hsc
      have hreq := (cli_sync_request_spec hs).2.2.1
      obtain ⟨cli1, h1, h2⟩ := ih cli2 1 rest (by simpa using hlen) (by
        intro s hsm
        exact hok s (by simp [hsm]))
      refine ⟨cli1, ?_, ?_⟩
      · unfold setpath_seq
        rw [hs]
        simp only [List.cons_ne_nil, if_false]
        rw [if_neg (by decide), h1]
        by_cases hns : ns = [] <;> simp [hns]
      · rw [h2, hreq]
        simp [infocb]

theorem setpath_seq_fail (bad : List Pump) (post : List (List Pump))
    (hbad : request_outcome bad = some (-1)) (pre : List (List Pump)) :
    ∀ (cli : obexftp_client_t) (ret : Int) (names : List (List Nat)),
      pre.length < names.length →
      (∀ s ∈ pre, request_outcome s = some 1) →
      ∃ cli1, setpath_seq cli ret names (pre ++ bad :: post) = some (-1, cli1) ∧
        cli1.requests = cli.requests ++
          (names.take (pre.length + 1)).map (fun n => Request.build_setpath (some n)) := by
  induction pre with
  | nil =>
    intro cli ret names hlen _
    cases names with
    | nil => simp at hlen
    | cons n ns =>
      obtain ⟨cli2, hs⟩ := cli_sync_request_returns
        (infocb cli OBEXFTP_EV_SENDING (Msg.text (some n)) 0) (Request.build_setpath (some n)) hbad
      have hreq := (cli_sync_request_spec hs).2.2.1
      refine ⟨cli2, ?_, ?_⟩
      · simp only [List.nil_append]
        unfold setpath_seq
        rw [hs]
        simp
      · rw [hreq]
        simp [infocb]
  | cons sc pre ih =>
    intro cli ret names hlen hok
    cases names with
    | nil => simp at hlen
    | cons n ns =>
      have hsc : request_outcome sc = some 1 := hok sc (by simp)
      obtain ⟨cli2, hs⟩ := cli_sync_request_returns
        (infocb cli OBEXFTP_EV_SENDING (Msg.text (some n)) 0) (Request.build_setpath (some n)) hsc
      have hreq := (cli_sync_request_spec hs).2.2.1
      obtain ⟨cli1, h1, h2⟩ := ih cli2 1 ns (by simpa using hlen) (by
        intro s hsm
        exact hok s (by simp [hsm]))
      refine ⟨cli1, ?_, ?_⟩
      · simp only [List.cons_append]
        unfold setpath_seq
        rw [hs]
        simp only
        rw [if_neg (by decide), h1]
      · rw [h2, hreq]
        simp [infocb]

/-- The loop of `obexftp_setpath` on a non-empty name is the request
sequence over the components of the name. -/
theorem obexftp_setpath_loop_components (cli : obexftp_client_t) (p : List Nat)
    (h0 : 0 ∉ p) (scripts : List (List Pump)) :
    setpath_loop cli 0 (skip_slashes p) (some 0) (strchr (skip_slashes p) 0 47) scripts
      = setpath_seq cli 0 (components p) scripts := by
  have hskip : ∀ q : List Nat, 0 ∉ q → 0 ∉ skip_slashes q := by
    intro q
    induction q with
    | nil => intro _; simp [skip_slashes]
    | cons c cs ih =>
      intro h
      unfold skip_slashes
      split
      · exact ih (fun hm => h (List.mem_cons_of_mem _ hm))
      · exact h
  have := setpath_loop_eq scripts cli 0 [] (skip_slashes p) (hskip p h0)
  simpa [components] using this


theorem components_ne_nil (p : List Nat) : components p ≠ [] :=
  List.splitOnP_ne_nil _ _

theorem splitOn_slash_cons (cs : List Nat) :
    (47 :: cs).splitOn 47 = [] :: cs.splitOn 47 := by
  show (47 :: cs).splitOnP (fun x => x == 47) = [] :: cs.splitOnP (fun x => x == 47)
  rw [List.splitOnP_cons]
  simp

theorem count_non_empty_skip (p : List Nat) :
    count_non_empty_components (skip_slashes p) = count_non_empty_components p := by
  induction p with
  | nil => rfl
  | cons c cs ih =>
    unfold skip_slashes
    split
    · rename_i hc
      rw [ih, hc]
      unfold count_non_empty_components
      rw [splitOn_slash_cons]
      simp
    · rfl

/-- Requests per path: the non-empty components the spec counts, and the
empty ones that remain once the leading slashes are gone. -/
theorem components_length (p : List Nat) :
    (components p).length = count_non_empty_components p
      + ((components p).filter (fun c => decide (c = []))).length := by
  rw [← count_non_empty_skip]
  unfold count_non_empty_components components
  rw [List.length_eq_length_filter_add (fun c => decide (c ≠ []))]
  congr 2
  apply List.filter_congr
  intro x _
  by_cases hx : x = [] <;> simp [hx]

theorem non_empty_components_skip (p : List Nat) :
    non_empty_components (skip_slashes p) = non_empty_components p := by
  induction p with
  | nil => rfl
  | cons c cs ih =>
    unfold skip_slashes
    split
    · rename_i hc
      rw [ih, hc]
      unfold non_empty_components
      rw [splitOn_slash_cons]
      simp
    · rfl

/-- A path without an empty item after its leading slashes: the names
requested are the non-empty components of the path. -/
theorem components_non_empty (p : List Nat) (h : [] ∉ components p) :
    components p = non_empty_components p := by
  rw [← non_empty_components_skip]
  unfold components at h
  unfold non_empty_components components
  symm
  rw [List.filter_eq_self]
  intro x hx
  have hne : x ≠ [] := fun e => h (e ▸ hx)
  simpa using hne

/-! ### The header loop of `client_done` -/

theorem store_nul_keeps {malloc_ok : Bool} (cli : obexftp_client_t) (bs : List Nat) (n : Nat) :
    (store_nul cli bs n malloc_ok).target_fn = cli.target_fn ∧
    (store_nul cli bs n malloc_ok).syscalls = cli.syscalls ∧
    (store_nul cli bs n malloc_ok).fd = cli.fd ∧
    (store_nul cli bs n malloc_ok).infocb_calls = cli.infocb_calls := by
  unfold store_nul
  split
  · exact ⟨rfl, rfl, rfl, rfl⟩
  · split <;> exact ⟨rfl, rfl, rfl, rfl⟩

theorem client_done_body_keeps {malloc_ok : Bool} (cli : obexftp_client_t) (h : Header) :
    (client_done_body cli h malloc_ok).target_fn = cli.target_fn ∧
    (client_done_body cli h malloc_ok).syscalls = cli.syscalls ∧
    (client_done_body cli h malloc_ok).fd = cli.fd ∧
    (client_done_body cli h malloc_ok).infocb_calls
      = cli.infocb_calls ++ [⟨OBEXFTP_EV_BODY, Msg.bytes h.bs, u32_to_int h.hlen⟩] := by
  unfold client_done_body
  dsimp only [infocb]
  split
  · have := @store_nul_keeps malloc_ok cli (h.bs.take h.hlen) h.hlen
    exact ⟨this.1, this.2.1, this.2.2.1, by rw [this.2.2.2]⟩
  · exact ⟨rfl, rfl, rfl, rfl⟩

theorem client_done_loop_keeps {malloc_ok : Bool} (hs : List Header) :
    ∀ (cli : obexftp_client_t) (l : DoneLocals),
      (client_done_loop cli l malloc_ok hs).1.target_fn = cli.target_fn ∧
      (client_done_loop cli l malloc_ok hs).1.syscalls = cli.syscalls ∧
      (client_done_loop cli l malloc_ok hs).1.fd = cli.fd := by
  induction hs with
  | nil => intro cli l; exact ⟨rfl, rfl, rfl⟩
  | cons h hs ih =>
    intro cli l
    unfold client_done_loop
    split
    · have h1 := ih (client_done_body cli h malloc_ok)
        { l with body := some h.bs, body_len := u32_to_int h.hlen }
      have h2 := @client_done_body_keeps malloc_ok cli h
      exact ⟨h1.1.trans h2.1, h1.2.1.trans h2.2.1, h1.2.2.trans h2.2.2.1⟩
    · split
      · exact ih _ _
      · split
        · exact ih _ _
        · split
          · split
            · exact ⟨rfl, rfl, rfl⟩
            · exact ⟨rfl, rfl, rfl⟩
          · exact ih _ _

theorem client_done_loop_skip {malloc_ok : Bool} (rest : List Header) (pre : List Header) :
    ∀ (cli : obexftp_client_t) (l : DoneLocals),
      (∀ x ∈ pre, x.hi ≠ OBEX_HDR_BODY ∧ x.hi ≠ OBEX_HDR_APPARAM) →
      client_done_loop cli l malloc_ok (pre ++ rest) = client_done_loop cli l malloc_ok rest := by
  induction pre with
  | nil => intro cli l _; rfl
  | cons x xs ih =>
    intro cli l hx
    have h1 := hx x (List.mem_cons_self _ _)
    have h2 : ∀ y ∈ xs, y.hi ≠ OBEX_HDR_BODY ∧ y.hi ≠ OBEX_HDR_APPARAM :=
      fun y hy => hx y (List.mem_cons_of_mem _ hy)
    simp only [List.cons_append]
    rw [client_done_loop]
    simp only [h1.1, h1.2, if_false]
    split
    · exact ih _ _ h2
    · split <;> exact ih _ _ h2

theorem client_done_loop_locals {malloc_ok : Bool} (post : List Header) :
    ∀ (cli : obexftp_client_t) (l : DoneLocals), (∀ x ∈ post, x.hi ≠ OBEX_HDR_BODY) →
      (client_done_loop cli l malloc_ok post).2.body = l.body ∧
      (client_done_loop cli l malloc_ok post).2.body_len = l.body_len := by
  induction post with
  | nil => intro cli l _; exact ⟨rfl, rfl⟩
  | cons x xs ih =>
    intro cli l hx
    have h1 := hx x (List.mem_cons_self _ _)
    have h2 : ∀ y ∈ xs, y.hi ≠ OBEX_HDR_BODY := fun y hy => hx y (List.mem_cons_of_mem _ hy)
    rw [client_done_loop]
    simp only [h1, if_false]
    split
    · exact ih _ _ h2
    · split
      · exact ih _ _ h2
      · split
        · split
          · exact ⟨rfl, rfl⟩
          · exact ⟨rfl, rfl⟩
        · exact ih _ _ h2

theorem info_calls_append (a b : List InfoCall) :
    info_calls (a ++ b) = info_calls a ++ info_calls b := by
  simp [info_calls, List.filter_append]

theorem client_done_loop_info {malloc_ok : Bool} (rest : List Header) (pre : List Header) :
    ∀ (cli : obexftp_client_t) (l : DoneLocals), (∀ x ∈ pre, x.hi ≠ OBEX_HDR_APPARAM) →
      ∃ cli1 l1, client_done_loop cli l malloc_ok (pre ++ rest) = client_done_loop cli1 l1 malloc_ok rest ∧
        info_calls cli1.infocb_calls = info_calls cli.infocb_calls := by
  induction pre with
  | nil => intro cli l _; exact ⟨cli, l, rfl, rfl⟩
  | cons x xs ih =>
    intro cli l hx
    have h1 := hx x (List.mem_cons_self _ _)
    have h2 : ∀ y ∈ xs, y.hi ≠ OBEX_HDR_APPARAM := fun y hy => hx y (List.mem_cons_of_mem _ hy)
    simp only [List.cons_append]
    rw [client_done_loop]
    simp only [h1, if_false]
    split
    · obtain ⟨cli1, l1, e, hi⟩ := ih (client_done_body cli x malloc_ok)
        { l with body := some x.bs, body_len := u32_to_int x.hlen } h2
      refine ⟨cli1, l1, e, ?_⟩
      rw [hi, (@client_done_body_keeps malloc_ok cli x).2.2.2, info_calls_append]
      simp [info_calls]
    · split
      · exact ih _ _ h2
      · split <;> exact ih _ _ h2

theorem client_done_write_calls (cli : obexftp_client_t) (l : DoneLocals) (cr : Int) :
    (client_done_write cli l cr).infocb_calls = cli.infocb_calls := by
  unfold client_done_write
  split
  · rfl
  · split
    · split
      · dsimp only
        split <;> rfl
      · rfl
    · rfl

theorem bswap32_load (v0 v1 v2 v3 : Nat) (h0 : v0 < 256) (h1 : v1 < 256) (h2 : v2 < 256)
    (h3 : v3 < 256) (little : Bool) :
    ntohl little (load_u32 little v0 v1 v2 v3) = v0 * 2 ^ 24 + v1 * 2 ^ 16 + v2 * 2 ^ 8 + v3 := by
  cases little
  · simp [ntohl, load_u32]
  · simp only [ntohl, load_u32, bswap32, if_true]
    norm_num
    omega

/-! ### A response body written to the target file -/

theorem client_done_write_some (cli : obexftp_client_t) (l : DoneLocals) (cr : Int)
    (fn body : List Nat) (hb : l.body = some body) (ht : cli.target_fn = some fn) :
    (client_done_write cli l cr).syscalls = cli.syscalls ++
      (if l.body_len > 0 then
        Syscall.creat fn 0o644 ::
          (if cr > 0 then [Syscall.write cr body l.body_len, Syscall.close cr] else [])
       else []) ∧
    (client_done_write cli l cr).target_fn = (if l.body_len > 0 then none else some fn) := by
  unfold client_done_write
  rw [hb]
  simp only
  split
  · rw [ht]
    simp only
    have hm : S_IRUSR ||| S_IWUSR ||| S_IRGRP ||| S_IROTH = 0o644 := by decide
    rw [hm]
    split
    · simp [syscall]
    · simp [syscall]
  · simp [ht]

/-- The drain of a response with one BODY header while a target file
name is set. -/
theorem client_done_file {malloc_ok : Bool} (cli : obexftp_client_t) (fn b : List Nat)
    (pre post : List Header)
    (cr : Int) (ht : cli.target_fn = some fn)
    (hpre : ∀ x ∈ pre, x.hi ≠ OBEX_HDR_BODY ∧ x.hi ≠ OBEX_HDR_APPARAM)
    (hpost : ∀ x ∈ post, x.hi ≠ OBEX_HDR_BODY) :
    (client_done cli (pre ++ ⟨OBEX_HDR_BODY, b⟩ :: post) cr malloc_ok).syscalls
      = cli.syscalls ++ leftover_close cli.fd ++
        (if u32_to_int b.length > 0 then
          Syscall.creat fn 0o644 ::
            (if cr > 0 then [Syscall.write cr b (u32_to_int b.length), Syscall.close cr] else [])
         else []) ∧
    (client_done cli (pre ++ ⟨OBEX_HDR_BODY, b⟩ :: post) cr malloc_ok).target_fn
      = (if u32_to_int b.length > 0 then none else some fn) := by
  have h0 : (if cli.fd > 0 then syscall cli (Syscall.close cli.fd) else cli).target_fn = some fn
      ∧ (if cli.fd > 0 then syscall cli (Syscall.close cli.fd) else cli).syscalls
        = cli.syscalls ++ leftover_close cli.fd := by
    unfold leftover_close
    split
    · exact ⟨ht, rfl⟩
    · exact ⟨ht, by simp⟩
  unfold client_done
  dsimp only
  generalize (if cli.fd > 0 then syscall cli (Syscall.close cli.fd) else cli) = cli0 at h0 ⊢
  have hloop : client_done_loop cli0 ⟨none, 0, none⟩ malloc_ok (pre ++ ⟨OBEX_HDR_BODY, b⟩ :: post)
      = client_done_loop (client_done_body cli0 ⟨OBEX_HDR_BODY, b⟩ malloc_ok)
          ⟨some b, u32_to_int b.length, none⟩ malloc_ok post := by
    rw [@client_done_loop_skip malloc_ok _ _ _ _ hpre, client_done_loop]
    simp [Header.hlen]
  have hk := @client_done_loop_keeps malloc_ok post (client_done_body cli0 ⟨OBEX_HDR_BODY, b⟩ malloc_ok)
    ⟨some b, u32_to_int b.length, none⟩
  have hl := @client_done_loop_locals malloc_ok post (client_done_body cli0 ⟨OBEX_HDR_BODY, b⟩ malloc_ok)
    ⟨some b, u32_to_int b.length, none⟩ hpost
  have hbk := @client_done_body_keeps malloc_ok cli0 ⟨OBEX_HDR_BODY, b⟩
  have hw := client_done_write_some
    (client_done_loop (client_done_body cli0 ⟨OBEX_HDR_BODY, b⟩ malloc_ok)
      ⟨some b, u32_to_int b.length, none⟩ malloc_ok post).1
    (client_done_loop (client_done_body cli0 ⟨OBEX_HDR_BODY, b⟩ malloc_ok)
      ⟨some b, u32_to_int b.length, none⟩ malloc_ok post).2 cr fn b hl.1
    (by rw [hk.1, hbk.1, h0.1])
  rw [hl.2, hk.2.1, hbk.2.1, h0.2] at hw
  rw [hloop]
  exact hw


theorem OBEX_HandleInput_progress (p : Pump) (hp : progress_only p) (cli : obexftp_client_t) :
    OBEX_HandleInput cli p
      = { cli with infocb_calls := cli.infocb_calls ++ progress_calls [p] } := by
  unfold OBEX_HandleInput progress_calls
  simp only [List.flatMap_cons, List.flatMap_nil, List.append_nil]
  have hd := hp.2
  generalize p.deliveries = ds at hd
  induction ds generalizing cli with
  | nil => simp
  | cons d ds ih =>
    have h1 : d = Delivery.OBEX_EV_PROGRESS := hd d (List.mem_cons_self _ _)
    subst h1
    simp only [List.foldl_cons, List.map_cons]
    rw [ih _ (fun x hx => hd x (List.mem_cons_of_mem _ hx))]
    simp [cli_obex_event, infocb]

theorem pumped_progress (ps : List Pump) :
    ∀ cli : obexftp_client_t, (∀ p ∈ ps, progress_only p) →
      pumped cli ps = { cli with infocb_calls := cli.infocb_calls ++ progress_calls ps } := by
  induction ps with
  | nil => intro cli _; simp [pumped, progress_calls]
  | cons q qs ih =>
    intro cli h
    rw [pumped_cons, OBEX_HandleInput_progress q (h q (List.mem_cons_self _ _)),
      ih _ (fun x hx => h x (List.mem_cons_of_mem _ hx))]
    simp [progress_calls]

theorem pumped_append (cli : obexftp_client_t) (a b : List Pump) :
    pumped cli (a ++ b) = pumped (pumped cli a) b := by
  simp [pumped, List.foldl_append]

theorem cli_obex_event_reqdone_finished {malloc_ok : Bool} (cli : obexftp_client_t) (rsp : Int)
    (hs : List Header) (cr : Int) :
    (cli_obex_event cli (Delivery.OBEX_EV_REQDONE rsp hs cr malloc_ok)).finished = true := by
  unfold cli_obex_event
  dsimp only
  rw [(@client_done_flags malloc_ok _ _ _).1]
  split <;> rfl

/-- A request whose pumps forward progress and then deliver the final
response returns, in the state the handler leaves at that response. -/
theorem cli_sync_request_reqdone {malloc_ok : Bool} (cli : obexftp_client_t) (object : Request)
    (pumps : List Pump) (rsp : Int) (hs : List Header) (cr ret : Int)
    (hp : ∀ p ∈ pumps, progress_only p) :
    ∃ r, cli_sync_request cli object (pumps ++ [⟨[Delivery.OBEX_EV_REQDONE rsp hs cr malloc_ok], ret⟩])
      = some (r, cli_obex_event (pumped (submitted cli object) pumps)
          (Delivery.OBEX_EV_REQDONE rsp hs cr malloc_ok)) := by
  have hpos : ∀ q ∈ pumps, 0 < q.ret := fun q hq => (hp q hq).1
  have hfin : ∀ k, (pumped (submitted cli object) (pumps.take k)).finished = false := by
    intro k
    rw [pumped_progress _ _ (fun p hpm => hp p (List.mem_of_mem_take hpm))]
    rfl
  by_cases hret : ret ≤ 0
  · exact ⟨-1, obexftp_sync_stop ⟨[Delivery.OBEX_EV_REQDONE rsp hs cr malloc_ok], ret⟩ [] hret pumps
      (submitted cli object) (fun k _ => hfin k) hpos⟩
  · have hlast : pumped (submitted cli object)
          (pumps ++ [⟨[Delivery.OBEX_EV_REQDONE rsp hs cr malloc_ok], ret⟩])
        = cli_obex_event (pumped (submitted cli object) pumps)
            (Delivery.OBEX_EV_REQDONE rsp hs cr malloc_ok) := by
      rw [pumped_append]
      rfl
    have := obexftp_sync_done [] (pumps ++ [⟨[Delivery.OBEX_EV_REQDONE rsp hs cr malloc_ok], ret⟩])
      (submitted cli object)
      (by
        intro k hk
        have hk2 : k ≤ pumps.length := by
          simp only [List.length_append, List.length_singleton] at hk
          omega
        rw [List.take_append_of_le_length hk2]
        exact hfin k)
      (by
        intro q hq
        rcases List.mem_append.mp hq with h | h
        · exact hpos q h
        · simp only [List.mem_singleton] at h
          rw [h]
          exact not_le.mp hret)
      (by rw [hlast]; exact @cli_obex_event_reqdone_finished malloc_ok _ _ _ _)
    rw [List.append_nil, hlast] at this
    exact ⟨_, this⟩

theorem u32_to_int_small (n : Nat) (h : n < 2 ^ 31) : u32_to_int n = (n : Int) := by
  unfold u32_to_int
  have h1 : n % 2 ^ 32 = n := Nat.mod_eq_of_lt (by omega)
  rw [h1, if_pos h]

theorem cli_obex_event_reqdone_eq {malloc_ok : Bool} (cli : obexftp_client_t) (rsp : Int)
    (hs : List Header)
    (cr : Int) :
    cli_obex_event cli (Delivery.OBEX_EV_REQDONE rsp hs cr malloc_ok)
      = client_done { cli with finished := true, success := decide (rsp = OBEX_RSP_SUCCESS),
                               obex_rsp := rsp } hs cr malloc_ok := by
  unfold cli_obex_event
  dsimp only
  split
  · rename_i h
    simp [h]
  · rename_i h
    simp [h]

/-- The final response with one BODY header, handled while a target file
name is set. -/
theorem cli_obex_event_file {malloc_ok : Bool} (st : obexftp_client_t) (fn b : List Nat) (rsp : Int)
    (pre post : List Header) (cr : Int) (ht : st.target_fn = some fn)
    (hpre : ∀ x ∈ pre, x.hi ≠ OBEX_HDR_BODY ∧ x.hi ≠ OBEX_HDR_APPARAM)
    (hpost : ∀ x ∈ post, x.hi ≠ OBEX_HDR_BODY) (hlen : b.length < 2 ^ 31) :
    (b ≠ [] → 0 < cr →
      (cli_obex_event st (Delivery.OBEX_EV_REQDONE rsp
          (pre ++ ⟨OBEX_HDR_BODY, b⟩ :: post) cr malloc_ok)).syscalls
        = st.syscalls ++ leftover_close st.fd ++ body_writer_calls fn cr b ∧
      (cli_obex_event st (Delivery.OBEX_EV_REQDONE rsp
          (pre ++ ⟨OBEX_HDR_BODY, b⟩ :: post) cr malloc_ok)).target_fn = none) ∧
    (b = [] →
      (cli_obex_event st (Delivery.OBEX_EV_REQDONE rsp
          (pre ++ ⟨OBEX_HDR_BODY, b⟩ :: post) cr malloc_ok)).syscalls
        = st.syscalls ++ leftover_close st.fd ∧
      (cli_obex_event st (Delivery.OBEX_EV_REQDONE rsp
          (pre ++ ⟨OBEX_HDR_BODY, b⟩ :: post) cr malloc_ok)).target_fn = some fn) := by
  rw [cli_obex_event_reqdone_eq]
  obtain ⟨h1, h2⟩ := client_done_file
    { st with finished := true, success := decide (rsp = OBEX_RSP_SUCCESS), obex_rsp := rsp }
    fn b pre post cr ht hpre hpost
  refine ⟨?_, ?_⟩
  · intro hb hcr
    have hpos : u32_to_int b.length > 0 := by
      rw [u32_to_int_small _ hlen]
      have : 0 < b.length := List.length_pos.mpr hb
      omega
    rw [if_pos hpos, if_pos hcr, u32_to_int_small _ hlen] at h1
    rw [if_pos hpos] at h2
    exact ⟨h1, h2⟩
  · intro hb
    have hnp : ¬ u32_to_int b.length > 0 := by simp [hb, u32_to_int]
    rw [if_neg hnp, List.append_nil] at h1
    rw [if_neg hnp] at h2
    exact ⟨h1, h2⟩

/-- The whole of a GET-like request that saves one body to the target
file named `fn`. -/
theorem cli_sync_request_file {malloc_ok : Bool} (cli : obexftp_client_t) (object : Request)
    (fn b : List Nat)
    (pumps : List Pump) (rsp : Int) (pre post : List Header) (cr ret : Int)
    (ht : cli.target_fn = some fn) (hp : ∀ p ∈ pumps, progress_only p)
    (hpre : ∀ x ∈ pre, x.hi ≠ OBEX_HDR_BODY ∧ x.hi ≠ OBEX_HDR_APPARAM)
    (hpost : ∀ x ∈ post, x.hi ≠ OBEX_HDR_BODY) (hlen : b.length < 2 ^ 31) :
    ∃ r cli1, cli_sync_request cli object
        (pumps ++ [⟨[Delivery.OBEX_EV_REQDONE rsp (pre ++ ⟨OBEX_HDR_BODY, b⟩ :: post) cr malloc_ok], ret⟩])
        = some (r, cli1) ∧
      (b ≠ [] → 0 < cr →
        cli1.syscalls = cli.syscalls ++ leftover_close cli.fd ++ body_writer_calls fn cr b ∧
        cli1.target_fn = none) ∧
      (b = [] →
        cli1.syscalls = cli.syscalls ++ leftover_close cli.fd ∧ cli1.target_fn = some fn) := by
  obtain ⟨r, hr⟩ := @cli_sync_request_reqdone malloc_ok cli object pumps rsp
    (pre ++ ⟨OBEX_HDR_BODY, b⟩ :: post) cr ret hp
  have hst : (pumped (submitted cli object) pumps).target_fn = some fn ∧
      (pumped (submitted cli object) pumps).syscalls = cli.syscalls ∧
      (pumped (submitted cli object) pumps).fd = cli.fd := by
    rw [pumped_progress _ _ hp]
    exact ⟨ht, rfl, rfl⟩
  have h := @cli_obex_event_file malloc_ok (pumped (submitted cli object) pumps) fn b rsp pre post cr
    hst.1 hpre hpost hlen
  rw [hst.2.1, hst.2.2] at h
  exact ⟨r, _, hr, h.1, h.2⟩

theorem report_keeps (cli : obexftp_client_t) (ret : Int) (msg : Option (List Nat)) :
    (report cli ret msg).2.syscalls = cli.syscalls ∧
    (report cli ret msg).2.target_fn = cli.target_fn ∧
    (report cli ret msg).2.body_content = cli.body_content := by
  unfold report
  split <;> exact ⟨rfl, rfl, rfl⟩

/-! ### Events of an operation -/

theorem filter_forwarded_nil (new : List InfoCall) (h : ∀ c ∈ new, forwarded c = true) :
    new.filter (fun c => !forwarded c) = [] := by
  rw [List.filter_eq_nil_iff]
  intro c hc
  simp [h c hc]

theorem own_events_of (cli cli1 : obexftp_client_t) (evs : List InfoCall)
    (h : cli1.infocb_calls = cli.infocb_calls ++ evs) :
    own_events cli cli1 = evs.filter (fun c => !forwarded c) := by
  unfold own_events
  rw [h, List.drop_left]

/-- The transport part of `obexftp_cli_connect`. -/
theorem connect_transport (cli : obexftp_client_t) (irobex_ret obex_ret : Int) :
    ∃ T : Int × obexftp_client_t,
      (if irobex_ret = -1 then
          (obex_ret, syscall (syscall (infocb cli OBEXFTP_EV_CONNECTING (Msg.text (some [])) 0)
            (Syscall.IrOBEX_TransportConnect (cstr "OBEX"))) Syscall.OBEX_TransportConnect)
        else (irobex_ret, syscall (infocb cli OBEXFTP_EV_CONNECTING (Msg.text (some [])) 0)
            (Syscall.IrOBEX_TransportConnect (cstr "OBEX")))) = T ∧
      T.1 = (if irobex_ret = -1 then obex_ret else irobex_ret) ∧
      T.2.infocb_calls = cli.infocb_calls ++ [⟨OBEXFTP_EV_CONNECTING, Msg.text (some []), 0⟩] ∧
      T.2.requests = cli.requests := by
  refine ⟨_, rfl, ?_, ?_, ?_⟩
  · split <;> rfl
  · split <;> rfl
  · split <;> rfl

theorem setpath_loop_frame (scripts : List (List Pump)) :
    ∀ (cli cli1 : obexftp_client_t) (ret r : Int) (copy : List Nat) (tail p : Option Nat),
      setpath_loop cli ret copy tail p scripts = some (r, cli1) →
      err_count cli1 = err_count cli := by
  induction scripts with
  | nil =>
    intro cli cli1 ret r copy tail p h
    cases tail with
    | none =>
      simp only [setpath_loop, Option.some.injEq, Prod.mk.injEq] at h
      rw [h.2]
    | some t => simp [setpath_loop] at h
  | cons sc rest ih =>
    intro cli cli1 ret r copy tail p h
    cases tail with
    | none =>
      simp only [setpath_loop, Option.some.injEq, Prod.mk.injEq] at h
      rw [h.2]
    | some t =>
      unfold setpath_loop at h
      dsimp only at h
      split at h
      · exact absurd h (by simp)
      · rename_i ret1 cli2 hs
        have he : err_count cli2 = err_count cli := by
          rw [err_count_sync hs]
          exact err_count_infocb_other _ _ _ _ (by decide)
        split at h
        · simp only [Option.some.injEq, Prod.mk.injEq] at h
          rw [← h.2, he]
        · exact (ih _ _ _ _ _ _ _ h).trans he

theorem err_after_report {cli0 cli2 cli1 : obexftp_client_t} {object : Request}
    {script : List Pump} {ret : Int} {msg : Option (List Nat)}
    (hs : cli_sync_request cli0 object script = some (ret, cli2))
    (h : report cli2 ret msg = (-1, cli1)) : err_count cli1 = err_count cli0 + 1 := by
  have h1 : ret = -1 := by
    have := report_fst cli2 ret msg
    rw [h] at this
    exact this.symm
  have h2 : cli1 = (report cli2 ret msg).2 := by rw [h]
  rw [h2, err_count_report, err_count_sync hs, h1]
  simp

/-! ### The SDP browse -/

theorem browse_sdp_uuid_open (sdp : SdpServer) (sess : sdp_session_t) (u : uuid_t)
    (ho : sess.closed = false) (hs : sdp u ≠ none) :
    browse_sdp_uuid sdp sess u
      = some (channel_of sdp u,
          { sess with calls := sess.calls ++ [SdpCall.sdp_service_search_attr_req u] }) := by
  unfold browse_sdp_uuid channel_of
  rw [ho]
  cases h : sdp u with
  | none => exact absurd h hs
  | some seq => rfl

theorem browse_sdp_uuid_failed (sdp : SdpServer) (sess : sdp_session_t) (u : uuid_t)
    (ho : sess.closed = false) (hs : sdp u = none) :
    browse_sdp_uuid sdp sess u
      = some (-1, ⟨true, sess.calls ++ [SdpCall.sdp_service_search_attr_req u,
          SdpCall.sdp_close]⟩) := by
  unfold browse_sdp_uuid sdp_close
  rw [ho, hs]
  simp [ho]

theorem browse_sdp_uuid_closed (sdp : SdpServer) (sess : sdp_session_t) (u : uuid_t)
    (hc : sess.closed = true) : browse_sdp_uuid sdp sess u = none := by
  unfold browse_sdp_uuid
  rw [hc]
  rfl

theorem svclass_coerced (svclass : Int) :
    (if svclass ≠ IRMC_SYNC_SVCLASS_ID ∧ svclass ≠ OBEX_OBJPUSH_SVCLASS_ID
      ∧ svclass ≠ OBEX_FILETRANS_SVCLASS_ID then OBEX_FILETRANS_SVCLASS_ID else svclass)
      = coerced svclass := by
  unfold coerced IRMC_SYNC_SVCLASS_ID OBEX_OBJPUSH_SVCLASS_ID OBEX_FILETRANS_SVCLASS_ID
  by_cases h4 : svclass = 0x1104
  · simp [h4]
  · by_cases h5 : svclass = 0x1105
    · simp [h5]
    · by_cases h6 : svclass = 0x1106
      · simp [h6]
      · simp [h4, h5, h6]

theorem obexftp_browse_bt_src_unfold (src : Option (List Nat)) (a : List Nat)
    (svclass : Int) (sdp : SdpServer) (ha : a.length = 17) :
    obexftp_browse_bt_src src (some a) svclass true sdp
      = match (if coerced svclass = 0x1106 then
            browse_sdp_uuid sdp ⟨false, []⟩ (uuid_t.uuid128 SVC_UUID_PCSUITE)
          else some (-1, ⟨false, []⟩)) with
        | none => none
        | some (res, sess1) =>
          if coerced svclass = 0x1106 ∧ res > 0 then some (res, sess1.calls)
          else
            match browse_sdp_uuid sdp sess1 (uuid_t.uuid16 (coerced svclass)) with
            | none => none
            | some (res2, sess2) =>
              match sdp_close sess2 with
              | none => none
              | some sess3 => some (res2, sess3.calls) := by
  unfold obexftp_browse_bt_src
  simp only [ha, ne_eq, not_true_eq_false, if_false, Bool.true_eq_false]
  rw [svclass_coerced]
  rfl

/-- With a positive PCSuite channel the browse for File Transfer returns
it after the one search. -/
theorem obexftp_browse_bt_src_pcsuite (src : Option (List Nat)) (a : List Nat)
    (svclass : Int) (sdp : SdpServer) (ha : a.length = 17)
    (h6 : coerced svclass = 0x1106)
    (hpos : 0 < channel_of sdp (uuid_t.uuid128 SVC_UUID_PCSUITE)) :
    obexftp_browse_bt_src src (some a) svclass true sdp
      = some (channel_of sdp (uuid_t.uuid128 SVC_UUID_PCSUITE),
          [SdpCall.sdp_service_search_attr_req (uuid_t.uuid128 SVC_UUID_PCSUITE)]) := by
  have hs : sdp (uuid_t.uuid128 SVC_UUID_PCSUITE) ≠ none := by
    intro h
    unfold channel_of at hpos
    rw [h] at hpos
    exact absurd hpos (by decide)
  rw [obexftp_browse_bt_src_unfold src a svclass sdp ha, if_pos h6,
    browse_sdp_uuid_open sdp ⟨false, []⟩ _ rfl hs]
  simp only [h6, true_and]
  rw [if_pos hpos]
  rfl

/-- With a PCSuite search that succeeds without a positive channel, the
browse for File Transfer goes on to the 16-bit search and closes the
session, when that search succeeds as well. -/
theorem obexftp_browse_bt_src_fallback (src : Option (List Nat)) (a : List Nat)
    (svclass : Int) (sdp : SdpServer) (ha : a.length = 17)
    (h6 : coerced svclass = 0x1106)
    (hs : sdp (uuid_t.uuid128 SVC_UUID_PCSUITE) ≠ none)
    (hpos : ¬ 0 < channel_of sdp (uuid_t.uuid128 SVC_UUID_PCSUITE))
    (hs2 : sdp (uuid_t.uuid16 (coerced svclass)) ≠ none) :
    obexftp_browse_bt_src src (some a) svclass true sdp
      = some (channel_of sdp (uuid_t.uuid16 (coerced svclass)),
          [SdpCall.sdp_service_search_attr_req (uuid_t.uuid128 SVC_UUID_PCSUITE),
           SdpCall.sdp_service_search_attr_req (uuid_t.uuid16 (coerced svclass)),
           SdpCall.sdp_close]) := by
  rw [obexftp_browse_bt_src_unfold src a svclass sdp ha, if_pos h6,
    browse_sdp_uuid_open sdp ⟨false, []⟩ _ rfl hs]
  simp only []
  rw [if_neg (fun h => hpos h.2), browse_sdp_uuid_open sdp _ _ rfl hs2]
  rfl

/-- For the other two service classes only the 16-bit search is made. -/
theorem obexftp_browse_bt_src_class (src : Option (List Nat)) (a : List Nat)
    (svclass : Int) (sdp : SdpServer) (ha : a.length = 17)
    (h6 : ¬ coerced svclass = 0x1106)
    (hs2 : sdp (uuid_t.uuid16 (coerced svclass)) ≠ none) :
    obexftp_browse_bt_src src (some a) svclass true sdp
      = some (channel_of sdp (uuid_t.uuid16 (coerced svclass)),
          [SdpCall.sdp_service_search_attr_req (uuid_t.uuid16 (coerced svclass)),
           SdpCall.sdp_close]) := by
  rw [obexftp_browse_bt_src_unfold src a svclass sdp ha, if_neg h6]
  simp only []
  rw [if_neg (fun h => h6 h.1), browse_sdp_uuid_open sdp _ _ rfl hs2]
  rfl

/-- A failed PCSuite search leaves the session released, and the 16-bit
search that follows is made on it. -/
theorem obexftp_browse_bt_src_released (src : Option (List Nat)) (a : List Nat)
    (svclass : Int) (sdp : SdpServer) (ha : a.length = 17)
    (h6 : coerced svclass = 0x1106)
    (hs : sdp (uuid_t.uuid128 SVC_UUID_PCSUITE) = none) :
    obexftp_browse_bt_src src (some a) svclass true sdp = none := by
  rw [obexftp_browse_bt_src_unfold src a svclass sdp ha, if_pos h6,
    browse_sdp_uuid_failed sdp ⟨false, []⟩ _ rfl hs]
  simp only []
  rw [if_neg (fun h => absurd h.2 (by decide)), browse_sdp_uuid_closed sdp _ _ rfl]

theorem skip_slashes_dropWhile (s : List Nat) :
    skip_slashes s = s.dropWhile (fun c => c == 47) := by
  induction s with
  | nil => rfl
  | cons c cs ih =>
    unfold skip_slashes
    by_cases h : c = 47
    · simp [h, ih]
    · simp [h]

/-! ### The response code -/

theorem client_done_loop_rsp {malloc_ok : Bool} (hs : List Header) :
    ∀ (cli : obexftp_client_t) (l : DoneLocals),
      (client_done_loop cli l malloc_ok hs).1.obex_rsp = cli.obex_rsp := by
  induction hs with
  | nil => intro cli l; rfl
  | cons h hs ih =>
    intro cli l
    unfold client_done_loop
    have hb : (client_done_body cli h malloc_ok).obex_rsp = cli.obex_rsp := by
      unfold client_done_body store_nul
      dsimp only [infocb]
      split
      · split
        · rfl
        · split <;> rfl
      · rfl
    split
    · exact (ih _ _).trans hb
    · split
      · exact ih _ _
      · split
        · exact ih _ _
        · split
          · split <;> rfl
          · exact ih _ _

theorem client_done_write_rsp (cli : obexftp_client_t) (l : DoneLocals) (cr : Int) :
    (client_done_write cli l cr).obex_rsp = cli.obex_rsp := by
  unfold client_done_write
  split
  · rfl
  · split
    · split
      · dsimp only
        split <;> rfl
      · rfl
    · rfl

theorem client_done_rsp {malloc_ok : Bool} (cli : obexftp_client_t) (hs : List Header) (cr : Int) :
    (client_done cli hs cr malloc_ok).obex_rsp = cli.obex_rsp := by
  unfold client_done
  dsimp only
  rw [client_done_write_rsp, client_done_loop_rsp]
  split <;> rfl

/-! ### The headers the drain walks -/

theorem walked_headers_cons_apparam (h : Header) (hs : List Header)
    (hh : h.hi = OBEX_HDR_APPARAM) : walked_headers (h :: hs) = [h] := by
  simp [walked_headers, hh]

theorem walked_headers_cons_other (h : Header) (hs : List Header)
    (hh : h.hi ≠ OBEX_HDR_APPARAM) : walked_headers (h :: hs) = h :: walked_headers hs := by
  simp [walked_headers, hh]

theorem walked_headers_all (hs : List Header) (h : ∀ x ∈ hs, x.hi ≠ OBEX_HDR_APPARAM) :
    walked_headers hs = hs := by
  induction hs with
  | nil => rfl
  | cons x xs ih =>
    rw [walked_headers_cons_other x xs (h x (List.mem_cons_self _ _)),
      ih (fun y hy => h y (List.mem_cons_of_mem _ hy))]

theorem walked_headers_upto (pre : List Header) (a : Header) (post : List Header)
    (h : ∀ x ∈ pre, x.hi ≠ OBEX_HDR_APPARAM) (ha : a.hi = OBEX_HDR_APPARAM) :
    walked_headers (pre ++ a :: post) = pre ++ [a] := by
  induction pre with
  | nil => exact walked_headers_cons_apparam a post ha
  | cons x xs ih =>
    rw [List.cons_append, walked_headers_cons_other x _ (h x (List.mem_cons_self _ _)),
      ih (fun y hy => h y (List.mem_cons_of_mem _ hy))]
    rfl

theorem spec_drain_events_cons (h : Header) (hs : List Header) :
    spec_drain_events (h :: hs)
      = (if h.hi = OBEX_HDR_BODY then [body_call h]
          else if h.hi = OBEX_HDR_APPARAM ∧ h.hlen = 6 then [info_call h] else [])
        ++ spec_drain_events hs := by
  unfold spec_drain_events
  rw [List.filterMap_cons]
  split
  · rename_i hnone
    split at hnone
    · exact absurd hnone (by simp)
    · split at hnone
      · exact absurd hnone (by simp)
      · rename_i h1 h2
        rw [if_neg h1, if_neg h2]
        rfl
  · rename_i b hsome
    split at hsome
    · rename_i h1
      simp only [Option.some.injEq] at hsome
      rw [if_pos h1, ← hsome]
      rfl
    · split at hsome
      · rename_i h1 h2
        simp only [Option.some.injEq] at hsome
        rw [if_neg h1, if_pos h2, ← hsome]
        rfl
      · exact absurd hsome (by simp)

/-- The events of the header loop are those of the spec for the headers
up to and including the first APPARAM header. -/
theorem client_done_loop_events {malloc_ok : Bool} (hs : List Header) :
    ∀ (cli : obexftp_client_t) (l : DoneLocals),
      (client_done_loop cli l malloc_ok hs).1.infocb_calls
        = cli.infocb_calls ++ spec_drain_events (walked_headers hs) := by
  induction hs with
  | nil =>
    intro cli l
    simp [client_done_loop, walked_headers, spec_drain_events]
  | cons h hs ih =>
    intro cli l
    by_cases ha : h.hi = OBEX_HDR_APPARAM
    · have hb : ¬ h.hi = OBEX_HDR_BODY := by rw [ha]; decide
      have hc : ¬ h.hi = OBEX_HDR_CONNECTION := by rw [ha]; decide
      have hw : ¬ h.hi = OBEX_HDR_WHO := by rw [ha]; decide
      rw [walked_headers_cons_apparam h hs ha, spec_drain_events_cons, if_neg hb,
        client_done_loop, if_neg hb, if_neg hc, if_neg hw, if_pos ha]
      by_cases hl : h.hlen = 6
      · rw [if_pos (show h.hlen = sizeof_apparam_t from hl), if_pos ⟨ha, hl⟩]
        simp [infocb, info_call, spec_drain_events]
      · rw [if_neg (show ¬ h.hlen = sizeof_apparam_t from hl), if_neg (fun x => hl x.2)]
        simp [spec_drain_events]
    · rw [walked_headers_cons_other h hs ha, spec_drain_events_cons, client_done_loop]
      by_cases hb : h.hi = OBEX_HDR_BODY
      · rw [if_pos hb, if_pos hb, ih, (@client_done_body_keeps malloc_ok cli h).2.2.2]
        simp [body_call]
      · simp only [hb, ha, if_false, false_and, List.nil_append]
        split
        · exact ih _ _
        · split <;> exact ih _ _

/-! ### The in-memory accumulator -/

theorem u32_pred_pos (n : Nat) (h0 : 0 < n) (h : n < 2 ^ 32) : u32_pred n = n - 1 := by
  unfold u32_pred
  have h1 : n + 2 ^ 32 - 1 = (n - 1) + 2 ^ 32 := by omega
  rw [h1, Nat.add_mod_right]
  exact Nat.mod_eq_of_lt (by omega)

theorem store_nul_content (cli : obexftp_client_t) (bs : List Nat) (n : Nat) (h0 : 0 < n)
    (h : n < 2 ^ 32) :
    (store_nul cli bs n true).body_content = some (bs.set (n - 1) 0) ∧
    (store_nul cli bs n true).wild_stores = cli.wild_stores := by
  unfold store_nul
  rw [if_neg (by decide), u32_pred_pos n h0 h, if_pos (by omega)]
  exact ⟨rfl, rfl⟩

theorem client_done_loop_content {malloc_ok : Bool} (hs : List Header) :
    ∀ (cli : obexftp_client_t) (l : DoneLocals), (∀ x ∈ hs, x.hi ≠ OBEX_HDR_BODY) →
      (client_done_loop cli l malloc_ok hs).1.body_content = cli.body_content := by
  induction hs with
  | nil => intro cli l _; rfl
  | cons x xs ih =>
    intro cli l hx
    have h1 := hx x (List.mem_cons_self _ _)
    have h2 : ∀ y ∈ xs, y.hi ≠ OBEX_HDR_BODY := fun y hy => hx y (List.mem_cons_of_mem _ hy)
    rw [client_done_loop]
    simp only [h1, if_false]
    split
    · exact ih _ _ h2
    · split
      · exact ih _ _ h2
      · split
        · split <;> rfl
        · exact ih _ _ h2

theorem client_done_write_content (cli : obexftp_client_t) (l : DoneLocals) (cr : Int) :
    (client_done_write cli l cr).body_content = cli.body_content := by
  unfold client_done_write
  split
  · rfl
  · split
    · split
      · dsimp only
        split <;> rfl
      · rfl
    · rfl

/-- The drain of a response with one non-empty BODY header while no
target file name is set. -/
theorem client_done_content (cli : obexftp_client_t) (b : List Nat) (pre post : List Header)
    (cr : Int) (ht : cli.target_fn = none)
    (hpre : ∀ x ∈ pre, x.hi ≠ OBEX_HDR_BODY ∧ x.hi ≠ OBEX_HDR_APPARAM)
    (hpost : ∀ x ∈ post, x.hi ≠ OBEX_HDR_BODY) (hb : b ≠ []) (hlen : b.length < 2 ^ 32) :
    (client_done cli (pre ++ ⟨OBEX_HDR_BODY, b⟩ :: post) cr true).body_content
      = some (b.set (b.length - 1) 0) := by
  have hpos : 0 < b.length := List.length_pos.mpr hb
  unfold client_done
  dsimp only
  have h0 : (if cli.fd > 0 then syscall cli (Syscall.close cli.fd) else cli).target_fn = none := by
    split
    · exact ht
    · exact ht
  generalize (if cli.fd > 0 then syscall cli (Syscall.close cli.fd) else cli) = cli0 at h0 ⊢
  have hloop : client_done_loop cli0 ⟨none, 0, none⟩ true (pre ++ ⟨OBEX_HDR_BODY, b⟩ :: post)
      = client_done_loop (client_done_body cli0 ⟨OBEX_HDR_BODY, b⟩ true)
          ⟨some b, u32_to_int b.length, none⟩ true post := by
    rw [@client_done_loop_skip true _ _ _ _ hpre, client_done_loop]
    simp [Header.hlen]
  have hbody : (client_done_body cli0 ⟨OBEX_HDR_BODY, b⟩ true).body_content
      = some (b.set (b.length - 1) 0) := by
    unfold client_done_body
    dsimp only [infocb, Header.hlen]
    rw [if_pos h0, List.take_length]
    exact (store_nul_content cli0 b b.length hpos hlen).1
  rw [client_done_write_content, hloop, @client_done_loop_content true post _ _ hpost, hbody]

theorem outcome_from_progress (rest : List Pump) (pumps : List Pump)
    (hp : ∀ p ∈ pumps, progress_only p) :
    outcome_from none (pumps ++ rest) = outcome_from none rest := by
  induction pumps with
  | nil => rfl
  | cons q qs ih =>
    have hq := hp q (List.mem_cons_self _ _)
    have hfold : q.deliveries.foldl delivery_flags none = none := by
      have hd := hq.2
      generalize q.deliveries = ds at hd
      induction ds with
      | nil => rfl
      | cons d ds ihd =>
        have h1 : d = Delivery.OBEX_EV_PROGRESS := hd d (List.mem_cons_self _ _)
        subst h1
        exact ihd (fun x hx => hd x (List.mem_cons_of_mem _ hx))
    simp only [List.cons_append, outcome_from]
    rw [if_neg (not_le.mpr hq.1), hfold]
    exact ih (fun x hx => hp x (List.mem_cons_of_mem _ hx))

/-- A listing whose final response is SUCCESS, delivered by a pump that
returns a positive value after progress pumps, is a successful request. -/
theorem request_outcome_success (pumps : List Pump) (hs : List Header) (cr ret : Int)
    (m : Bool) (hp : ∀ p ∈ pumps, progress_only p) (hret : 0 < ret) :
    request_outcome (pumps ++ [⟨[Delivery.OBEX_EV_REQDONE OBEX_RSP_SUCCESS hs cr m], ret⟩])
      = some 1 := by
  unfold request_outcome
  rw [outcome_from_progress _ pumps hp]
  simp only [outcome_from]
  rw [if_neg (not_le.mpr hret)]
  simp [delivery_flags, outcome_from]

/-! ### The system calls on record only grow -/

/-- C2 (amended).  For every name (a NUL-free string or NULL), when every
submitted request succeeds, `obexftp_setpath` returns 1 after submitting
exactly one SETPATH request per slash-separated component of the name
with its leading slashes removed, empty components included; their number
is `count_non_empty_components` of the path plus the number of empty
components left after the leading slashes.  For a NULL or empty name it
submits exactly one SETPATH request without a name (the way up). -/
theorem obexftp_setpath_requests (cli : obexftp_client_t) (name : Option (List Nat))
    (scripts : List (List Pump))
    (hstr : ∀ p, name = some p → 0 ∉ p)
    (hlen : (setpath_names name).length ≤ scripts.length)
    (hok : ∀ s ∈ scripts.take (setpath_names name).length, request_outcome s = some 1) :
    (∃ cli1, obexftp_setpath cli name scripts = some (1, cli1) ∧
      cli1.requests = cli.requests ++ (setpath_names name).map Request.build_setpath) ∧
    (∀ p, name = some p → p ≠ [] →
      setpath_names name = (components p).map some ∧
      (components p).length = count_non_empty_components p
        + ((components p).filter (fun c => decide (c = []))).length) ∧
    (name = none ∨ name = some [] → setpath_names name = [none]) := by
  refine ⟨?_, ?_, ?_⟩
  · have hup : ∀ nm : Option (List Nat), setpath_names nm = [none] →
        (∀ s ∈ scripts.take (setpath_names nm).length, request_outcome s = some 1) →
        (setpath_names nm).length ≤ scripts.length →
        ∃ cli1, (match cli_sync_request (infocb cli OBEXFTP_EV_SENDING (Msg.text nm) 0)
              (Request.build_setpath none) (scripts.headD []) with
            | none => none
            | some (ret, cli1) => some (report cli1 ret nm)) = some (1, cli1) ∧
          cli1.requests = cli.requests ++ (setpath_names nm).map Request.build_setpath := by
      intro nm hnm hok1 hlen1
      rw [hnm] at hok1 hlen1
      cases scripts with
      | nil => simp at hlen1
      | cons sc rest =>
        have hsc : request_outcome sc = some 1 := hok1 sc (by simp)
        obtain ⟨cli2, hs⟩ := cli_sync_request_returns
          (infocb cli OBEXFTP_EV_SENDING (Msg.text nm) 0) (Request.build_setpath none) hsc
        have hreq := (cli_sync_request_spec hs).2.2.1
        refine ⟨(report cli2 1 nm).2, ?_, ?_⟩
        · simp only [List.headD_cons]
          rw [hs]
          simp only
          rw [report_mk]
        · rw [report_requests, hreq, hnm]
          simp [infocb]
    cases name with
    | none => exact hup none rfl hok hlen
    | some p =>
      cases p with
      | nil => exact hup (some []) rfl hok hlen
      | cons c cs =>
        have h0 : 0 ∉ c :: cs := hstr _ rfl
        have hn : setpath_names (some (c :: cs)) = (components (c :: cs)).map some := rfl
        rw [hn, List.length_map] at hok hlen
        obtain ⟨cli2, h1, h2⟩ := setpath_seq_ok (components (c :: cs))
          (infocb cli OBEXFTP_EV_SENDING (Msg.text (some (c :: cs))) 0) 0 scripts hlen hok
        rw [if_neg (components_ne_nil _)] at h1
        refine ⟨(report cli2 1 (some (skip_slashes (c :: cs)))).2, ?_, ?_⟩
        · unfold obexftp_setpath
          simp only
          rw [obexftp_setpath_loop_components _ _ h0, h1]
          simp only
          rw [report_mk]
        · rw [report_requests, h2, hn]
          simp [infocb, Function.comp_def]
  · intro p hp hne
    cases p with
    | nil => exact absurd rfl hne
    | cons c cs =>
      rw [hp]
      exact ⟨rfl, components_length _⟩
  · intro h
    rcases h with h | h <;> rw [h] <;> rfl

/-- C2 (witness).  The path a/b with two succeeding requests. -/
theorem obexftp_setpath_requests_witness :
    (∃ cli1, obexftp_setpath obexftp_cli_open (some [97, 47, 98])
        [[⟨[Delivery.OBEX_EV_REQDONE 0x20 [] 0 true], 1⟩], [⟨[Delivery.OBEX_EV_REQDONE 0x20 [] 0 true], 1⟩]]
          = some (1, cli1) ∧
      cli1.requests = obexftp_cli_open.requests
        ++ (setpath_names (some [97, 47, 98])).map Request.build_setpath) ∧
    (∀ p, some [97, 47, 98] = some p → p ≠ [] →
      setpath_names (some [97, 47, 98]) = (components p).map some ∧
      (components p).length = count_non_empty_components p
        + ((components p).filter (fun c => decide (c = []))).length) ∧
    (some [97, 47, 98] = none ∨ some [97, 47, 98] = some [] →
      setpath_names (some [97, 47, 98]) = [none]) :=
  obexftp_setpath_requests obexftp_cli_open (some [97, 47, 98])
    [[⟨[Delivery.OBEX_EV_REQDONE 0x20 [] 0 true], 1⟩], [⟨[Delivery.OBEX_EV_REQDONE 0x20 [] 0 true], 1⟩]]
    (by intro p hp; cases hp; decide) (by decide) (by decide)

/-- C2 (counterexample).  For the path a//b, with every request
succeeding, three SETPATH requests are submitted, the second for an empty
name, while the path has two non-empty components; the paths a/ and /
give two requests and one. -/
theorem obexftp_setpath_empty_component :
    count_non_empty_components [97, 47, 47, 98] = 2 ∧
    (obexftp_setpath obexftp_cli_open (some [97, 47, 47, 98])
        (List.replicate 3 [⟨[Delivery.OBEX_EV_REQDONE 0x20 [] 0 true], 1⟩])).map
      (fun r => (r.1, r.2.requests))
      = some (1, [Request.build_setpath (some [97]), Request.build_setpath (some []),
          Request.build_setpath (some [98])]) ∧
    count_non_empty_components [97, 47] = 1 ∧
    (obexftp_setpath obexftp_cli_open (some [97, 47])
        (List.replicate 3 [⟨[Delivery.OBEX_EV_REQDONE 0x20 [] 0 true], 1⟩])).map
      (fun r => (r.1, r.2.requests))
      = some (1, [Request.build_setpath (some [97]), Request.build_setpath (some [])]) ∧
    count_non_empty_components [47] = 0 ∧
    (obexftp_setpath obexftp_cli_open (some [47])
        (List.replicate 3 [⟨[Delivery.OBEX_EV_REQDONE 0x20 [] 0 true], 1⟩])).map
      (fun r => (r.1, r.2.requests))
      = some (1, [Request.build_setpath (some [])]) := by
  decide


theorem report_last_err (cli : obexftp_client_t) (msg : Option (List Nat)) :
    (report cli (-1) msg).2.infocb_calls.getLast?
      = some ⟨OBEXFTP_EV_ERR, Msg.text msg, 0⟩ := by
  simp [report, infocb]

/-- C3 (amended).  For every name (a NUL-free slash-separated path, or
NULL) and every k from 1 to the number of its requests: when the first
k - 1 requests succeed and request k fails, `obexftp_setpath` returns -1
having submitted exactly the first k requests and no later one, and the
last event it emits is ERR.  The requests of a non-empty path are one per
slash-separated item of the path after its leading slashes, empty items
included; they are the requests for the non-empty components of the
path, so that k counts components, when no item is empty. -/
theorem obexftp_setpath_first_failure (cli : obexftp_client_t) (name : Option (List Nat))
    (pre : List (List Pump)) (bad : List Pump) (post : List (List Pump))
    (hstr : ∀ p, name = some p → 0 ∉ p)
    (hk : pre.length < (setpath_names name).length)
    (hok : ∀ s ∈ pre, request_outcome s = some 1)
    (hbad : request_outcome bad = some (-1)) :
    (∃ cli1, obexftp_setpath cli name (pre ++ bad :: post) = some (-1, cli1) ∧
      cli1.requests = cli.requests
        ++ ((setpath_names name).take (pre.length + 1)).map Request.build_setpath ∧
      cli1.requests.length = cli.requests.length + (pre.length + 1) ∧
      ∃ msg, cli1.infocb_calls.getLast? = some ⟨OBEXFTP_EV_ERR, msg, 0⟩) ∧
    (∀ p, name = some p → p ≠ [] →
      setpath_names name = (components p).map some ∧
      ([] ∉ components p → setpath_names name = (non_empty_components p).map some)) := by
  refine ⟨?_, ?_⟩
  swap
  · intro p hp hne
    cases p with
    | nil => exact absurd rfl hne
    | cons c cs =>
      rw [hp]
      refine ⟨rfl, fun h => ?_⟩
      rw [← components_non_empty _ h]
      rfl
  have hcount : ∀ cli1 : obexftp_client_t,
      cli1.requests = cli.requests
        ++ ((setpath_names name).take (pre.length + 1)).map Request.build_setpath →
      cli1.requests.length = cli.requests.length + (pre.length + 1) := by
    intro cli1 h
    rw [h]
    simp only [List.length_append, List.length_map, List.length_take]
    omega
  have hup : ∀ nm : Option (List Nat), setpath_names nm = [none] →
      pre.length < (setpath_names nm).length →
      ∃ cli1, (match cli_sync_request (infocb cli OBEXFTP_EV_SENDING (Msg.text nm) 0)
            (Request.build_setpath none) ((pre ++ bad :: post).headD []) with
          | none => none
          | some (ret, cli1) => some (report cli1 ret nm)) = some (-1, cli1) ∧
        cli1.requests = cli.requests
          ++ ((setpath_names nm).take (pre.length + 1)).map Request.build_setpath ∧
        ∃ msg, cli1.infocb_calls.getLast? = some ⟨OBEXFTP_EV_ERR, msg, 0⟩ := by
    intro nm hnm hk1
    rw [hnm] at hk1
    have hpre : pre = [] := by
      cases pre with
      | nil => rfl
      | cons a as => simp at hk1
    subst hpre
    obtain ⟨cli2, hs⟩ := cli_sync_request_returns
      (infocb cli OBEXFTP_EV_SENDING (Msg.text nm) 0) (Request.build_setpath none) hbad
    have hreq := (cli_sync_request_spec hs).2.2.1
    refine ⟨(report cli2 (-1) nm).2, ?_, ?_, _, report_last_err _ _⟩
    · simp only [List.nil_append, List.headD_cons]
      rw [hs]
      simp only
      rw [report_mk]
    · rw [report_requests, hreq, hnm]
      simp [infocb]
  cases name with
  | none =>
    obtain ⟨cli1, h1, h2, h3⟩ := hup none rfl hk
    exact ⟨cli1, h1, h2, hcount _ h2, h3⟩
  | some p =>
    cases p with
    | nil =>
      obtain ⟨cli1, h1, h2, h3⟩ := hup (some []) rfl hk
      exact ⟨cli1, h1, h2, hcount _ h2, h3⟩
    | cons c cs =>
      have h0 : 0 ∉ c :: cs := hstr _ rfl
      have hn : setpath_names (some (c :: cs)) = (components (c :: cs)).map some := rfl
      have hk2 : pre.length < (components (c :: cs)).length := by
        rw [hn, List.length_map] at hk
        exact hk
      obtain ⟨cli2, h1, h2⟩ := setpath_seq_fail bad post hbad pre
        (infocb cli OBEXFTP_EV_SENDING (Msg.text (some (c :: cs))) 0) 0
        (components (c :: cs)) hk2 hok
      have hreq : (report cli2 (-1) (some (skip_slashes (c :: cs)))).2.requests
          = cli.requests ++ ((setpath_names (some (c :: cs))).take (pre.length + 1)).map
              Request.build_setpath := by
        rw [report_requests, h2, hn]
        simp [infocb, Function.comp_def, List.map_take]
      refine ⟨(report cli2 (-1) (some (skip_slashes (c :: cs)))).2, ?_, hreq, hcount _ hreq,
        _, report_last_err _ _⟩
      unfold obexftp_setpath
      simp only
      rw [obexftp_setpath_loop_components _ _ h0, h1]
      simp only
      rw [report_mk]

/-- C3 (witness).  The path a/b/c when the second request is refused:
two requests are submitted, the third never. -/
theorem obexftp_setpath_first_failure_witness :
    (∃ cli1, obexftp_setpath obexftp_cli_open (some [97, 47, 98, 47, 99])
        ([[⟨[Delivery.OBEX_EV_REQDONE 0x20 [] 0 true], 1⟩]]
          ++ [⟨[Delivery.OBEX_EV_REQDONE 0x44 [] 0 true], 1⟩]
            :: [[⟨[Delivery.OBEX_EV_REQDONE 0x20 [] 0 true], 1⟩]]) = some (-1, cli1) ∧
      cli1.requests = obexftp_cli_open.requests
        ++ ((setpath_names (some [97, 47, 98, 47, 99])).take
            ([[(⟨[Delivery.OBEX_EV_REQDONE 0x20 [] 0 true], 1⟩ : Pump)]].length + 1)).map
          Request.build_setpath ∧
      cli1.requests.length = obexftp_cli_open.requests.length
        + ([[(⟨[Delivery.OBEX_EV_REQDONE 0x20 [] 0 true], 1⟩ : Pump)]].length + 1) ∧
      ∃ msg, cli1.infocb_calls.getLast? = some ⟨OBEXFTP_EV_ERR, msg, 0⟩) ∧
    (∀ p, some [97, 47, 98, 47, 99] = some p → p ≠ [] →
      setpath_names (some [97, 47, 98, 47, 99]) = (components p).map some ∧
      ([] ∉ components p →
        setpath_names (some [97, 47, 98, 47, 99]) = (non_empty_components p).map some)) :=
  obexftp_setpath_first_failure obexftp_cli_open (some [97, 47, 98, 47, 99])
    [[⟨[Delivery.OBEX_EV_REQDONE 0x20 [] 0 true], 1⟩]]
    [⟨[Delivery.OBEX_EV_REQDONE 0x44 [] 0 true], 1⟩]
    [[⟨[Delivery.OBEX_EV_REQDONE 0x20 [] 0 true], 1⟩]]
    (by intro p hp; cases hp; decide) (by decide) (by decide) (by decide)

/-- C3 (counterexample).  The path a//b has the two components a and b.
When the request for b, its second component, is the first to fail,
`obexftp_setpath` returns -1 having submitted three requests, not two: for
a, for the empty name and for b.  When the second request fails, two
requests are submitted and the one that failed is for the empty name, not
for a component. -/
theorem obexftp_setpath_failure_after_empty :
    non_empty_components [97, 47, 47, 98] = [[97], [98]] ∧
    request_outcome [⟨[Delivery.OBEX_EV_REQDONE 0x20 [] 0 true], 1⟩] = some 1 ∧
    request_outcome [⟨[Delivery.OBEX_EV_REQDONE 0x44 [] 0 true], 1⟩] = some (-1) ∧
    (obexftp_setpath obexftp_cli_open (some [97, 47, 47, 98])
        [[⟨[Delivery.OBEX_EV_REQDONE 0x20 [] 0 true], 1⟩],
         [⟨[Delivery.OBEX_EV_REQDONE 0x20 [] 0 true], 1⟩],
         [⟨[Delivery.OBEX_EV_REQDONE 0x44 [] 0 true], 1⟩]]).map
      (fun r => (r.1, r.2.requests))
      = some (-1, [Request.build_setpath (some [97]), Request.build_setpath (some []),
          Request.build_setpath (some [98])]) ∧
    (obexftp_setpath obexftp_cli_open (some [97, 47, 47, 98])
        [[⟨[Delivery.OBEX_EV_REQDONE 0x20 [] 0 true], 1⟩],
         [⟨[Delivery.OBEX_EV_REQDONE 0x44 [] 0 true], 1⟩],
         [⟨[Delivery.OBEX_EV_REQDONE 0x20 [] 0 true], 1⟩]]).map
      (fun r => (r.1, r.2.requests))
      = some (-1, [Request.build_setpath (some [97]), Request.build_setpath (some [])]) := by
  decide


/-- C9.  For every request run by `cli_sync_request` and every script of
pump results and delivered events: a returned value is +1 or -1; when a
pump call is reached (the request not finished before it, the earlier
calls positive) and returns a value at most 0, the call returns -1 right
after it; and when the pump calls are positive until one leaves
`finished` true, the call returns then, with +1 if and only if the
success flag is true. -/
theorem cli_sync_request_result (cli : obexftp_client_t) (object : Request) :
    (∀ (script : List Pump) (r : Int) (cli1 : obexftp_client_t),
      cli_sync_request cli object script = some (r, cli1) → r = 1 ∨ r = -1) ∧
    (∀ (pre : List Pump) (p : Pump) (post : List Pump),
      (∀ k, k ≤ pre.length → (pumped (submitted cli object) (pre.take k)).finished = false) →
      (∀ q ∈ pre, 0 < q.ret) → p.ret ≤ 0 →
      cli_sync_request cli object (pre ++ p :: post)
        = some (-1, OBEX_HandleInput (pumped (submitted cli object) pre) p)) ∧
    (∀ (pre post : List Pump),
      (∀ k, k < pre.length → (pumped (submitted cli object) (pre.take k)).finished = false) →
      (∀ q ∈ pre, 0 < q.ret) →
      (pumped (submitted cli object) pre).finished = true →
      ∃ r, cli_sync_request cli object (pre ++ post)
          = some (r, pumped (submitted cli object) pre) ∧
        (r = 1 ∨ r = -1) ∧
        (r = 1 ↔ (pumped (submitted cli object) pre).success = true)) := by
  refine ⟨?_, ?_, ?_⟩
  · intro script r cli1 h
    exact (cli_sync_request_spec h).2.1
  · intro pre p post hfin hpos hp
    exact obexftp_sync_stop p post hp pre (submitted cli object) hfin hpos
  · intro pre post hfin hpos hend
    refine ⟨_, obexftp_sync_done post pre (submitted cli object) hfin hpos hend, ?_, ?_⟩
    · cases (pumped (submitted cli object) pre).success <;> simp
    · cases (pumped (submitted cli object) pre).success <;> simp

/-- C9 (witness).  A progress pump, then a pump that returns 0: the call
returns -1 there and the later pump is not used; and a request ended by a
SUCCESS response returns +1. -/
theorem cli_sync_request_result_witness :
    cli_sync_request obexftp_cli_open Request.disconnect
        ([⟨[Delivery.OBEX_EV_PROGRESS], 1⟩] ++ ⟨[], 0⟩
          :: [⟨[Delivery.OBEX_EV_REQDONE 0x20 [] 0 true], 1⟩])
      = some (-1, OBEX_HandleInput (pumped (submitted obexftp_cli_open Request.disconnect)
          [⟨[Delivery.OBEX_EV_PROGRESS], 1⟩]) ⟨[], 0⟩) ∧
    ∃ r, cli_sync_request obexftp_cli_open Request.disconnect
          ([⟨[Delivery.OBEX_EV_REQDONE 0x20 [] 0 true], 1⟩] ++ [])
        = some (r, pumped (submitted obexftp_cli_open Request.disconnect)
            [⟨[Delivery.OBEX_EV_REQDONE 0x20 [] 0 true], 1⟩]) ∧
      (r = 1 ∨ r = -1) ∧
      (r = 1 ↔ (pumped (submitted obexftp_cli_open Request.disconnect)
            [⟨[Delivery.OBEX_EV_REQDONE 0x20 [] 0 true], 1⟩]).success = true) :=
  ⟨(cli_sync_request_result obexftp_cli_open Request.disconnect).2.1
      [⟨[Delivery.OBEX_EV_PROGRESS], 1⟩] ⟨[], 0⟩ [⟨[Delivery.OBEX_EV_REQDONE 0x20 [] 0 true], 1⟩]
      (by decide) (by decide) (by decide),
    (cli_sync_request_result obexftp_cli_open Request.disconnect).2.2
      [⟨[Delivery.OBEX_EV_REQDONE 0x20 [] 0 true], 1⟩] [] (by decide) (by decide) (by decide)⟩


/-- C4.  For every APPARAM header that the header loop of the inbound
drain reaches (no APPARAM header stands before it): when its bytes are
exactly six, code, length and four value bytes, the drain emits one INFO
event whose payload is the value bytes read as a big-endian integer; when
its length is not 6 the drain emits no INFO event. -/
theorem client_done_apparam (malloc_ok : Bool) (cli : obexftp_client_t) (pre post : List Header)
    (h : Header)
    (creat_ret : Int) (hpre : ∀ x ∈ pre, x.hi ≠ OBEX_HDR_APPARAM)
    (hh : h.hi = OBEX_HDR_APPARAM) :
    (∀ code len v0 v1 v2 v3 : Nat, h.bs = [code, len, v0, v1, v2, v3] →
      v0 < 256 → v1 < 256 → v2 < 256 → v3 < 256 →
      info_calls (client_done cli (pre ++ h :: post) creat_ret malloc_ok).infocb_calls
        = info_calls cli.infocb_calls
          ++ [⟨OBEXFTP_EV_INFO, Msg.int (v0 * 2 ^ 24 + v1 * 2 ^ 16 + v2 * 2 ^ 8 + v3), 0⟩]) ∧
    (h.bs.length ≠ 6 →
      info_calls (client_done cli (pre ++ h :: post) creat_ret malloc_ok).infocb_calls
        = info_calls cli.infocb_calls) := by
  have hstart : ∀ c : obexftp_client_t,
      (if c.fd > 0 then syscall c (Syscall.close c.fd) else c).infocb_calls = c.infocb_calls := by
    intro c
    split <;> rfl
  obtain ⟨cli1, l1, e, hi⟩ := @client_done_loop_info malloc_ok (h :: post) pre
    (if cli.fd > 0 then syscall cli (Syscall.close cli.fd) else cli) ⟨none, 0, none⟩ hpre
  rw [hstart] at hi
  have hb : ¬ h.hi = OBEX_HDR_BODY := by rw [hh]; decide
  have hc : ¬ h.hi = OBEX_HDR_CONNECTION := by rw [hh]; decide
  have hw : ¬ h.hi = OBEX_HDR_WHO := by rw [hh]; decide
  have hstep : client_done_loop cli1 l1 malloc_ok (h :: post)
      = if h.hlen = sizeof_apparam_t then
          (infocb cli1 OBEXFTP_EV_INFO (Msg.int (apparam_info host_little_endian h.bs)) 0,
            { l1 with app := some h.bs })
        else (cli1, l1) := by
    rw [client_done_loop, if_neg hb, if_neg hc, if_neg hw, if_pos hh]
  refine ⟨?_, ?_⟩
  · intro code len v0 v1 v2 v3 hbs h0 h1 h2 h3
    have hl : h.hlen = sizeof_apparam_t := by simp [Header.hlen, hbs, sizeof_apparam_t]
    unfold client_done
    dsimp only
    rw [client_done_write_calls, e, hstep, if_pos hl]
    simp only [infocb]
    rw [info_calls_append, hi, hbs]
    have hv : apparam_info host_little_endian [code, len, v0, v1, v2, v3]
        = v0 * 2 ^ 24 + v1 * 2 ^ 16 + v2 * 2 ^ 8 + v3 := by
      unfold apparam_info
      simpa using bswap32_load v0 v1 v2 v3 h0 h1 h2 h3 host_little_endian
    rw [hv]
    simp [info_calls]
  · intro hne
    have hl : ¬ h.hlen = sizeof_apparam_t := by simpa [Header.hlen, sizeof_apparam_t] using hne
    unfold client_done
    dsimp only
    rw [client_done_write_calls, e, hstep, if_neg hl, hi]

/-- C4 (witness).  The record 01 04 00 00 10 00 after a WHO header gives
INFO 4096; the record 01 04 00 00 30 39 gives INFO 12345. -/
theorem client_done_apparam_witness :
    info_calls (client_done obexftp_cli_open
        ([⟨OBEX_HDR_WHO, [1]⟩] ++ ⟨OBEX_HDR_APPARAM, [1, 4, 0, 0, 16, 0]⟩ :: []) 0 true).infocb_calls
      = info_calls obexftp_cli_open.infocb_calls
        ++ [⟨OBEXFTP_EV_INFO, Msg.int (0 * 2 ^ 24 + 0 * 2 ^ 16 + 16 * 2 ^ 8 + 0), 0⟩]
    ∧ 0 * 2 ^ 24 + 0 * 2 ^ 16 + 16 * 2 ^ 8 + 0 = 4096
    ∧ info_calls (client_done obexftp_cli_open
        ([] ++ ⟨OBEX_HDR_APPARAM, [1, 4, 0, 0, 48, 57]⟩ :: []) 0 true).infocb_calls
      = info_calls obexftp_cli_open.infocb_calls
        ++ [⟨OBEXFTP_EV_INFO, Msg.int (0 * 2 ^ 24 + 0 * 2 ^ 16 + 48 * 2 ^ 8 + 57), 0⟩]
    ∧ 0 * 2 ^ 24 + 0 * 2 ^ 16 + 48 * 2 ^ 8 + 57 = 12345 :=
  ⟨(client_done_apparam true obexftp_cli_open [⟨OBEX_HDR_WHO, [1]⟩] []
      ⟨OBEX_HDR_APPARAM, [1, 4, 0, 0, 16, 0]⟩ 0 (by decide) rfl).1 1 4 0 0 16 0 rfl
      (by decide) (by decide) (by decide) (by decide),
    by decide,
    (client_done_apparam true obexftp_cli_open [] []
      ⟨OBEX_HDR_APPARAM, [1, 4, 0, 0, 48, 57]⟩ 0 (by decide) rfl).1 1 4 0 0 48 57 rfl
      (by decide) (by decide) (by decide) (by decide),
    by decide⟩


/-- C1 (amended).  For every `obexftp_get` and `obexftp_list` call with a
non-NULL, non-empty local name whose request is answered, after any
number of progress pumps, by a response with exactly one BODY header, no
APPARAM header before it, carrying bytes b (fewer than 2^31): the call
returns; if b is non-empty and `creat` returns a positive descriptor, the
system calls of the call are the `close` of a leftover outbound
descriptor, if any, then `creat(local, 0644)`, `write` of exactly b to
the descriptor and `close` of it, and the target path is cleared; if b
is empty, no file is created and the target path stays set. -/
theorem obexftp_get_list_body_to_file (malloc_ok : Bool) (cli : obexftp_client_t) (c : Nat)
    (cs remote b : List Nat)
    (pumps : List Pump) (rsp : Int) (pre post : List Header) (creat_ret ret : Int)
    (hp : ∀ p ∈ pumps, progress_only p)
    (hpre : ∀ x ∈ pre, x.hi ≠ OBEX_HDR_BODY ∧ x.hi ≠ OBEX_HDR_APPARAM)
    (hpost : ∀ x ∈ post, x.hi ≠ OBEX_HDR_BODY) (hlen : b.length < 2 ^ 31) :
    (∃ r cli1, obexftp_get cli (some (c :: cs)) (some remote) true
        (pumps ++ [⟨[Delivery.OBEX_EV_REQDONE rsp (pre ++ ⟨OBEX_HDR_BODY, b⟩ :: post)
          creat_ret malloc_ok], ret⟩]) = some (r, cli1) ∧
      (b ≠ [] → 0 < creat_ret →
        cli1.syscalls = cli.syscalls ++ leftover_close cli.fd
          ++ body_writer_calls (c :: cs) creat_ret b ∧
        cli1.target_fn = none) ∧
      (b = [] →
        cli1.syscalls = cli.syscalls ++ leftover_close cli.fd ∧
        cli1.target_fn = some (c :: cs))) ∧
    (∃ r cli1, obexftp_list cli (some (c :: cs)) (some remote) true
        (pumps ++ [⟨[Delivery.OBEX_EV_REQDONE rsp (pre ++ ⟨OBEX_HDR_BODY, b⟩ :: post)
          creat_ret malloc_ok], ret⟩]) = some (r, cli1) ∧
      (b ≠ [] → 0 < creat_ret →
        cli1.syscalls = cli.syscalls ++ leftover_close cli.fd
          ++ body_writer_calls (c :: cs) creat_ret b ∧
        cli1.target_fn = none) ∧
      (b = [] →
        cli1.syscalls = cli.syscalls ++ leftover_close cli.fd ∧
        cli1.target_fn = some (c :: cs))) := by
  refine ⟨?_, ?_⟩
  · obtain ⟨r, cli2, hr, h1, h2⟩ := cli_sync_request_file
      (set_target_fn (infocb cli OBEXFTP_EV_RECEIVING (Msg.text (some remote)) 0)
        (some (c :: cs)))
      (Request.build_get remote) (c :: cs) b pumps rsp pre post creat_ret ret rfl hp hpre hpost
      hlen
    have hk := report_keeps cli2 r (some remote)
    refine ⟨r, (report cli2 r (some remote)).2, ?_, ?_, ?_⟩
    · unfold obexftp_get
      simp only [Bool.true_eq_false, if_false]
      rw [hr]
      simp only
      rw [report_mk]
    · intro hb hcr
      rw [hk.1, hk.2.1]
      exact h1 hb hcr
    · intro hb
      rw [hk.1, hk.2.1]
      exact h2 hb
  · obtain ⟨r, cli2, hr, h1, h2⟩ := cli_sync_request_file
      (set_target_fn (infocb cli OBEXFTP_EV_RECEIVING (Msg.text (some remote)) 0)
        (some (c :: cs)))
      (Request.build_list (skip_slashes remote)) (c :: cs) b pumps rsp pre post creat_ret ret
      rfl hp hpre hpost hlen
    have hk := report_keeps cli2 r (some (skip_slashes remote))
    refine ⟨r, (report cli2 r (some (skip_slashes remote))).2, ?_, ?_, ?_⟩
    · unfold obexftp_list
      simp only [Bool.true_eq_false, if_false]
      rw [hr]
      simp only
      rw [report_mk]
    · intro hb hcr
      rw [hk.1, hk.2.1]
      exact h1 hb hcr
    · intro hb
      rw [hk.1, hk.2.1]
      exact h2 hb


/-- C1 (witness).  A get and a list into the local file f, one progress
pump, then a SUCCESS response whose single BODY header carries 1 2 3;
`creat` returns descriptor 3. -/
theorem obexftp_get_list_body_to_file_witness :
    (∃ r cli1, obexftp_get obexftp_cli_open (some (102 :: [])) (some [97]) true
        ([⟨[Delivery.OBEX_EV_PROGRESS], 1⟩]
          ++ [⟨[Delivery.OBEX_EV_REQDONE 0x20 ([] ++ ⟨OBEX_HDR_BODY, [1, 2, 3]⟩ :: []) 3 true], 1⟩])
        = some (r, cli1) ∧
      ([1, 2, 3] ≠ [] → (0 : Int) < 3 →
        cli1.syscalls = obexftp_cli_open.syscalls ++ leftover_close obexftp_cli_open.fd
          ++ body_writer_calls (102 :: []) 3 [1, 2, 3] ∧
        cli1.target_fn = none) ∧
      ([1, 2, 3] = [] →
        cli1.syscalls = obexftp_cli_open.syscalls ++ leftover_close obexftp_cli_open.fd ∧
        cli1.target_fn = some (102 :: []))) ∧
    (∃ r cli1, obexftp_list obexftp_cli_open (some (102 :: [])) (some [97]) true
        ([⟨[Delivery.OBEX_EV_PROGRESS], 1⟩]
          ++ [⟨[Delivery.OBEX_EV_REQDONE 0x20 ([] ++ ⟨OBEX_HDR_BODY, [1, 2, 3]⟩ :: []) 3 true], 1⟩])
        = some (r, cli1) ∧
      ([1, 2, 3] ≠ [] → (0 : Int) < 3 →
        cli1.syscalls = obexftp_cli_open.syscalls ++ leftover_close obexftp_cli_open.fd
          ++ body_writer_calls (102 :: []) 3 [1, 2, 3] ∧
        cli1.target_fn = none) ∧
      ([1, 2, 3] = [] →
        cli1.syscalls = obexftp_cli_open.syscalls ++ leftover_close obexftp_cli_open.fd ∧
        cli1.target_fn = some (102 :: []))) :=
  obexftp_get_list_body_to_file true obexftp_cli_open 102 [] [97] [1, 2, 3]
    [⟨[Delivery.OBEX_EV_PROGRESS], 1⟩] 0x20 [] [] 3 1
    (by
      intro p hp
      rw [List.mem_singleton] at hp
      rw [hp]
      exact ⟨by decide, by decide⟩)
    (by decide) (by decide) (by norm_num)

/-- C1 (counterexample).  A get and a list into the local file f whose
SUCCESS response carries one BODY header with no bytes: no system call is
made, so no file is created, and the target path is still set. -/
theorem obexftp_get_list_empty_body :
    (obexftp_get obexftp_cli_open (some [102]) (some [97]) true
        [⟨[Delivery.OBEX_EV_REQDONE 0x20 [⟨OBEX_HDR_BODY, []⟩] 3 true], 1⟩]).map
      (fun r => (r.1, r.2.syscalls, r.2.target_fn)) = some (1, [], some [102]) ∧
    (obexftp_list obexftp_cli_open (some [102]) (some [97]) true
        [⟨[Delivery.OBEX_EV_REQDONE 0x20 [⟨OBEX_HDR_BODY, []⟩] 3 true], 1⟩]).map
      (fun r => (r.1, r.2.syscalls, r.2.target_fn)) = some (1, [], some [102]) := by
  decide


/-- C5 (amended).  For every `obexftp_cli_connect` call whose transport
connect succeeds and whose two TARGET headers are added without error:
when the first CONNECT request (UUID_S45) succeeds the call returns
success having submitted that request alone; when it fails, the second
CONNECT request (UUID_FBS) is submitted after it and the call returns what
the second request returns; and when the first fails and the second
succeeds, the events of the call, those forwarded by the event handler
while a request runs (PROGRESS, BODY, INFO) left aside, are exactly
CONNECTING, ERR("UUID"), OK in that order. -/
theorem obexftp_cli_connect_fallback (cli : obexftp_client_t)
    (irobex_ret obex_ret hdr1 hdr2 : Int) (script1 script2 : List Pump) (r1 : Int)
    (htrans : 0 ≤ (if irobex_ret = -1 then obex_ret else irobex_ret))
    (hh1 : 0 ≤ hdr1) (hh2 : 0 ≤ hdr2) (h1 : request_outcome script1 = some r1) :
    (r1 = 1 ∨ r1 = -1) ∧
    (r1 = 1 →
      ∃ cli1, obexftp_cli_connect cli irobex_ret obex_ret hdr1 hdr2 script1 script2
          = some (1, cli1) ∧
        cli1.requests = cli.requests ++ [Request.connect Uuid.UUID_S45] ∧
        own_events cli cli1 = [⟨OBEXFTP_EV_CONNECTING, Msg.text (some []), 0⟩,
          ⟨OBEXFTP_EV_OK, Msg.text (some []), 0⟩]) ∧
    (r1 = -1 → ∀ r2, request_outcome script2 = some r2 →
      (r2 = 1 ∨ r2 = -1) ∧
      ∃ cli1, obexftp_cli_connect cli irobex_ret obex_ret hdr1 hdr2 script1 script2
          = some (r2, cli1) ∧
        cli1.requests = cli.requests
          ++ [Request.connect Uuid.UUID_S45, Request.connect Uuid.UUID_FBS] ∧
        (r2 = 1 → own_events cli cli1 = [⟨OBEXFTP_EV_CONNECTING, Msg.text (some []), 0⟩,
          ⟨OBEXFTP_EV_ERR, Msg.text (some (cstr "UUID")), 0⟩,
          ⟨OBEXFTP_EV_OK, Msg.text (some []), 0⟩])) := by
  obtain ⟨T, hT, hT1, hT2, hT3⟩ := connect_transport cli irobex_ret obex_ret
  have hnt : ¬ T.1 < 0 := by rw [hT1]; exact not_lt.mpr htrans
  have hn1 : ¬ hdr1 < 0 := not_lt.mpr hh1
  have hn2 : ¬ hdr2 < 0 := not_lt.mpr hh2
  obtain ⟨cli2, hs1⟩ := cli_sync_request_returns T.2 (Request.connect Uuid.UUID_S45) h1
  obtain ⟨_, hsign1, hreq1, new1, hc1, hf1⟩ := cli_sync_request_spec hs1
  have hunf : obexftp_cli_connect cli irobex_ret obex_ret hdr1 hdr2 script1 script2
      = if r1 < 0 then
          match cli_sync_request
              (infocb cli2 OBEXFTP_EV_ERR (Msg.text (some (cstr "UUID"))) 0)
              (Request.connect Uuid.UUID_FBS) script2 with
          | none => none
          | some (ret2, cli4) =>
            if ret2 < 0 then
              some (ret2, infocb cli4 OBEXFTP_EV_ERR (Msg.text (some (cstr "target"))) 0)
            else some (ret2, infocb cli4 OBEXFTP_EV_OK (Msg.text (some [])) 0)
        else some (r1, infocb cli2 OBEXFTP_EV_OK (Msg.text (some [])) 0) := by
    unfold obexftp_cli_connect
    dsimp only
    rw [hT, if_neg hnt, if_neg hn1, hs1]
    simp only [hn2, if_false]
  refine ⟨hsign1, ?_, ?_⟩
  · intro hr1
    subst hr1
    refine ⟨infocb cli2 OBEXFTP_EV_OK (Msg.text (some [])) 0, ?_, ?_, ?_⟩
    · rw [hunf, if_neg (by decide)]
    · show cli2.requests = _
      rw [hreq1, hT3]
    · apply (own_events_of cli _ ([⟨OBEXFTP_EV_CONNECTING, Msg.text (some []), 0⟩] ++ new1
        ++ [⟨OBEXFTP_EV_OK, Msg.text (some []), 0⟩]) ?_).trans
      · rw [List.filter_append, List.filter_append, filter_forwarded_nil new1 hf1]
        rfl
      · show cli2.infocb_calls ++ _ = _
        rw [hc1, hT2]
        simp
  · intro hr1 r2 h2
    subst hr1
    obtain ⟨cli4, hs2⟩ := cli_sync_request_returns
      (infocb cli2 OBEXFTP_EV_ERR (Msg.text (some (cstr "UUID"))) 0)
      (Request.connect Uuid.UUID_FBS) h2
    obtain ⟨_, hsign2, hreq2, new2, hc2, hf2⟩ := cli_sync_request_spec hs2
    refine ⟨hsign2, ?_⟩
    rw [hunf, if_pos (by decide), hs2]
    simp only
    have hreq : cli4.requests = cli.requests
        ++ [Request.connect Uuid.UUID_S45, Request.connect Uuid.UUID_FBS] := by
      rw [hreq2]
      show (cli2.requests ++ _) = _
      rw [hreq1, hT3]
      simp
    rcases hsign2 with h | h
    · subst h
      refine ⟨infocb cli4 OBEXFTP_EV_OK (Msg.text (some [])) 0, by rw [if_neg (by decide)],
        hreq, fun _ => ?_⟩
      apply (own_events_of cli _ ([⟨OBEXFTP_EV_CONNECTING, Msg.text (some []), 0⟩] ++ new1
        ++ [⟨OBEXFTP_EV_ERR, Msg.text (some (cstr "UUID")), 0⟩] ++ new2
        ++ [⟨OBEXFTP_EV_OK, Msg.text (some []), 0⟩]) ?_).trans
      · rw [List.filter_append, List.filter_append, List.filter_append, List.filter_append,
          filter_forwarded_nil new1 hf1, filter_forwarded_nil new2 hf2]
        rfl
      · show cli4.infocb_calls ++ _ = _
        rw [hc2]
        show (cli2.infocb_calls ++ _) ++ _ ++ _ = _
        rw [hc1, hT2]
        simp
    · subst h
      exact ⟨infocb cli4 OBEXFTP_EV_ERR (Msg.text (some (cstr "target"))) 0,
        by rw [if_pos (by decide)], hreq, fun h => absurd h (by decide)⟩


/-- C5 (witness).  The first CONNECT is refused, the second succeeds. -/
theorem obexftp_cli_connect_fallback_witness :
    ∃ cli1, obexftp_cli_connect obexftp_cli_open 0 0 0 0
        [⟨[Delivery.OBEX_EV_REQDONE 0x43 [] 0 true], 1⟩] [⟨[Delivery.OBEX_EV_REQDONE 0x20 [] 0 true], 1⟩]
        = some (1, cli1) ∧
      cli1.requests = obexftp_cli_open.requests
        ++ [Request.connect Uuid.UUID_S45, Request.connect Uuid.UUID_FBS] ∧
      ((1 : Int) = 1 → own_events obexftp_cli_open cli1
        = [⟨OBEXFTP_EV_CONNECTING, Msg.text (some []), 0⟩,
          ⟨OBEXFTP_EV_ERR, Msg.text (some (cstr "UUID")), 0⟩,
          ⟨OBEXFTP_EV_OK, Msg.text (some []), 0⟩]) :=
  ((obexftp_cli_connect_fallback obexftp_cli_open 0 0 0 0
      [⟨[Delivery.OBEX_EV_REQDONE 0x43 [] 0 true], 1⟩] [⟨[Delivery.OBEX_EV_REQDONE 0x20 [] 0 true], 1⟩]
      (-1) (by decide) (by decide) (by decide) (by decide)).2.2 rfl 1 (by decide)).2

/-- C5 (counterexample).  The transport connect succeeds and the first
CONNECT is refused, but adding the second TARGET header fails: the call
returns -1 with the first request alone submitted, no second one.  And
with a progress event during the first request, the events of a call
whose first request fails and second succeeds are CONNECTING, PROGRESS,
ERR, OK. -/
theorem obexftp_cli_connect_no_second_request :
    request_outcome [⟨[Delivery.OBEX_EV_REQDONE 0x43 [] 0 true], 1⟩] = some (-1) ∧
    (obexftp_cli_connect obexftp_cli_open 0 0 0 (-1)
        [⟨[Delivery.OBEX_EV_REQDONE 0x43 [] 0 true], 1⟩]
        [⟨[Delivery.OBEX_EV_REQDONE 0x20 [] 0 true], 1⟩]).map (fun r => (r.1, r.2.requests))
      = some (-1, [Request.connect Uuid.UUID_S45]) ∧
    (obexftp_cli_connect obexftp_cli_open 0 0 0 0
        [⟨[Delivery.OBEX_EV_PROGRESS, Delivery.OBEX_EV_REQDONE 0x43 [] 0 true], 1⟩]
        [⟨[Delivery.OBEX_EV_REQDONE 0x20 [] 0 true], 1⟩]).map
        (fun r => (r.1, r.2.infocb_calls.map (fun c => c.ev)))
      = some (1, [OBEXFTP_EV_CONNECTING, OBEXFTP_EV_PROGRESS, OBEXFTP_EV_ERR,
          OBEXFTP_EV_OK]) := by
  decide

/-- C6 (amended).  For a call that returns -1: `obexftp_cli_disconnect`,
`obexftp_setpath` and `obexftp_put_file` (local name not NULL) have
emitted exactly one ERR event during the call, and so have
`obexftp_info`, `obexftp_list`, `obexftp_get` (remote name not NULL),
`obexftp_rename` and `obexftp_del` when their request object was built;
`obexftp_cli_connect` has emitted exactly one ERR event when the
transport connect failed, and exactly two when the transport connect
succeeded and both TARGET headers were added (both CONNECT requests have
failed then). -/
theorem failure_err_events (cli cli1 : obexftp_client_t) :
    (∀ script, obexftp_cli_disconnect cli script = some (-1, cli1) →
      err_count cli1 = err_count cli + 1) ∧
    (∀ opcode script, obexftp_info cli opcode true script = some (-1, cli1) →
      err_count cli1 = err_count cli + 1) ∧
    (∀ localname remote script,
      obexftp_list cli localname (some remote) true script = some (-1, cli1) →
      err_count cli1 = err_count cli + 1) ∧
    (∀ localname remote script,
      obexftp_get cli localname (some remote) true script = some (-1, cli1) →
      err_count cli1 = err_count cli + 1) ∧
    (∀ sourcename targetname script,
      obexftp_rename cli sourcename targetname true script = some (-1, cli1) →
      err_count cli1 = err_count cli + 1) ∧
    (∀ name script, obexftp_del cli name true script = some (-1, cli1) →
      err_count cli1 = err_count cli + 1) ∧
    (∀ name scripts, obexftp_setpath cli name scripts = some (-1, cli1) →
      err_count cli1 = err_count cli + 1) ∧
    (∀ loc remotename open_ret script,
      obexftp_put_file cli (some loc) remotename open_ret script = some (-1, cli1) →
      err_count cli1 = err_count cli + 1) ∧
    (∀ irobex_ret obex_ret hdr1 hdr2 script1 script2,
      obexftp_cli_connect cli irobex_ret obex_ret hdr1 hdr2 script1 script2 = some (-1, cli1) →
      ((if irobex_ret = -1 then obex_ret else irobex_ret) < 0 →
        err_count cli1 = err_count cli + 1) ∧
      (0 ≤ (if irobex_ret = -1 then obex_ret else irobex_ret) → 0 ≤ hdr1 → 0 ≤ hdr2 →
        err_count cli1 = err_count cli + 2)) := by
  refine ⟨?_, ?_, ?_, ?_, ?_, ?_, ?_, ?_, ?_⟩
  · intro script h
    unfold obexftp_cli_disconnect at h
    dsimp only at h
    split at h
    · exact absurd h (by simp)
    · rename_i ret cli2 hs
      split at h
      · simp only [Option.some.injEq, Prod.mk.injEq] at h
        rw [← h.2, err_count_infocb_err, err_count_sync hs]
        rw [err_count_infocb_other _ _ _ _ (by decide)]
      · rename_i hneg
        simp only [Option.some.injEq, Prod.mk.injEq] at h
        exact absurd (h.1 ▸ (by decide : (-1 : Int) < 0)) hneg
  · intro opcode script h
    unfold obexftp_info at h
    simp only [Bool.true_eq_false, if_false] at h
    split at h
    · exact absurd h (by simp)
    · rename_i ret cli2 hs
      simp only [Option.some.injEq] at h
      rw [err_after_report hs h]
      rw [err_count_infocb_other _ _ _ _ (by decide)]
  · intro localname remote script h
    unfold obexftp_list at h
    simp only [Bool.true_eq_false, if_false] at h
    split at h
    · exact absurd h (by simp)
    · rename_i ret cli2 hs
      simp only [Option.some.injEq] at h
      rw [err_after_report hs h]
      have : err_count (set_target_fn
          (infocb cli OBEXFTP_EV_RECEIVING (Msg.text (some remote)) 0) localname)
          = err_count (infocb cli OBEXFTP_EV_RECEIVING (Msg.text (some remote)) 0) := by
        unfold set_target_fn
        split <;> rfl
      rw [this, err_count_infocb_other _ _ _ _ (by decide)]
  · intro localname remote script h
    unfold obexftp_get at h
    simp only [Bool.true_eq_false, if_false] at h
    split at h
    · exact absurd h (by simp)
    · rename_i ret cli2 hs
      simp only [Option.some.injEq] at h
      rw [err_after_report hs h]
      have : err_count (set_target_fn
          (infocb cli OBEXFTP_EV_RECEIVING (Msg.text (some remote)) 0) localname)
          = err_count (infocb cli OBEXFTP_EV_RECEIVING (Msg.text (some remote)) 0) := by
        unfold set_target_fn
        split <;> rfl
      rw [this, err_count_infocb_other _ _ _ _ (by decide)]
  · intro sourcename targetname script h
    unfold obexftp_rename at h
    simp only [Bool.true_eq_false, if_false] at h
    split at h
    · exact absurd h (by simp)
    · rename_i ret cli2 hs
      simp only [Option.some.injEq] at h
      rw [err_after_report hs h]
      rw [err_count_infocb_other _ _ _ _ (by decide)]
  · intro name script h
    unfold obexftp_del at h
    simp only [Bool.true_eq_false, if_false] at h
    split at h
    · exact absurd h (by simp)
    · rename_i ret cli2 hs
      simp only [Option.some.injEq] at h
      rw [err_after_report hs h]
      rw [err_count_infocb_other _ _ _ _ (by decide)]
  · intro name scripts h
    have hfin : ∀ (cli2 : obexftp_client_t) (ret : Int) (msg : Option (List Nat)),
        err_count cli2 = err_count cli → report cli2 ret msg = (-1, cli1) →
        err_count cli1 = err_count cli + 1 := by
      intro cli2 ret msg he hr
      have h1 : ret = -1 := by
        have := report_fst cli2 ret msg
        rw [hr] at this
        exact this.symm
      have h2 : cli1 = (report cli2 ret msg).2 := by rw [hr]
      rw [h2, err_count_report, he, h1]
      simp
    unfold obexftp_setpath at h
    dsimp only at h
    split at h
    · split at h
      · exact absurd h (by simp)
      · rename_i ret cli2 hs
        simp only [Option.some.injEq] at h
        refine hfin cli2 ret _ ?_ h
        rw [setpath_loop_frame _ _ _ _ _ _ _ _ hs]
        exact err_count_infocb_other _ _ _ _ (by decide)
    · split at h
      · exact absurd h (by simp)
      · rename_i ret cli2 hs
        simp only [Option.some.injEq] at h
        refine hfin cli2 ret _ ?_ h
        rw [err_count_sync hs]
        exact err_count_infocb_other _ _ _ _ (by decide)
  · intro loc remotename open_ret script h
    unfold obexftp_put_file at h
    dsimp only at h
    have h0 : err_count { syscall (infocb cli OBEXFTP_EV_SENDING (Msg.text (some loc)) 0)
        (Syscall.open_rdonly loc) with fd := open_ret } = err_count cli :=
      err_count_infocb_other cli _ _ _ (by decide)
    split at h
    · simp only [Option.some.injEq] at h
      have h2 : cli1 = (report { syscall (infocb cli OBEXFTP_EV_SENDING (Msg.text (some loc)) 0)
        (Syscall.open_rdonly loc) with fd := open_ret } (-1) (some loc)).2 := by rw [h]
      rw [h2, err_count_report, h0]
      simp
    · split at h
      · exact absurd h (by simp)
      · rename_i ret cli2 hs
        simp only [Option.some.injEq] at h
        rw [err_after_report hs h, h0]
  · intro irobex_ret obex_ret hdr1 hdr2 script1 script2 h
    obtain ⟨T, hT, hT1, hT2, hT3⟩ := connect_transport cli irobex_ret obex_ret
    have hTe : err_count T.2 = err_count cli := by
      unfold err_count
      rw [hT2]
      simp [List.filter_append]
    unfold obexftp_cli_connect at h
    dsimp only at h
    rw [hT] at h
    refine ⟨?_, ?_⟩
    · intro hneg
      rw [← hT1] at hneg
      rw [if_pos hneg] at h
      simp only [Option.some.injEq, Prod.mk.injEq, true_and] at h
      rw [← h, err_count_infocb_err, hTe]
    · intro hpos hh1 hh2
      rw [← hT1] at hpos
      rw [if_neg (not_lt.mpr hpos), if_neg (not_lt.mpr hh1)] at h
      split at h
      · exact absurd h (by simp)
      · rename_i ret cli2 hs
        split at h
        · rw [if_neg (not_lt.mpr hh2)] at h
          split at h
          · exact absurd h (by simp)
          · rename_i ret2 cli4 hs2
            split at h
            · simp only [Option.some.injEq, Prod.mk.injEq] at h
              rw [← h.2, err_count_infocb_err, err_count_sync hs2, err_count_infocb_err,
                err_count_sync hs, hTe]
            · rename_i hneg
              simp only [Option.some.injEq, Prod.mk.injEq] at h
              exact absurd (h.1 ▸ (by decide : (-1 : Int) < 0)) hneg
        · rename_i hneg
          simp only [Option.some.injEq, Prod.mk.injEq] at h
          exact absurd (h.1 ▸ (by decide : (-1 : Int) < 0)) hneg


/-- C6 (witness).  A disconnect whose request is refused. -/
theorem failure_err_events_witness :
    err_count ((obexftp_cli_disconnect obexftp_cli_open
        [⟨[Delivery.OBEX_EV_REQDONE 0x43 [] 0 true], 1⟩]).getD (0, obexftp_cli_open)).2
      = err_count obexftp_cli_open + 1 :=
  (failure_err_events obexftp_cli_open
    ((obexftp_cli_disconnect obexftp_cli_open
        [⟨[Delivery.OBEX_EV_REQDONE 0x43 [] 0 true], 1⟩]).getD (0, obexftp_cli_open)).2).1
    [⟨[Delivery.OBEX_EV_REQDONE 0x43 [] 0 true], 1⟩] (by decide)

/-- C6 (counterexample).  A connect whose two CONNECT requests are both
refused returns -1 after two ERR events, ERR("UUID") and ERR("target");
an info whose request object could not be built returns -1 after none. -/
theorem obexftp_cli_connect_two_errors :
    (obexftp_cli_connect obexftp_cli_open 0 0 0 0
        [⟨[Delivery.OBEX_EV_REQDONE 0x43 [] 0 true], 1⟩]
        [⟨[Delivery.OBEX_EV_REQDONE 0x43 [] 0 true], 1⟩]).map
        (fun r => (r.1, err_count r.2, r.2.infocb_calls))
      = some (-1, 2, [⟨OBEXFTP_EV_CONNECTING, Msg.text (some []), 0⟩,
          ⟨OBEXFTP_EV_ERR, Msg.text (some (cstr "UUID")), 0⟩,
          ⟨OBEXFTP_EV_ERR, Msg.text (some (cstr "target")), 0⟩]) ∧
    err_count obexftp_cli_open = 0 ∧
    (obexftp_info obexftp_cli_open 1 false []).map (fun r => (r.1, err_count r.2))
      = some (-1, 0) := by
  decide

/-- C7 (failing input).  A session that holds the listing of an earlier
request; the listing request of `obexftp_fast_list` fails by a
non-SUCCESS response, by a link error, by a pump error: each time the
request result is -1 and the pointer returned is the earlier listing,
not NULL. -/
theorem obexftp_fast_list_stale :
    request_outcome [⟨[Delivery.OBEX_EV_REQDONE 0x43 [] 0 true], 1⟩] = some (-1) ∧
    (obexftp_fast_list { obexftp_cli_open with body_content := some [60, 62, 0] } (some [])
        true [⟨[Delivery.OBEX_EV_REQDONE 0x43 [] 0 true], 1⟩]).map Prod.fst
      = some (some [60, 62, 0]) ∧
    request_outcome [⟨[Delivery.OBEX_EV_LINKERR], 1⟩] = some (-1) ∧
    (obexftp_fast_list { obexftp_cli_open with body_content := some [60, 62, 0] } (some [])
        true [⟨[Delivery.OBEX_EV_LINKERR], 1⟩]).map Prod.fst
      = some (some [60, 62, 0]) ∧
    request_outcome [⟨[], 0⟩] = some (-1) ∧
    (obexftp_fast_list { obexftp_cli_open with body_content := some [60, 62, 0] } (some [])
        true [⟨[], 0⟩]).map Prod.fst
      = some (some [60, 62, 0]) := by
  decide

/-- C8 (amended).  For every remote name and every script that ends the
request, `obexftp_get` returns having passed the remote name unchanged,
leading slashes included, to the GET object builder, while `obexftp_list`
and `obexftp_fast_list` pass their folder name with all leading slashes
removed. -/
theorem obexftp_get_name_unchanged (cli : obexftp_client_t) (localname : Option (List Nat))
    (remote : List Nat) (script : List Pump) (r : Int)
    (h : request_outcome script = some r) :
    (∃ cli1, obexftp_get cli localname (some remote) true script = some (r, cli1) ∧
      cli1.requests = cli.requests ++ [Request.build_get remote]) ∧
    (∃ cli1, obexftp_list cli localname (some remote) true script = some (r, cli1) ∧
      cli1.requests = cli.requests ++ [Request.build_list (skip_slashes remote)]) ∧
    (∃ res cli1, obexftp_fast_list cli (some remote) true script = some (res, cli1) ∧
      cli1.requests = cli.requests ++ [Request.build_list (skip_slashes remote)]) ∧
    skip_slashes remote = remote.dropWhile (fun c => c == 47) := by
  have htf : (set_target_fn (infocb cli OBEXFTP_EV_RECEIVING (Msg.text (some remote)) 0)
      localname).requests = cli.requests := by
    unfold set_target_fn
    split <;> rfl
  refine ⟨?_, ?_, ?_, skip_slashes_dropWhile remote⟩
  · obtain ⟨cli2, hs⟩ := cli_sync_request_returns
      (set_target_fn (infocb cli OBEXFTP_EV_RECEIVING (Msg.text (some remote)) 0) localname)
      (Request.build_get remote) h
    refine ⟨(report cli2 r (some remote)).2, ?_, ?_⟩
    · unfold obexftp_get
      simp only [Bool.true_eq_false, if_false]
      rw [hs]
      simp only
      rw [report_mk]
    · rw [report_requests, (cli_sync_request_spec hs).2.2.1, htf]
  · obtain ⟨cli2, hs⟩ := cli_sync_request_returns
      (set_target_fn (infocb cli OBEXFTP_EV_RECEIVING (Msg.text (some remote)) 0) localname)
      (Request.build_list (skip_slashes remote)) h
    refine ⟨(report cli2 r (some (skip_slashes remote))).2, ?_, ?_⟩
    · unfold obexftp_list
      simp only [Bool.true_eq_false, if_false]
      rw [hs]
      simp only
      rw [report_mk]
    · rw [report_requests, (cli_sync_request_spec hs).2.2.1, htf]
  · obtain ⟨cli2, hs⟩ := cli_sync_request_returns
      { infocb cli OBEXFTP_EV_RECEIVING (Msg.text (some remote)) 0 with target_fn := none }
      (Request.build_list (skip_slashes remote)) h
    refine ⟨(report cli2 r (some (skip_slashes remote))).2.body_content,
      (report cli2 r (some (skip_slashes remote))).2, ?_, ?_⟩
    · unfold obexftp_fast_list
      simp only [Bool.true_eq_false, if_false]
      rw [hs]
    · rw [report_requests, (cli_sync_request_spec hs).2.2.1]
      rfl

/-- C8 (witness).  A get of the remote name /a. -/
theorem obexftp_get_name_unchanged_witness :
    ∃ cli1, obexftp_get obexftp_cli_open none (some [47, 97]) true
        [⟨[Delivery.OBEX_EV_REQDONE 0x20 [] 0 true], 1⟩] = some (1, cli1) ∧
      cli1.requests = obexftp_cli_open.requests ++ [Request.build_get [47, 97]] :=
  (obexftp_get_name_unchanged obexftp_cli_open none [47, 97]
    [⟨[Delivery.OBEX_EV_REQDONE 0x20 [] 0 true], 1⟩] 1 (by decide)).1

/-- C8 (counterexample).  For the remote name /a the GET object builder
is given /a, not a; the listing builder is given a. -/
theorem obexftp_get_keeps_leading_slash :
    (obexftp_get obexftp_cli_open none (some [47, 97]) true
        [⟨[Delivery.OBEX_EV_REQDONE 0x20 [] 0 true], 1⟩]).map (fun r => r.2.requests)
      = some [Request.build_get [47, 97]] ∧
    skip_slashes [47, 97] = [97] ∧
    (obexftp_list obexftp_cli_open none (some [47, 97]) true
        [⟨[Delivery.OBEX_EV_REQDONE 0x20 [] 0 true], 1⟩]).map (fun r => r.2.requests)
      = some [Request.build_list [97]] := by
  decide

/-- C10.  The browse for File Transfer on a server whose PCSuite search
fails (the 16-bit search would find channel 9) has no defined result: the
failed search has released the session, and the 16-bit search and the
final `sdp_close` are made on it; for every 17-character address and
every server whose PCSuite search fails the same holds when the class is
0x1106 after the coercion.  A failed 16-bit search for Object Push
likewise releases the session twice.  For every 17-character address with
a reachable SDP server, every service class s and c the class s when s is
0x1104, 0x1105 or 0x1106 and 0x1106 otherwise, when no search that is
issued fails: the PCSuite 128-bit UUID is searched if and only if c is
0x1106; if that search yields a positive channel the result is that
channel and no 16-bit search is issued (PCSuite 10 and File Transfer 9
give 10); otherwise the result is the channel of the 16-bit search for
c. -/
theorem obexftp_browse_bt_src_closed_session :
    obexftp_browse_bt_src none (some (List.replicate 17 48)) 0x1106 true
        (fun u => if u = uuid_t.uuid128 SVC_UUID_PCSUITE then none else some [some 9])
      = none ∧
    channel_of (fun u => if u = uuid_t.uuid128 SVC_UUID_PCSUITE then none else some [some 9])
        (uuid_t.uuid16 0x1106) = 9 ∧
    browse_sdp_uuid
        (fun u => if u = uuid_t.uuid128 SVC_UUID_PCSUITE then none else some [some 9])
        ⟨false, []⟩ (uuid_t.uuid128 SVC_UUID_PCSUITE)
      = some (-1, ⟨true, [SdpCall.sdp_service_search_attr_req
          (uuid_t.uuid128 SVC_UUID_PCSUITE), SdpCall.sdp_close]⟩) ∧
    (∀ (src : Option (List Nat)) (a : List Nat) (svclass : Int) (sdp : SdpServer),
      a.length = 17 → coerced svclass = 0x1106 →
      sdp (uuid_t.uuid128 SVC_UUID_PCSUITE) = none →
      obexftp_browse_bt_src src (some a) svclass true sdp = none) ∧
    obexftp_browse_bt_src none (some (List.replicate 17 48)) 0x1105 true (fun _ => none)
      = none ∧
    obexftp_browse_bt_src none (some (List.replicate 17 48)) 0x1106 true
        (fun u => if u = uuid_t.uuid128 SVC_UUID_PCSUITE then some [some 10]
          else some [some 9])
      = some (10, [SdpCall.sdp_service_search_attr_req (uuid_t.uuid128 SVC_UUID_PCSUITE)]) ∧
    (∀ (src : Option (List Nat)) (a : List Nat) (svclass : Int) (sdp : SdpServer),
      a.length = 17 →
      (coerced svclass = 0x1106 → sdp (uuid_t.uuid128 SVC_UUID_PCSUITE) ≠ none) →
      (¬ (coerced svclass = 0x1106 ∧ 0 < channel_of sdp (uuid_t.uuid128 SVC_UUID_PCSUITE)) →
        sdp (uuid_t.uuid16 (coerced svclass)) ≠ none) →
      ∃ res calls, obexftp_browse_bt_src src (some a) svclass true sdp = some (res, calls) ∧
        (SdpCall.sdp_service_search_attr_req (uuid_t.uuid128 SVC_UUID_PCSUITE) ∈ calls
          ↔ coerced svclass = 0x1106) ∧
        (coerced svclass = 0x1106 →
          0 < channel_of sdp (uuid_t.uuid128 SVC_UUID_PCSUITE) →
          res = channel_of sdp (uuid_t.uuid128 SVC_UUID_PCSUITE) ∧
          ∀ s, SdpCall.sdp_service_search_attr_req (uuid_t.uuid16 s) ∉ calls) ∧
        (¬ (coerced svclass = 0x1106 ∧
            0 < channel_of sdp (uuid_t.uuid128 SVC_UUID_PCSUITE)) →
          res = channel_of sdp (uuid_t.uuid16 (coerced svclass)) ∧
          SdpCall.sdp_service_search_attr_req (uuid_t.uuid16 (coerced svclass))
            ∈ calls)) := by
  refine ⟨by decide, by decide, by decide, ?_, by decide, by decide, ?_⟩
  · intro src a svclass sdp ha h6 hs
    exact obexftp_browse_bt_src_released src a svclass sdp ha h6 hs
  · intro src a svclass sdp ha h1 h2
    by_cases h6 : coerced svclass = 0x1106
    · by_cases hpos : 0 < channel_of sdp (uuid_t.uuid128 SVC_UUID_PCSUITE)
      · refine ⟨_, _, obexftp_browse_bt_src_pcsuite src a svclass sdp ha h6 hpos,
          ⟨fun _ => h6, fun _ => by simp⟩, fun _ _ => ⟨rfl, fun s => by simp⟩,
          fun hn => absurd ⟨h6, hpos⟩ hn⟩
      · refine ⟨_, _, obexftp_browse_bt_src_fallback src a svclass sdp ha h6 (h1 h6) hpos
            (h2 (fun h => hpos h.2)),
          ⟨fun _ => h6, fun _ => by simp⟩, fun _ hp => absurd hp hpos,
          fun _ => ⟨rfl, by simp⟩⟩
    · refine ⟨_, _, obexftp_browse_bt_src_class src a svclass sdp ha h6
          (h2 (fun h => h6 h.1)),
        ⟨fun hm => ?_, fun h => absurd h h6⟩, fun h => absurd h h6,
        fun _ => ⟨rfl, by simp⟩⟩
      simp at hm


/-- C14.  For every session state and every response code r: handling a
request_done event leaves `finished` true, the last response code r, and
`success` true if and only if r is SUCCESS; handling a link_error event
leaves `finished` true and `success` false; handling a progress event
changes none of `finished`, `success` and the last response code. -/
theorem cli_obex_event_state (cli : obexftp_client_t) :
    (∀ (r : Int) (headers : List Header) (creat_ret : Int) (malloc_ok : Bool),
      (cli_obex_event cli (Delivery.OBEX_EV_REQDONE r headers creat_ret malloc_ok)).finished = true ∧
      (cli_obex_event cli (Delivery.OBEX_EV_REQDONE r headers creat_ret malloc_ok)).obex_rsp = r ∧
      ((cli_obex_event cli (Delivery.OBEX_EV_REQDONE r headers creat_ret malloc_ok)).success = true
        ↔ r = OBEX_RSP_SUCCESS)) ∧
    ((cli_obex_event cli Delivery.OBEX_EV_LINKERR).finished = true ∧
      (cli_obex_event cli Delivery.OBEX_EV_LINKERR).success = false) ∧
    ((cli_obex_event cli Delivery.OBEX_EV_PROGRESS).finished = cli.finished ∧
      (cli_obex_event cli Delivery.OBEX_EV_PROGRESS).success = cli.success ∧
      (cli_obex_event cli Delivery.OBEX_EV_PROGRESS).obex_rsp = cli.obex_rsp) := by
  refine ⟨?_, ⟨rfl, rfl⟩, ⟨rfl, rfl, rfl⟩⟩
  intro r headers creat_ret malloc_ok
  rw [cli_obex_event_reqdone_eq]
  refine ⟨?_, ?_, ?_⟩
  · rw [(@client_done_flags malloc_ok _ _ _).1]
  · rw [client_done_rsp]
  · rw [(@client_done_flags malloc_ok _ _ _).2]
    simp

/-- C15.  For every stream_empty event the handler, through
`cli_fillstream`, reads once from the outbound descriptor and appends
exactly one BODY header to the request: when the read returns n > 0
bytes, n at most the chunk size, the header carries those n bytes with
the stream-data flag and the descriptor is kept, with no `close`; when
the read returns 0 the header has no bytes and the stream-data-end flag;
when the read fails the header has no bytes and the plain stream-data
flag; in the last two cases the descriptor is closed and the session's
outbound descriptor becomes -1. -/
theorem cli_fillstream_header (cli : obexftp_client_t) (actual : Int) (data : List Nat) :
    (0 < actual → actual ≤ STREAM_CHUNK → data.length = actual.toNat →
      (cli_obex_event cli (Delivery.OBEX_EV_STREAMEMPTY actual data)).added
        = cli.added ++ [⟨OBEX_HDR_BODY, data, actual, StreamFlag.OBEX_FL_STREAM_DATA⟩] ∧
      (cli_obex_event cli (Delivery.OBEX_EV_STREAMEMPTY actual data)).fd = cli.fd ∧
      (cli_obex_event cli (Delivery.OBEX_EV_STREAMEMPTY actual data)).syscalls
        = cli.syscalls ++ [Syscall.read cli.fd STREAM_CHUNK]) ∧
    (actual = 0 →
      (cli_obex_event cli (Delivery.OBEX_EV_STREAMEMPTY actual data)).added
        = cli.added ++ [⟨OBEX_HDR_BODY, [], 0, StreamFlag.OBEX_FL_STREAM_DATAEND⟩] ∧
      (cli_obex_event cli (Delivery.OBEX_EV_STREAMEMPTY actual data)).fd = -1 ∧
      (cli_obex_event cli (Delivery.OBEX_EV_STREAMEMPTY actual data)).syscalls
        = cli.syscalls ++ [Syscall.read cli.fd STREAM_CHUNK, Syscall.close cli.fd]) ∧
    (actual < 0 →
      (cli_obex_event cli (Delivery.OBEX_EV_STREAMEMPTY actual data)).added
        = cli.added ++ [⟨OBEX_HDR_BODY, [], 0, StreamFlag.OBEX_FL_STREAM_DATA⟩] ∧
      (cli_obex_event cli (Delivery.OBEX_EV_STREAMEMPTY actual data)).fd = -1 ∧
      (cli_obex_event cli (Delivery.OBEX_EV_STREAMEMPTY actual data)).syscalls
        = cli.syscalls ++ [Syscall.read cli.fd STREAM_CHUNK, Syscall.close cli.fd]) := by
  refine ⟨?_, ?_, ?_⟩
  · intro hpos _ hlen
    have htake : data.take actual.toNat = data := by
      rw [← hlen]
      exact List.take_length data
    simp only [cli_obex_event, cli_fillstream, syscall]
    rw [if_pos hpos, htake]
    exact ⟨rfl, rfl, rfl⟩
  · intro h0
    subst h0
    simp [cli_obex_event, cli_fillstream, syscall]
  · intro hneg
    have h1 : ¬ actual > 0 := by omega
    have h2 : ¬ actual = 0 := by omega
    simp only [cli_obex_event, cli_fillstream, syscall]
    rw [if_neg h1, if_neg h2]
    simp

/-- C15 (witness).  A read of three bytes, an end of file and a failed
read on descriptor 5. -/
theorem cli_fillstream_header_witness :
    ((cli_obex_event { obexftp_cli_open with fd := 5 }
        (Delivery.OBEX_EV_STREAMEMPTY 3 [7, 8, 9])).added
      = obexftp_cli_open.added ++ [⟨OBEX_HDR_BODY, [7, 8, 9], 3, StreamFlag.OBEX_FL_STREAM_DATA⟩]
      ∧ (cli_obex_event { obexftp_cli_open with fd := 5 }
        (Delivery.OBEX_EV_STREAMEMPTY 3 [7, 8, 9])).fd = 5
      ∧ (cli_obex_event { obexftp_cli_open with fd := 5 }
        (Delivery.OBEX_EV_STREAMEMPTY 3 [7, 8, 9])).syscalls
      = obexftp_cli_open.syscalls ++ [Syscall.read 5 STREAM_CHUNK]) ∧
    ((cli_obex_event { obexftp_cli_open with fd := 5 }
        (Delivery.OBEX_EV_STREAMEMPTY 0 [])).added
      = obexftp_cli_open.added ++ [⟨OBEX_HDR_BODY, [], 0, StreamFlag.OBEX_FL_STREAM_DATAEND⟩]
      ∧ (cli_obex_event { obexftp_cli_open with fd := 5 }
        (Delivery.OBEX_EV_STREAMEMPTY 0 [])).fd = -1
      ∧ (cli_obex_event { obexftp_cli_open with fd := 5 }
        (Delivery.OBEX_EV_STREAMEMPTY 0 [])).syscalls
      = obexftp_cli_open.syscalls ++ [Syscall.read 5 STREAM_CHUNK, Syscall.close 5]) ∧
    ((cli_obex_event { obexftp_cli_open with fd := 5 }
        (Delivery.OBEX_EV_STREAMEMPTY (-1) [])).added
      = obexftp_cli_open.added ++ [⟨OBEX_HDR_BODY, [], 0, StreamFlag.OBEX_FL_STREAM_DATA⟩]
      ∧ (cli_obex_event { obexftp_cli_open with fd := 5 }
        (Delivery.OBEX_EV_STREAMEMPTY (-1) [])).fd = -1
      ∧ (cli_obex_event { obexftp_cli_open with fd := 5 }
        (Delivery.OBEX_EV_STREAMEMPTY (-1) [])).syscalls
      = obexftp_cli_open.syscalls ++ [Syscall.read 5 STREAM_CHUNK, Syscall.close 5]) :=
  ⟨(cli_fillstream_header { obexftp_cli_open with fd := 5 } 3 [7, 8, 9]).1
      (by decide) (by decide) (by decide),
    (cli_fillstream_header { obexftp_cli_open with fd := 5 } 0 []).2.1 rfl,
    (cli_fillstream_header { obexftp_cli_open with fd := 5 } (-1) []).2.2 (by decide)⟩


/-- C16 (amended).  For every sequence of response headers, the inbound
drain walks the headers up to and including the first APPARAM header and
no further: the events it emits are one BODY event per BODY header (with
that header's bytes and length) and one INFO event for the APPARAM header
if its length is 6, in header order, for those headers alone.  A sequence
without an APPARAM header is walked to its end; of a sequence with one,
what stands after the first APPARAM header is not walked. -/
theorem client_done_walk (malloc_ok : Bool) (cli : obexftp_client_t) (headers : List Header)
    (creat_ret : Int) :
    (client_done cli headers creat_ret malloc_ok).infocb_calls
      = cli.infocb_calls ++ spec_drain_events (walked_headers headers) ∧
    ((∀ x ∈ headers, x.hi ≠ OBEX_HDR_APPARAM) → walked_headers headers = headers) ∧
    (∀ (pre : List Header) (a : Header) (post : List Header),
      headers = pre ++ a :: post → (∀ x ∈ pre, x.hi ≠ OBEX_HDR_APPARAM) →
      a.hi = OBEX_HDR_APPARAM → walked_headers headers = pre ++ [a]) := by
  refine ⟨?_, walked_headers_all headers, ?_⟩
  · unfold client_done
    dsimp only
    rw [client_done_write_calls, client_done_loop_events]
    split <;> rfl
  · intro pre a post hh hpre ha
    rw [hh]
    exact walked_headers_upto pre a post hpre ha

/-- C16 (witness).  A BODY header, a WHO header, an APPARAM record and a
second BODY header: the walk ends at the APPARAM record. -/
theorem client_done_walk_witness :
    walked_headers [⟨OBEX_HDR_BODY, [60, 62]⟩, ⟨OBEX_HDR_WHO, [1]⟩,
        ⟨OBEX_HDR_APPARAM, [1, 4, 0, 0, 16, 0]⟩, ⟨OBEX_HDR_BODY, [63]⟩]
      = [⟨OBEX_HDR_BODY, [60, 62]⟩, ⟨OBEX_HDR_WHO, [1]⟩]
        ++ [⟨OBEX_HDR_APPARAM, [1, 4, 0, 0, 16, 0]⟩] :=
  (client_done_walk true obexftp_cli_open [⟨OBEX_HDR_BODY, [60, 62]⟩, ⟨OBEX_HDR_WHO, [1]⟩,
        ⟨OBEX_HDR_APPARAM, [1, 4, 0, 0, 16, 0]⟩, ⟨OBEX_HDR_BODY, [63]⟩] 0).2.2
    [⟨OBEX_HDR_BODY, [60, 62]⟩, ⟨OBEX_HDR_WHO, [1]⟩] ⟨OBEX_HDR_APPARAM, [1, 4, 0, 0, 16, 0]⟩
    [⟨OBEX_HDR_BODY, [63]⟩] rfl (by decide) rfl

/-- C16 (counterexample).  An APPARAM record followed by a BODY header:
the spec's walk gives INFO then BODY, the drain emits the INFO event
alone; and after an APPARAM header of length 5 the BODY header is not
reported either. -/
theorem client_done_stops_at_apparam :
    spec_drain_events [⟨OBEX_HDR_APPARAM, [1, 4, 0, 0, 16, 0]⟩, ⟨OBEX_HDR_BODY, [60, 62]⟩]
      = [⟨OBEXFTP_EV_INFO, Msg.int 4096, 0⟩, ⟨OBEXFTP_EV_BODY, Msg.bytes [60, 62], 2⟩] ∧
    (client_done obexftp_cli_open
        [⟨OBEX_HDR_APPARAM, [1, 4, 0, 0, 16, 0]⟩, ⟨OBEX_HDR_BODY, [60, 62]⟩] 0 true).infocb_calls
      = [⟨OBEXFTP_EV_INFO, Msg.int 4096, 0⟩] ∧
    spec_drain_events [⟨OBEX_HDR_APPARAM, [1, 4, 0, 0, 16]⟩, ⟨OBEX_HDR_BODY, [60, 62]⟩]
      = [⟨OBEXFTP_EV_BODY, Msg.bytes [60, 62], 2⟩] ∧
    (client_done obexftp_cli_open
        [⟨OBEX_HDR_APPARAM, [1, 4, 0, 0, 16]⟩, ⟨OBEX_HDR_BODY, [60, 62]⟩] 0 true).infocb_calls
      = [] := by
  decide


/-- C13 (amended).  For every response drained with no target file path
set whose headers hold exactly one BODY header, no APPARAM header before
it, carrying non-empty bytes b (a header length is a 32-bit count), and
for which `malloc` returns a buffer: the session's accumulator afterwards
has length |b|, equals b at every index except the last, and its last
byte is NUL; and the buffer `obexftp_fast_list` returns after a successful
listing answered by such a response is this accumulator. -/
theorem client_done_accumulator (cli sess : obexftp_client_t) (b name : List Nat)
    (pre post : List Header) (creat_ret : Int) (pumps : List Pump) (ret : Int)
    (ht : cli.target_fn = none)
    (hpre : ∀ x ∈ pre, x.hi ≠ OBEX_HDR_BODY ∧ x.hi ≠ OBEX_HDR_APPARAM)
    (hpost : ∀ x ∈ post, x.hi ≠ OBEX_HDR_BODY) (hb : b ≠ []) (hlen : b.length < 2 ^ 32)
    (hp : ∀ p ∈ pumps, progress_only p) (hret : 0 < ret) :
    ((client_done cli (pre ++ ⟨OBEX_HDR_BODY, b⟩ :: post) creat_ret true).body_content
        = some (b.set (b.length - 1) 0) ∧
      (b.set (b.length - 1) 0).length = b.length ∧
      (∀ i, i + 1 < b.length → (b.set (b.length - 1) 0)[i]? = b[i]?) ∧
      (b.set (b.length - 1) 0)[b.length - 1]? = some 0) ∧
    (request_outcome (pumps ++ [⟨[Delivery.OBEX_EV_REQDONE OBEX_RSP_SUCCESS
        (pre ++ ⟨OBEX_HDR_BODY, b⟩ :: post) creat_ret true], ret⟩]) = some 1 ∧
      ∃ cli1, obexftp_fast_list sess (some name) true
          (pumps ++ [⟨[Delivery.OBEX_EV_REQDONE OBEX_RSP_SUCCESS
            (pre ++ ⟨OBEX_HDR_BODY, b⟩ :: post) creat_ret true], ret⟩])
          = some (some (b.set (b.length - 1) 0), cli1) ∧
        cli1.body_content = some (b.set (b.length - 1) 0)) := by
  have hpos : 0 < b.length := List.length_pos.mpr hb
  refine ⟨⟨client_done_content cli b pre post creat_ret ht hpre hpost hb hlen, ?_, ?_, ?_⟩,
    request_outcome_success pumps _ creat_ret ret true hp hret, ?_⟩
  · simp
  · intro i hi
    rw [List.getElem?_set_ne (by omega)]
  · rw [List.getElem?_set_self (by omega)]
  · obtain ⟨r, hr⟩ := @cli_sync_request_reqdone true
      { infocb sess OBEXFTP_EV_RECEIVING (Msg.text (some name)) 0 with target_fn := none }
      (Request.build_list (skip_slashes name)) pumps OBEX_RSP_SUCCESS
      (pre ++ ⟨OBEX_HDR_BODY, b⟩ :: post) creat_ret ret hp
    have hst : (pumped (submitted
        { infocb sess OBEXFTP_EV_RECEIVING (Msg.text (some name)) 0 with target_fn := none }
        (Request.build_list (skip_slashes name))) pumps).target_fn = none := by
      rw [pumped_progress _ _ hp]
      rfl
    have hacc : (cli_obex_event (pumped (submitted
        { infocb sess OBEXFTP_EV_RECEIVING (Msg.text (some name)) 0 with target_fn := none }
        (Request.build_list (skip_slashes name))) pumps)
        (Delivery.OBEX_EV_REQDONE OBEX_RSP_SUCCESS (pre ++ ⟨OBEX_HDR_BODY, b⟩ :: post)
          creat_ret true)).body_content = some (b.set (b.length - 1) 0) := by
      rw [cli_obex_event_reqdone_eq]
      exact client_done_content _ b pre post creat_ret hst hpre hpost hb hlen
    have hk := report_keeps (cli_obex_event (pumped (submitted
        { infocb sess OBEXFTP_EV_RECEIVING (Msg.text (some name)) 0 with target_fn := none }
        (Request.build_list (skip_slashes name))) pumps)
        (Delivery.OBEX_EV_REQDONE OBEX_RSP_SUCCESS (pre ++ ⟨OBEX_HDR_BODY, b⟩ :: post)
          creat_ret true))
      r (some (skip_slashes name))
    refine ⟨_, ?_, hk.2.2.trans hacc⟩
    unfold obexftp_fast_list
    simp only [Bool.true_eq_false, if_false]
    rw [hr]
    simp only
    rw [hk.2.2, hacc]

/-- C13 (witness).  A root listing answered with SUCCESS by one BODY
header with the five bytes of the text <?xml: the returned buffer holds
the first four and a NUL. -/
theorem client_done_accumulator_witness :
    request_outcome ([] ++ [⟨[Delivery.OBEX_EV_REQDONE OBEX_RSP_SUCCESS
        ([] ++ ⟨OBEX_HDR_BODY, [60, 63, 120, 109, 108]⟩ :: []) 0 true], 1⟩]) = some 1 ∧
    ∃ cli1, obexftp_fast_list obexftp_cli_open (some []) true
        ([] ++ [⟨[Delivery.OBEX_EV_REQDONE OBEX_RSP_SUCCESS
          ([] ++ ⟨OBEX_HDR_BODY, [60, 63, 120, 109, 108]⟩ :: []) 0 true], 1⟩])
        = some (some ([60, 63, 120, 109, 108].set ([60, 63, 120, 109, 108].length - 1) 0), cli1) ∧
      cli1.body_content
        = some ([60, 63, 120, 109, 108].set ([60, 63, 120, 109, 108].length - 1) 0) :=
  (client_done_accumulator obexftp_cli_open obexftp_cli_open [60, 63, 120, 109, 108] []
    [] [] 0 [] 1 rfl (by decide) (by decide) (by decide) (by norm_num)
    (by intro p hp; cases hp) (by decide)).2

/-- C13 (counterexample).  No target file path is set and the response
holds exactly one BODY header with the two bytes 60 62.  When an APPARAM
record stands before it, the accumulator is still empty afterwards and
the listing call, though successful, returns NULL; and so it is when
`malloc` returns NULL for the BODY header. -/
theorem client_done_body_after_apparam :
    obexftp_cli_open.target_fn = none ∧
    (client_done obexftp_cli_open
        [⟨OBEX_HDR_APPARAM, [1, 4, 0, 0, 16, 0]⟩, ⟨OBEX_HDR_BODY, [60, 62]⟩] 0
        true).body_content = none ∧
    request_outcome [⟨[Delivery.OBEX_EV_REQDONE 0x20
        [⟨OBEX_HDR_APPARAM, [1, 4, 0, 0, 16, 0]⟩, ⟨OBEX_HDR_BODY, [60, 62]⟩] 0 true], 1⟩]
      = some 1 ∧
    (obexftp_fast_list obexftp_cli_open (some []) true
        [⟨[Delivery.OBEX_EV_REQDONE 0x20
          [⟨OBEX_HDR_APPARAM, [1, 4, 0, 0, 16, 0]⟩, ⟨OBEX_HDR_BODY, [60, 62]⟩] 0 true], 1⟩]).map
      Prod.fst = some none ∧
    (client_done obexftp_cli_open [⟨OBEX_HDR_BODY, [60, 62]⟩] 0 false).body_content = none ∧
    (obexftp_fast_list obexftp_cli_open (some []) true
        [⟨[Delivery.OBEX_EV_REQDONE 0x20 [⟨OBEX_HDR_BODY, [60, 62]⟩] 0 false], 1⟩]).map
      Prod.fst = some none := by
  decide

/-- C17 (failing input).  A BODY header of length 0 drained with no
target file path set: the `uint32_t` index `hlen - 1` is 4294967295, which
is not below the buffer size 0, and the NUL is stored at that index
outside the buffer of 0 bytes; for every length from 1 to 2^32 - 1 the
index is `hlen - 1` and lies inside the buffer. -/
theorem client_done_empty_body_store :
    u32_pred 0 = 4294967295 ∧ ¬ u32_pred 0 < 0 ∧
    obexftp_cli_open.target_fn = none ∧
    (client_done obexftp_cli_open [⟨OBEX_HDR_BODY, []⟩] 0 true).wild_stores = [(4294967295, 0)] ∧
    ((obexftp_fast_list obexftp_cli_open (some []) true
        [⟨[Delivery.OBEX_EV_REQDONE 0x20 [⟨OBEX_HDR_BODY, []⟩] 0 true], 1⟩]).map
      (fun r => r.2.wild_stores)) = some [(4294967295, 0)] ∧
    (∀ hlen : Nat, 0 < hlen → hlen < 2 ^ 32 → u32_pred hlen = hlen - 1 ∧ u32_pred hlen < hlen) := by
  refine ⟨by decide, by decide, rfl, by decide, by decide, ?_⟩
  intro hlen h0 h
  rw [u32_pred_pos hlen h0 h]
  exact ⟨rfl, by omega⟩

/-- C11 (failing input).  A put of a file opened as descriptor 5.  When
its request ends in request_done with no end of file read before, the
descriptor is closed once in the call and once more while the next
request (a delete) is handled: twice.  When it ends in link_error it is
not closed in the call, the outbound descriptor of the session is still
5, and the next two requests close it once each.  Only when the end of
file was read first is it closed exactly once. -/
theorem obexftp_put_file_close_count :
    (obexftp_put_file obexftp_cli_open (some [102]) (some [102]) 5
        [⟨[Delivery.OBEX_EV_REQDONE 0x20 [] 0 true], 1⟩]).map
      (fun r => (r.1, close_count r.2 5, r.2.fd)) = some (1, 1, 5) ∧
    ((obexftp_put_file obexftp_cli_open (some [102]) (some [102]) 5
        [⟨[Delivery.OBEX_EV_REQDONE 0x20 [] 0 true], 1⟩]).bind
      (fun r => obexftp_del r.2 (some [120]) true
        [⟨[Delivery.OBEX_EV_REQDONE 0x20 [] 0 true], 1⟩])).map
      (fun r => (r.1, close_count r.2 5)) = some (1, 2) ∧
    (obexftp_put_file obexftp_cli_open (some [102]) (some [102]) 5
        [⟨[Delivery.OBEX_EV_LINKERR], 1⟩]).map
      (fun r => (r.1, close_count r.2 5, r.2.fd)) = some (-1, 0, 5) ∧
    (((obexftp_put_file obexftp_cli_open (some [102]) (some [102]) 5
        [⟨[Delivery.OBEX_EV_LINKERR], 1⟩]).bind
      (fun r => obexftp_del r.2 (some [120]) true
        [⟨[Delivery.OBEX_EV_REQDONE 0x20 [] 0 true], 1⟩])).bind
      (fun r => obexftp_del r.2 (some [121]) true
        [⟨[Delivery.OBEX_EV_REQDONE 0x20 [] 0 true], 1⟩])).map
      (fun r => (r.1, close_count r.2 5)) = some (1, 2) ∧
    ((obexftp_put_file obexftp_cli_open (some [102]) (some [102]) 5
        [⟨[Delivery.OBEX_EV_STREAMEMPTY 0 [], Delivery.OBEX_EV_REQDONE 0x20 [] 0 true], 1⟩]).bind
      (fun r => obexftp_del r.2 (some [120]) true
        [⟨[Delivery.OBEX_EV_REQDONE 0x20 [] 0 true], 1⟩])).map
      (fun r => (r.1, close_count r.2 5, r.2.fd)) = some (1, 1, -1) := by
  decide

end ObexFtp
